import Mathlib

/-!
The Modbus RTU library osmo-modbus: frame codec, serial endpoint and state machines.

A shallow embedding of `src/conn_rtu.c` (CRC, frame codec, endpoint), `src/prim.c`
(primitive constructors), `src/rtu_transmit_fsm.c` (RTU transmission FSM), `src/conn.c`,
`src/conn_master_fsm.c` and `src/conn_slave_fsm.c` (connections), with the properties of
the library stated against it.

Conventions of the embedding:

* a byte is a natural number below 256 and a buffer (`msgb` data, a `uint8_t *`
  together with its length) is a `List Nat`;
* `uint8_t` / `uint16_t` stores are written with an explicit `% 256` / `% 65536`;
* a function that can abort (`OSMO_ASSERT`, `msgb_put` beyond the tailroom, a division
  by zero) returns an `Option`, `none` being the abort;
* a `memcpy` between a `uint16_t` array and a byte buffer depends on the byte
  order of the host, which is an explicit parameter (`host_endian`);
* an FSM instance of libosmocore is the pair of its state and its pending timer;
  `osmo_fsm_inst_dispatch` returns -1 for an event outside the `in_event_mask` of the
  state, a state change outside the `out_state_mask` changes nothing, and a state
  change starts the timer of the new state in whole seconds, rounded up;
* the function pointers `proto_ops` of a connection are a parameter `ops`; the lists
  `tx_log`, `cb_log` and `submit_log` of a connection record what was handed to
  `tx_prim`, what the callback was invoked with and what was accepted for submission;
  what the application submits from inside a callback is the argument `app` of the
  event.
-/

namespace OsmoModbus

/-! ## CRC-16 (`conn_rtu.c`, lines 62-137) -/

/-- High-Order Byte Table (`table_crc_hi` of `conn_rtu.c`). -/
def table_crc_hi : List Nat := [
  0x00, 0xC1, 0x81, 0x40, 0x01, 0xC0, 0x80, 0x41, 0x01, 0xC0,
  0x80, 0x41, 0x00, 0xC1, 0x81, 0x40, 0x01, 0xC0, 0x80, 0x41,
  0x00, 0xC1, 0x81, 0x40, 0x00, 0xC1, 0x81, 0x40, 0x01, 0xC0,
  0x80, 0x41, 0x01, 0xC0, 0x80, 0x41, 0x00, 0xC1, 0x81, 0x40,
  0x00, 0xC1, 0x81, 0x40, 0x01, 0xC0, 0x80, 0x41, 0x00, 0xC1,
  0x81, 0x40, 0x01, 0xC0, 0x80, 0x41, 0x01, 0xC0, 0x80, 0x41,
  0x00, 0xC1, 0x81, 0x40, 0x01, 0xC0, 0x80, 0x41, 0x00, 0xC1,
  0x81, 0x40, 0x00, 0xC1, 0x81, 0x40, 0x01, 0xC0, 0x80, 0x41,
  0x00, 0xC1, 0x81, 0x40, 0x01, 0xC0, 0x80, 0x41, 0x01, 0xC0,
  0x80, 0x41, 0x00, 0xC1, 0x81, 0x40, 0x00, 0xC1, 0x81, 0x40,
  0x01, 0xC0, 0x80, 0x41, 0x01, 0xC0, 0x80, 0x41, 0x00, 0xC1,
  0x81, 0x40, 0x01, 0xC0, 0x80, 0x41, 0x00, 0xC1, 0x81, 0x40,
  0x00, 0xC1, 0x81, 0x40, 0x01, 0xC0, 0x80, 0x41, 0x01, 0xC0,
  0x80, 0x41, 0x00, 0xC1, 0x81, 0x40, 0x00, 0xC1, 0x81, 0x40,
  0x01, 0xC0, 0x80, 0x41, 0x00, 0xC1, 0x81, 0x40, 0x01, 0xC0,
  0x80, 0x41, 0x01, 0xC0, 0x80, 0x41, 0x00, 0xC1, 0x81, 0x40,
  0x00, 0xC1, 0x81, 0x40, 0x01, 0xC0, 0x80, 0x41, 0x01, 0xC0,
  0x80, 0x41, 0x00, 0xC1, 0x81, 0x40, 0x01, 0xC0, 0x80, 0x41,
  0x00, 0xC1, 0x81, 0x40, 0x00, 0xC1, 0x81, 0x40, 0x01, 0xC0,
  0x80, 0x41, 0x00, 0xC1, 0x81, 0x40, 0x01, 0xC0, 0x80, 0x41,
  0x01, 0xC0, 0x80, 0x41, 0x00, 0xC1, 0x81, 0x40, 0x01, 0xC0,
  0x80, 0x41, 0x00, 0xC1, 0x81, 0x40, 0x00, 0xC1, 0x81, 0x40,
  0x01, 0xC0, 0x80, 0x41, 0x01, 0xC0, 0x80, 0x41, 0x00, 0xC1,
  0x81, 0x40, 0x00, 0xC1, 0x81, 0x40, 0x01, 0xC0, 0x80, 0x41,
  0x00, 0xC1, 0x81, 0x40, 0x01, 0xC0, 0x80, 0x41, 0x01, 0xC0,
  0x80, 0x41, 0x00, 0xC1, 0x81, 0x40
]

/-- Low-Order Byte Table (`table_crc_lo` of `conn_rtu.c`). -/
def table_crc_lo : List Nat := [
  0x00, 0xC0, 0xC1, 0x01, 0xC3, 0x03, 0x02, 0xC2, 0xC6, 0x06,
  0x07, 0xC7, 0x05, 0xC5, 0xC4, 0x04, 0xCC, 0x0C, 0x0D, 0xCD,
  0x0F, 0xCF, 0xCE, 0x0E, 0x0A, 0xCA, 0xCB, 0x0B, 0xC9, 0x09,
  0x08, 0xC8, 0xD8, 0x18, 0x19, 0xD9, 0x1B, 0xDB, 0xDA, 0x1A,
  0x1E, 0xDE, 0xDF, 0x1F, 0xDD, 0x1D, 0x1C, 0xDC, 0x14, 0xD4,
  0xD5, 0x15, 0xD7, 0x17, 0x16, 0xD6, 0xD2, 0x12, 0x13, 0xD3,
  0x11, 0xD1, 0xD0, 0x10, 0xF0, 0x30, 0x31, 0xF1, 0x33, 0xF3,
  0xF2, 0x32, 0x36, 0xF6, 0xF7, 0x37, 0xF5, 0x35, 0x34, 0xF4,
  0x3C, 0xFC, 0xFD, 0x3D, 0xFF, 0x3F, 0x3E, 0xFE, 0xFA, 0x3A,
  0x3B, 0xFB, 0x39, 0xF9, 0xF8, 0x38, 0x28, 0xE8, 0xE9, 0x29,
  0xEB, 0x2B, 0x2A, 0xEA, 0xEE, 0x2E, 0x2F, 0xEF, 0x2D, 0xED,
  0xEC, 0x2C, 0xE4, 0x24, 0x25, 0xE5, 0x27, 0xE7, 0xE6, 0x26,
  0x22, 0xE2, 0xE3, 0x23, 0xE1, 0x21, 0x20, 0xE0, 0xA0, 0x60,
  0x61, 0xA1, 0x63, 0xA3, 0xA2, 0x62, 0x66, 0xA6, 0xA7, 0x67,
  0xA5, 0x65, 0x64, 0xA4, 0x6C, 0xAC, 0xAD, 0x6D, 0xAF, 0x6F,
  0x6E, 0xAE, 0xAA, 0x6A, 0x6B, 0xAB, 0x69, 0xA9, 0xA8, 0x68,
  0x78, 0xB8, 0xB9, 0x79, 0xBB, 0x7B, 0x7A, 0xBA, 0xBE, 0x7E,
  0x7F, 0xBF, 0x7D, 0xBD, 0xBC, 0x7C, 0xB4, 0x74, 0x75, 0xB5,
  0x77, 0xB7, 0xB6, 0x76, 0x72, 0xB2, 0xB3, 0x73, 0xB1, 0x71,
  0x70, 0xB0, 0x50, 0x90, 0x91, 0x51, 0x93, 0x53, 0x52, 0x92,
  0x96, 0x56, 0x57, 0x97, 0x55, 0x95, 0x94, 0x54, 0x9C, 0x5C,
  0x5D, 0x9D, 0x5F, 0x9F, 0x9E, 0x5E, 0x5A, 0x9A, 0x9B, 0x5B,
  0x99, 0x59, 0x58, 0x98, 0x88, 0x48, 0x49, 0x89, 0x4B, 0x8B,
  0x8A, 0x4A, 0x4E, 0x8E, 0x8F, 0x4F, 0x8D, 0x4D, 0x4C, 0x8C,
  0x44, 0x84, 0x85, 0x45, 0x87, 0x47, 0x46, 0x86, 0x82, 0x42,
  0x43, 0x83, 0x41, 0x81, 0x80, 0x40
]

/-- One pass of the `while (data_len--)` loop of `crc16` on the state
`(crc_hi, crc_lo)`:
`idx = crc_hi ^ *data++; crc_hi = crc_lo ^ table_crc_hi[idx]; crc_lo = table_crc_lo[idx]`. -/
def crc16_step (st : Nat × Nat) (byte : Nat) : Nat × Nat :=
  let idx := st.1 ^^^ byte
  (st.2 ^^^ table_crc_hi.getD idx 0, table_crc_lo.getD idx 0)

/-- The loop of `crc16` over the `data_len` bytes at `data`, from
`crc_hi = 0xFF`, `crc_lo = 0xFF`. -/
def crc16_loop (data : List Nat) : Nat × Nat :=
  data.foldl crc16_step (0xFF, 0xFF)

/-- CRC Generation Function `crc16(data, data_len)`; the argument is the list of the
`data_len` bytes at `data`. Returns `crc_hi << 8 | crc_lo`. -/
def crc16 (data : List Nat) : Nat :=
  let st := crc16_loop data
  (st.1 <<< 8) ||| st.2

/-- The bit step of the CRC-16/Modbus checksum as the specification words it: shift
the register right by one bit and XOR it with 0xA001 whenever the bit shifted out
was 1. -/
def crc16_spec_shift (reg : Nat) : Nat :=
  if reg % 2 = 1 then (reg / 2) ^^^ 0xA001 else reg / 2

/-- The byte step of the specification's checksum: XOR the byte into the low byte of
the register, then eight bit steps. -/
def crc16_spec_byte (reg byte : Nat) : Nat :=
  crc16_spec_shift^[8] (reg ^^^ byte)

/-- The CRC-16/Modbus checksum computed bit by bit, register initialised to 0xFFFF
(the specification's description, not the code). -/
def crc16_spec (data : List Nat) : Nat :=
  data.foldl crc16_spec_byte 0xFFFF

/-! ## Primitives (`modbus_prim.h`, `prim.c`) -/

/-- Operation of a primitive (`enum osmo_prim_operation` of libosmocore). -/
inductive osmo_prim_operation where
  | PRIM_OP_REQUEST
  | PRIM_OP_RESPONSE
  | PRIM_OP_INDICATION
  | PRIM_OP_CONFIRM
  deriving DecidableEq, Repr

/-- Modbus primitives (`enum osmo_modbus_prim_type`). -/
inductive osmo_modbus_prim_type where
  | OSMO_MODBUS_PRIM_RESPONSE_TIMEOUT
  | OSMO_MODBUS_PRIM_N_MULT_HOLD_REG
  deriving DecidableEq, Repr

/-- The fields of `struct osmo_prim_hdr` the stack uses (the `msg` back pointer is left
out). -/
structure osmo_prim_hdr where
  sap : Nat
  primitive : osmo_modbus_prim_type
  operation : osmo_prim_operation
  deriving DecidableEq, Repr

/-- Parameters of `OSMO_MODBUS_PRIM_N_MULT_HOLD_REG` request. -/
structure osmo_modbus_read_mult_hold_reg_req_param where
  first_reg : Nat
  num_reg : Nat
  deriving DecidableEq, Repr

/-- Parameters of `OSMO_MODBUS_PRIM_N_MULT_HOLD_REG` response: `registers` is the content
of the array `uint16_t registers[125]` from its start; entries past the end of the list
are zero (the backing `msgb` is allocated zeroed). -/
structure osmo_modbus_read_mult_hold_reg_resp_param where
  num_reg : Nat
  registers : List Nat
  deriving DecidableEq, Repr

/-- The union `u` of `struct osmo_modbus_prim`, tagged by the member last written
(`zero`: none written, the memory is still zero). -/
inductive osmo_modbus_prim_u where
  | zero
  | read_mult_hold_reg_req (param : osmo_modbus_read_mult_hold_reg_req_param)
  | read_mult_hold_reg_resp (param : osmo_modbus_read_mult_hold_reg_resp_param)
  deriving DecidableEq, Repr

/-- A service primitive, `struct osmo_modbus_prim`. -/
structure osmo_modbus_prim where
  oph : osmo_prim_hdr
  address : Nat
  u : osmo_modbus_prim_u
  deriving DecidableEq, Repr

/-- Reading `u.read_mult_hold_reg_req`. Both members of the union are sequences of
`uint16_t`, so reading the request member after the response member was written sees
its first two words. -/
def osmo_modbus_prim_u.req : osmo_modbus_prim_u → osmo_modbus_read_mult_hold_reg_req_param
  | .zero => ⟨0, 0⟩
  | .read_mult_hold_reg_req param => param
  | .read_mult_hold_reg_resp param => ⟨param.num_reg, param.registers.getD 0 0⟩

/-- Reading `u.read_mult_hold_reg_resp` (see `osmo_modbus_prim_u.req`). -/
def osmo_modbus_prim_u.resp : osmo_modbus_prim_u → osmo_modbus_read_mult_hold_reg_resp_param
  | .zero => ⟨0, []⟩
  | .read_mult_hold_reg_req param => ⟨param.first_reg, [param.num_reg]⟩
  | .read_mult_hold_reg_resp param => param

def MODBUS_SAP : Nat := 0

/-- The constructor `osmo_modbus_makeprim_timeout_resp` of `prim.c`. -/
def osmo_modbus_makeprim_timeout_resp (address : Nat) : osmo_modbus_prim :=
  { oph := ⟨MODBUS_SAP, .OSMO_MODBUS_PRIM_RESPONSE_TIMEOUT, .PRIM_OP_INDICATION⟩
    address := address % 65536
    u := .zero }

/-- The constructor `osmo_modbus_makeprim_mult_hold_reg_req` of `prim.c`; the three
arguments are `uint16_t`. -/
def osmo_modbus_makeprim_mult_hold_reg_req (address first_reg num_reg : Nat) :
    osmo_modbus_prim :=
  { oph := ⟨MODBUS_SAP, .OSMO_MODBUS_PRIM_N_MULT_HOLD_REG, .PRIM_OP_REQUEST⟩
    address := address % 65536
    u := .read_mult_hold_reg_req ⟨first_reg % 65536, num_reg % 65536⟩ }

/-- The constructor `osmo_modbus_makeprim_mult_hold_reg_resp` of `prim.c`. `num_reg` is a
`uint8_t`; the pointer `registers` is given as the function from an index `i` to the
`uint16_t` read at `registers[i]`. The `memcpy` copies `num_reg` of them. -/
def osmo_modbus_makeprim_mult_hold_reg_resp (address num_reg : Nat) (registers : Nat → Nat) :
    osmo_modbus_prim :=
  { oph := ⟨MODBUS_SAP, .OSMO_MODBUS_PRIM_N_MULT_HOLD_REG, .PRIM_OP_RESPONSE⟩
    address := address % 65536
    u := .read_mult_hold_reg_resp ⟨num_reg % 256, (List.range (num_reg % 256)).map registers⟩ }

/-! ## Byte order and message buffers -/

/-- Byte order of the host the code runs on: it decides what a `memcpy` between a
`uint16_t` array and a byte buffer does. -/
inductive host_endian where
  | little
  | big
  deriving DecidableEq, Repr

/-- The two bytes of a `uint16_t` in the memory of the host, lowest address first. -/
def host_store16 (e : host_endian) (v : Nat) : List Nat :=
  match e with
  | .little => [v % 256, v / 256 % 256]
  | .big => [v / 256 % 256, v % 256]

/-- The `uint16_t` the host reads from two bytes of memory, lowest address first. -/
def host_load16 (e : host_endian) (b0 b1 : Nat) : Nat :=
  match e with
  | .little => b0 + 256 * b1
  | .big => 256 * b0 + b1

/-- The bytes of an array of `uint16_t` in the memory of the host. -/
def host_store16_array (e : host_endian) : List Nat → List Nat
  | [] => []
  | v :: rest => host_store16 e v ++ host_store16_array e rest

/-- Function `osmo_load16be` of libosmocore: the big-endian 16-bit value at offset `off`. -/
def osmo_load16be (data : List Nat) (off : Nat) : Nat :=
  256 * data.getD off 0 + data.getD (off + 1) 0

/-- Function `osmo_store16be` of libosmocore: the two bytes it writes. -/
def osmo_store16be (v : Nat) : List Nat :=
  [v / 256 % 256, v % 256]

def MODBUS_MSGB_SIZE : Nat := 256

/-- Function `msgb_put` of libosmocore on a message of `MODBUS_MSGB_SIZE` bytes, with the
bytes then written to the new room: aborts (`none`) when the tailroom is too small. -/
def msgb_put (msg : List Nat) (bytes : List Nat) : Option (List Nat) :=
  if msg.length + bytes.length ≤ MODBUS_MSGB_SIZE then some (msg ++ bytes) else none

/-- Function `msgb_put_u8` of libosmocore. -/
def msgb_put_u8 (msg : List Nat) (v : Nat) : Option (List Nat) :=
  msgb_put msg [v % 256]

/-- Function `msgb_put_u16` of libosmocore: the value is stored big-endian. -/
def msgb_put_u16 (msg : List Nat) (v : Nat) : Option (List Nat) :=
  msgb_put msg (osmo_store16be v)

/-! ## The codec (`conn_rtu.c`, lines 139-227) -/

def OSMO_MODBUS_FUNC_READ_MULT_HOLD_REG : Nat := 0x03

/-- The body of the `switch` of `prim2rtu`: the function code is written at `code`
(offset 1) and the payload appended; the `default` branch is `OSMO_ASSERT(0)`. -/
def prim2rtu_payload (e : host_endian) (prim : osmo_modbus_prim) (msg : List Nat) :
    Option (List Nat) :=
  match prim.oph.primitive, prim.oph.operation with
  | .OSMO_MODBUS_PRIM_N_MULT_HOLD_REG, .PRIM_OP_REQUEST => do
    let msg := msg.set 1 OSMO_MODBUS_FUNC_READ_MULT_HOLD_REG
    let msg ← msgb_put_u16 msg prim.u.req.first_reg
    msgb_put_u16 msg prim.u.req.num_reg
  | .OSMO_MODBUS_PRIM_N_MULT_HOLD_REG, .PRIM_OP_RESPONSE => do
    let msg := msg.set 1 OSMO_MODBUS_FUNC_READ_MULT_HOLD_REG
    let msg ← msgb_put_u8 msg (prim.u.resp.num_reg * 2)
    msgb_put msg
      (host_store16_array e
        ((List.range prim.u.resp.num_reg).map (fun i => prim.u.resp.registers.getD i 0)))
  | _, _ => none

/-- Function `prim2rtu`: the bytes of the frame built for `prim`, `none` when the
function aborts. -/
def prim2rtu (e : host_endian) (prim : osmo_modbus_prim) : Option (List Nat) := do
  let msg ← msgb_put_u8 [] prim.address
  let msg ← msgb_put msg [0]
  let msg ← prim2rtu_payload e prim msg
  msgb_put_u16 msg (crc16 msg)

def RTU_HDR_LEN : Nat := 2
def RTU_CRC_LEN : Nat := 2

/-- Error numbers of `errno.h` (Linux). -/
def ENODATA : Int := 61
def EINVAL : Int := 22

/-- The check `osmo_store16be(exp_crc, &exp_crc); memcmp(&exp_crc, &data[exp_len_nocrc],
RTU_CRC_LEN) == 0` of `rtu2prim`, with `exp_crc = crc16(data, exp_len_nocrc)`. -/
def rtu_crc_matches (data : List Nat) (exp_len_nocrc : Nat) : Bool :=
  decide ((data.drop exp_len_nocrc).take RTU_CRC_LEN
    = osmo_store16be (crc16 (data.take exp_len_nocrc)))

/-- The response attempt of `rtu2prim` ("Let's first try to decode Response"): the
`uint8_t` expected length `exp_len_nocrc = RTU_HDR_LEN + 1 + byte_count`. -/
def rtu_resp_exp_len (data : List Nat) : Nat :=
  (RTU_HDR_LEN + 1 + data.getD RTU_HDR_LEN 0) % 256

/-- The response attempt of `rtu2prim`: both `if` conditions,
`len >= exp_len_nocrc + RTU_CRC_LEN` and the CRC comparison. -/
def rtu_resp_check (data : List Nat) : Bool :=
  decide (data.length ≥ rtu_resp_exp_len data + RTU_CRC_LEN)
    && rtu_crc_matches data (rtu_resp_exp_len data)

/-- The request attempt of `rtu2prim` ("try to decode Request"), with
`exp_len_nocrc = RTU_HDR_LEN + 2 + 2`. -/
def rtu_req_check (data : List Nat) : Bool :=
  decide (data.length ≥ RTU_HDR_LEN + 2 + 2 + RTU_CRC_LEN)
    && rtu_crc_matches data (RTU_HDR_LEN + 2 + 2)

/-- Function `rtu2prim` on the bytes `data` of `msg`: the `int` it returns and the
primitive it stores through `prim`, if any. -/
def rtu2prim (e : host_endian) (data : List Nat) : Int × Option osmo_modbus_prim :=
  let len := data.length
  if len < RTU_HDR_LEN then (-ENODATA, none)
  else
    let address := data.getD 0 0
    let code := data.getD 1 0
    if code = OSMO_MODBUS_FUNC_READ_MULT_HOLD_REG then
      if len < RTU_HDR_LEN + 4 then (-ENODATA, none)
      else
        let byte_count := data.getD RTU_HDR_LEN 0
        if rtu_resp_check data = true then
          (((rtu_resp_exp_len data + RTU_CRC_LEN : Nat) : Int),
            some (osmo_modbus_makeprim_mult_hold_reg_resp address (byte_count / 2)
              (fun i => host_load16 e (data.getD (RTU_HDR_LEN + 1 + 2 * i) 0)
                (data.getD (RTU_HDR_LEN + 1 + 2 * i + 1) 0))))
        else if rtu_req_check data = true then
          (((RTU_HDR_LEN + 2 + 2 + RTU_CRC_LEN : Nat) : Int),
            some (osmo_modbus_makeprim_mult_hold_reg_req address
              (osmo_load16be data RTU_HDR_LEN) (osmo_load16be data (RTU_HDR_LEN + 2))))
        else (-ENODATA, none)
    else (-EINVAL, none)

/-! ## The RTU endpoint (`rtu_internal.h`, `conn_rtu.c` lines 373-444) -/

/-- Modelled from the spec: the header `rtu_transmit_fsm.h` with the state enumeration
of the RTU transmission FSM is not part of the sources; the five states are those
`rtu_transmit_fsm.c` names, and the FSM starts in `INITIAL`. -/
inductive rtu_transmit_state where
  | RTU_TRANSMIT_ST_INITIAL
  | RTU_TRANSMIT_ST_IDLE
  | RTU_TRANSMIT_ST_EMISSION
  | RTU_TRANSMIT_ST_RECEPTION
  | RTU_TRANSMIT_ST_CTRL_WAIT
  deriving DecidableEq, Repr

/-- The endpoint, `struct osmo_modbus_conn_rtu` (the back pointer `conn` is left out).
`T15` and `T35` are the values of the entries `T=15` and `T=35` of `T_defs`, in
microseconds; `ofd_fd` is `ofd.fd` and `ofd_when_write` the bit `OSMO_FD_WRITE` of
`ofd.when`; `fi_state` is the state of the FSM instance `fi` and `fi_timer` its pending
timer, as the pair of `fi->T` and the timeout in microseconds. -/
structure osmo_modbus_conn_rtu where
  dev_path : Option String
  baudrate : Nat
  ofd_fd : Int
  ofd_when_write : Bool
  rx_msg : List Nat
  rx_msg_ok : Bool
  tx_msg : Option (List Nat)
  T15 : Nat
  T35 : Nat
  fi_state : rtu_transmit_state
  fi_timer : Option (Nat × Nat)
  deriving DecidableEq, Repr

/-- The inline function `rtu_chars2bits` of `rtu_internal.h`. -/
def rtu_chars2bits (num_chars : Nat) : Nat :=
  num_chars * 11

/-- The table `g_rtu_tdefs`: the default value of both timers is 1 microsecond. -/
def g_rtu_tdefs_default_val : Nat := 1

/-- Function `recalc_baudrate_timers`; `osmo_tdef_set` stores the value unchanged, the
unit being the unit of the table entry. -/
def recalc_baudrate_timers (rtu : osmo_modbus_conn_rtu) : osmo_modbus_conn_rtu :=
  if rtu.baudrate ≤ 19200 then
    { rtu with T15 := rtu_chars2bits 1500000 / rtu.baudrate
               T35 := rtu_chars2bits 3500000 / rtu.baudrate }
  else
    { rtu with T15 := 750, T35 := 1750 }

/-- Function `osmo_modbus_conn_rtu_alloc`. -/
def osmo_modbus_conn_rtu_alloc : osmo_modbus_conn_rtu :=
  recalc_baudrate_timers
    { dev_path := none
      baudrate := 9600
      ofd_fd := -1
      ofd_when_write := false
      rx_msg := []
      rx_msg_ok := false
      tx_msg := none
      T15 := g_rtu_tdefs_default_val
      T35 := g_rtu_tdefs_default_val
      fi_state := .RTU_TRANSMIT_ST_INITIAL
      fi_timer := none }

/-- Function `osmo_modbus_conn_rtu_is_connected`. -/
def osmo_modbus_conn_rtu_is_connected (rtu : osmo_modbus_conn_rtu) : Bool :=
  decide (rtu.ofd_fd ≥ 0)

/-- Function `osmo_modbus_conn_rtu_set_baudrate`. The two calls into libosmocore are
parameters: `speed_ok b` tells whether `osmo_serial_speed_t` knows the baud rate `b`, and
`serial_rc` is what `osmo_serial_set_baudrate` returns. -/
def osmo_modbus_conn_rtu_set_baudrate (speed_ok : Nat → Bool) (serial_rc : Int)
    (rtu : osmo_modbus_conn_rtu) (baudrate : Nat) : Int × osmo_modbus_conn_rtu :=
  if speed_ok baudrate = false then (-EINVAL, rtu)
  else
    let rtu := { rtu with baudrate := baudrate }
    if osmo_modbus_conn_rtu_is_connected rtu = true then (serial_rc, rtu)
    else (0, recalc_baudrate_timers rtu)

/-- Function `osmo_modbus_conn_rtu_get_baudrate`. -/
def osmo_modbus_conn_rtu_get_baudrate (rtu : osmo_modbus_conn_rtu) : Nat :=
  rtu.baudrate

/-- The endpoint states reached from `osmo_modbus_conn_rtu_alloc` by calls of
`osmo_modbus_conn_rtu_set_baudrate` with a baud rate of at least 1 (whatever libosmocore
answers) and by the serial device being opened or closed. -/
inductive rtu_baud_reachable : osmo_modbus_conn_rtu → Prop where
  | alloc : rtu_baud_reachable osmo_modbus_conn_rtu_alloc
  | set_baudrate (rtu : osmo_modbus_conn_rtu) (speed_ok : Nat → Bool) (serial_rc : Int)
      (b : Nat) (hb : 1 ≤ b) (h : rtu_baud_reachable rtu) :
      rtu_baud_reachable (osmo_modbus_conn_rtu_set_baudrate speed_ok serial_rc rtu b).2
  | set_fd (rtu : osmo_modbus_conn_rtu) (fd : Int) (h : rtu_baud_reachable rtu) :
      rtu_baud_reachable { rtu with ofd_fd := fd }

/-! ## Connections (`modbus_conn.h`, `modbus_internal.h`, `conn_fsm.h`) -/

/-- Role of a connection, `enum osmo_modbus_conn_role`. -/
inductive osmo_modbus_conn_role where
  | OSMO_MODBUS_ROLE_MASTER
  | OSMO_MODBUS_ROLE_SLAVE
  deriving DecidableEq, Repr

/-- The states of the two connection FSMs, `enum conn_master_state` and
`enum conn_slave_state` of `conn_fsm.h`: the value of `conn->fi->state`. -/
inductive conn_fi_state where
  | CONN_MASTER_ST_DISCONNECTED
  | CONN_MASTER_ST_IDLE
  | CONN_MASTER_ST_WAIT_TURNAROUND_DELAY
  | CONN_MASTER_ST_WAIT_REPLY
  | CONN_SLAVE_ST_DISCONNECTED
  | CONN_SLAVE_ST_IDLE
  | CONN_SLAVE_ST_CHECK_REQUEST
  deriving DecidableEq, Repr

/-- Events of the connection FSMs, `enum conn_event`. -/
inductive conn_event where
  | CONN_EV_CONNECT
  | CONN_EV_SUBMIT_PRIM
  | CONN_EV_RECV_PRIM
  deriving DecidableEq, Repr

/-- Timers of a connection, `enum osmo_modbus_conn_timeout`. -/
def OSMO_MODBUS_TO_TURNAROUND : Nat := 1
def OSMO_MODBUS_TO_NORESPONSE : Nat := 2

/-- A connection, `struct osmo_modbus_conn`.
`prim_cb` tells whether a callback is registered; `msg_queue` holds the queued
primitives, head first; `T_turnaround` and `T_noresponse` are the two entries of
`T_defs`, in milliseconds; `fi_state` is `fi->state` and `fi_timer` the pending timer of
`fi`, as the pair of `fi->T` and the timeout in seconds; `proto` is the RTU endpoint.
The last three fields are not in the C structure, they record what the connection did:
`tx_log` the primitives passed to `proto_ops.tx_prim`, `cb_log` the primitives passed to
the callback, `submit_log` the primitives `osmo_modbus_conn_submit_prim` enqueued, each
in order. -/
structure osmo_modbus_conn where
  role : osmo_modbus_conn_role
  address : Nat
  prim_cb : Bool
  msg_queue : List osmo_modbus_prim
  master_req_for_addr : Nat
  slave_monitor : Bool
  T_turnaround : Nat
  T_noresponse : Nat
  fi_state : conn_fi_state
  fi_timer : Option (Nat × Nat)
  proto : osmo_modbus_conn_rtu
  tx_log : List osmo_modbus_prim
  cb_log : List osmo_modbus_prim
  submit_log : List osmo_modbus_prim
  deriving DecidableEq, Repr

/-- The table of functions `proto_ops` of a connection, acting on the endpoint:
`connect` returns its `int` and the new endpoint; `tx_prim` returns `none` when it
aborts on an assertion. -/
structure osmo_modbus_proto_ops where
  connect : osmo_modbus_conn_rtu → Int × osmo_modbus_conn_rtu
  is_connected : osmo_modbus_conn_rtu → Bool
  tx_prim : osmo_modbus_conn_rtu → osmo_modbus_prim → Option (Int × osmo_modbus_conn_rtu)

/-- Function `osmo_modbus_conn_alloc` for the protocol type `OSMO_MODBUS_PROTO_RTU`; the
defaults of `g_conn_tdefs` are 100 and 200 milliseconds. -/
def osmo_modbus_conn_alloc (role : osmo_modbus_conn_role) : osmo_modbus_conn :=
  { role := role
    address := if role = .OSMO_MODBUS_ROLE_MASTER then 0x00 else 0x01
    prim_cb := false
    msg_queue := []
    master_req_for_addr := 0
    slave_monitor := false
    T_turnaround := 100
    T_noresponse := 200
    fi_state := if role = .OSMO_MODBUS_ROLE_MASTER then .CONN_MASTER_ST_DISCONNECTED
      else .CONN_SLAVE_ST_DISCONNECTED
    fi_timer := none
    proto := osmo_modbus_conn_rtu_alloc
    tx_log := []
    cb_log := []
    submit_log := [] }

/-! ## The master FSM (`conn_master_fsm.c`) -/

/-- The table `conn_master_fsm_timeouts`: the timer `T` of each state, 0 for none. -/
def conn_master_fsm_timeouts : conn_fi_state → Nat
  | .CONN_MASTER_ST_WAIT_TURNAROUND_DELAY => OSMO_MODBUS_TO_TURNAROUND
  | .CONN_MASTER_ST_WAIT_REPLY => OSMO_MODBUS_TO_NORESPONSE
  | _ => 0

/-- The `in_event_mask` entries of `conn_master_states`. -/
def conn_master_states_in_event_mask : conn_fi_state → conn_event → Bool
  | .CONN_MASTER_ST_DISCONNECTED, .CONN_EV_CONNECT => true
  | .CONN_MASTER_ST_DISCONNECTED, .CONN_EV_SUBMIT_PRIM => true
  | .CONN_MASTER_ST_IDLE, .CONN_EV_SUBMIT_PRIM => true
  | .CONN_MASTER_ST_WAIT_TURNAROUND_DELAY, .CONN_EV_SUBMIT_PRIM => true
  | .CONN_MASTER_ST_WAIT_REPLY, .CONN_EV_SUBMIT_PRIM => true
  | .CONN_MASTER_ST_WAIT_REPLY, .CONN_EV_RECV_PRIM => true
  | _, _ => false

/-- The `out_state_mask` entries of `conn_master_states`. -/
def conn_master_states_out_state_mask : conn_fi_state → conn_fi_state → Bool
  | .CONN_MASTER_ST_DISCONNECTED, .CONN_MASTER_ST_IDLE => true
  | .CONN_MASTER_ST_IDLE, .CONN_MASTER_ST_WAIT_TURNAROUND_DELAY => true
  | .CONN_MASTER_ST_IDLE, .CONN_MASTER_ST_WAIT_REPLY => true
  | .CONN_MASTER_ST_WAIT_TURNAROUND_DELAY, .CONN_MASTER_ST_IDLE => true
  | .CONN_MASTER_ST_WAIT_REPLY, .CONN_MASTER_ST_IDLE => true
  | _, _ => false

/-- Function `osmo_tdef_get` of libosmocore for a value stored in milliseconds and asked
for in seconds: the value is rounded up. -/
def osmo_tdef_get_ms_as_s (val_ms : Nat) : Nat :=
  (val_ms + 999) / 1000

/-- The entry `T` of `conn->T_defs`, in milliseconds. -/
def osmo_modbus_conn.T_defs (c : osmo_modbus_conn) (T : Nat) : Nat :=
  if T = OSMO_MODBUS_TO_TURNAROUND then c.T_turnaround
  else if T = OSMO_MODBUS_TO_NORESPONSE then c.T_noresponse
  else 0

/-- What `osmo_tdef_fsm_inst_state_chg` of libosmocore does to the instance of the master
FSM once the transition is permitted and before it calls `onenter`: the old timer is
deleted, the state is set, and the timer of the new state is started when the state has
one and its value, in seconds, is not zero. -/
def conn_master_fsm_set_state (c : osmo_modbus_conn) (state : conn_fi_state) :
    osmo_modbus_conn :=
  let T := conn_master_fsm_timeouts state
  let val := if T = 0 then 0 else osmo_tdef_get_ms_as_s (c.T_defs T)
  { c with fi_state := state, fi_timer := if val = 0 then none else some (T, val) }

/-- Function `conn_master_fsm_st_wait_reply_onenter`: `none` is the `OSMO_ASSERT(0)` on
an empty queue, or an abort inside `tx_prim`. -/
def conn_master_fsm_st_wait_reply_onenter (ops : osmo_modbus_proto_ops)
    (c : osmo_modbus_conn) : Option osmo_modbus_conn :=
  match c.msg_queue with
  | [] => none
  | prim :: rest =>
    (ops.tx_prim c.proto prim).map (fun r =>
      { c with msg_queue := rest
               master_req_for_addr := prim.address % 65536
               tx_log := c.tx_log ++ [prim]
               proto := r.2 })

/-- The call `conn_master_fsm_state_chg(fi, CONN_MASTER_ST_WAIT_REPLY)`: a transition the
`out_state_mask` does not permit changes nothing. -/
def conn_master_fsm_state_chg_wait_reply (ops : osmo_modbus_proto_ops)
    (c : osmo_modbus_conn) : Option osmo_modbus_conn :=
  if conn_master_states_out_state_mask c.fi_state .CONN_MASTER_ST_WAIT_REPLY = false then
    some c
  else
    conn_master_fsm_st_wait_reply_onenter ops
      (conn_master_fsm_set_state c .CONN_MASTER_ST_WAIT_REPLY)

/-- Function `conn_master_fsm_st_idle_onenter`. -/
def conn_master_fsm_st_idle_onenter (ops : osmo_modbus_proto_ops)
    (c : osmo_modbus_conn) : Option osmo_modbus_conn :=
  if c.msg_queue ≠ [] then conn_master_fsm_state_chg_wait_reply ops c else some c

/-- The macro `conn_master_fsm_state_chg(fi, state)`: the state change of libosmocore
followed by the `onenter` function of the new state. -/
def conn_master_fsm_state_chg (ops : osmo_modbus_proto_ops) (c : osmo_modbus_conn)
    (state : conn_fi_state) : Option osmo_modbus_conn :=
  if conn_master_states_out_state_mask c.fi_state state = false then some c
  else
    match state with
    | .CONN_MASTER_ST_IDLE =>
      conn_master_fsm_st_idle_onenter ops (conn_master_fsm_set_state c state)
    | .CONN_MASTER_ST_WAIT_REPLY =>
      conn_master_fsm_st_wait_reply_onenter ops (conn_master_fsm_set_state c state)
    | _ => some (conn_master_fsm_set_state c state)

/-- The call `osmo_fsm_inst_dispatch(conn->fi, CONN_EV_SUBMIT_PRIM, NULL)` on a master:
an event outside the `in_event_mask` of the state returns -1; otherwise the
`CONN_EV_SUBMIT_PRIM` case of the action function of the state runs and 0 is
returned. -/
def conn_master_fsm_dispatch_submit_prim (ops : osmo_modbus_proto_ops)
    (c : osmo_modbus_conn) : Option (Int × osmo_modbus_conn) :=
  if conn_master_states_in_event_mask c.fi_state .CONN_EV_SUBMIT_PRIM = false then
    some (-1, c)
  else
    match c.fi_state with
    | .CONN_MASTER_ST_DISCONNECTED => some (0, c)
    | .CONN_MASTER_ST_IDLE =>
      (conn_master_fsm_state_chg ops c .CONN_MASTER_ST_WAIT_REPLY).map (fun c => (0, c))
    | .CONN_MASTER_ST_WAIT_TURNAROUND_DELAY => some (0, c)
    | .CONN_MASTER_ST_WAIT_REPLY => some (0, c)
    | _ => none

/-! ## The slave FSM (`conn_slave_fsm.c`) -/

/-- The `in_event_mask` entries of `conn_slave_states`. -/
def conn_slave_states_in_event_mask : conn_fi_state → conn_event → Bool
  | .CONN_SLAVE_ST_DISCONNECTED, .CONN_EV_CONNECT => true
  | .CONN_SLAVE_ST_IDLE, .CONN_EV_RECV_PRIM => true
  | .CONN_SLAVE_ST_CHECK_REQUEST, .CONN_EV_SUBMIT_PRIM => true
  | _, _ => false

/-- The `out_state_mask` entries of `conn_slave_states`. -/
def conn_slave_states_out_state_mask : conn_fi_state → conn_fi_state → Bool
  | .CONN_SLAVE_ST_DISCONNECTED, .CONN_SLAVE_ST_IDLE => true
  | .CONN_SLAVE_ST_IDLE, .CONN_SLAVE_ST_CHECK_REQUEST => true
  | .CONN_SLAVE_ST_CHECK_REQUEST, .CONN_SLAVE_ST_IDLE => true
  | _, _ => false

/-- The macro `conn_slave_fsm_state_chg(fi, state)`, that is
`osmo_fsm_inst_state_chg(fi, state, 0, 0)`: no timer, and every `onenter` function of the
slave FSM is empty. -/
def conn_slave_fsm_state_chg (c : osmo_modbus_conn) (state : conn_fi_state) :
    osmo_modbus_conn :=
  if conn_slave_states_out_state_mask c.fi_state state = false then c
  else { c with fi_state := state, fi_timer := none }

/-- The call `osmo_fsm_inst_dispatch(conn->fi, CONN_EV_SUBMIT_PRIM, NULL)` on a slave:
only `conn_slave_fsm_st_check_request` handles the event. -/
def conn_slave_fsm_dispatch_submit_prim (ops : osmo_modbus_proto_ops)
    (c : osmo_modbus_conn) : Option (Int × osmo_modbus_conn) :=
  if conn_slave_states_in_event_mask c.fi_state .CONN_EV_SUBMIT_PRIM = false then
    some (-1, c)
  else
    match c.fi_state with
    | .CONN_SLAVE_ST_CHECK_REQUEST =>
      match c.msg_queue with
      | [] => none
      | prim :: rest =>
        (ops.tx_prim c.proto prim).map (fun r =>
          (0, conn_slave_fsm_state_chg
            { c with msg_queue := rest, tx_log := c.tx_log ++ [prim], proto := r.2 }
            .CONN_SLAVE_ST_IDLE))
    | _ => none

/-! ## Submitting and receiving primitives (`conn.c`) -/

/-- Function `osmo_modbus_conn_submit_prim`: the `int` it returns and the connection
afterwards. `conn->fi` is an instance of the master FSM on a master and of the slave FSM
on a slave. -/
def osmo_modbus_conn_submit_prim (ops : osmo_modbus_proto_ops) (c : osmo_modbus_conn)
    (prim : osmo_modbus_prim) : Option (Int × osmo_modbus_conn) :=
  if (c.role = .OSMO_MODBUS_ROLE_MASTER ∧ prim.oph.operation ≠ .PRIM_OP_REQUEST)
      ∨ (c.role = .OSMO_MODBUS_ROLE_SLAVE ∧ prim.oph.operation ≠ .PRIM_OP_RESPONSE) then
    some (-EINVAL, c)
  else
    let c := { c with msg_queue := c.msg_queue ++ [prim]
                      submit_log := c.submit_log ++ [prim] }
    if c.role = .OSMO_MODBUS_ROLE_MASTER then conn_master_fsm_dispatch_submit_prim ops c
    else conn_slave_fsm_dispatch_submit_prim ops c

/-- The primitives the application submits with `osmo_modbus_conn_submit_prim`, one
after the other, ignoring the values returned. -/
def conn_app_submits (ops : osmo_modbus_proto_ops) :
    osmo_modbus_conn → List osmo_modbus_prim → Option osmo_modbus_conn
  | c, [] => some c
  | c, prim :: rest =>
    match osmo_modbus_conn_submit_prim ops c prim with
    | none => none
    | some r => conn_app_submits ops r.2 rest

/-- The call `conn->prim_cb(conn, prim, conn->prim_cb_ctx)`: the application is handed
`prim`, and `app` is the list of primitives it submits from inside the callback. -/
def conn_prim_cb (ops : osmo_modbus_proto_ops) (c : osmo_modbus_conn)
    (prim : osmo_modbus_prim) (app : List osmo_modbus_prim) : Option osmo_modbus_conn :=
  conn_app_submits ops { c with cb_log := c.cb_log ++ [prim] } app

/-- The `if (conn->prim_cb) conn->prim_cb(...); else msgb_free(...)` of the master
FSM. -/
def conn_master_deliver (ops : osmo_modbus_proto_ops) (c : osmo_modbus_conn)
    (prim : osmo_modbus_prim) (app : List osmo_modbus_prim) : Option osmo_modbus_conn :=
  if c.prim_cb = true then conn_prim_cb ops c prim app else some c

/-- The call `osmo_fsm_inst_dispatch(conn->fi, CONN_EV_RECV_PRIM, prim)` on a master:
only `conn_master_fsm_st_wait_reply` handles the event. -/
def conn_master_fsm_dispatch_recv_prim (ops : osmo_modbus_proto_ops) (c : osmo_modbus_conn)
    (prim : osmo_modbus_prim) (app : List osmo_modbus_prim) :
    Option (Int × osmo_modbus_conn) :=
  if conn_master_states_in_event_mask c.fi_state .CONN_EV_RECV_PRIM = false then
    some (-1, c)
  else
    match c.fi_state with
    | .CONN_MASTER_ST_WAIT_REPLY =>
      match conn_master_deliver ops c prim app with
      | none => none
      | some c =>
        (conn_master_fsm_state_chg ops c .CONN_MASTER_ST_IDLE).map (fun c => (0, c))
    | _ => none

/-- The call `osmo_fsm_inst_dispatch(conn->fi, CONN_EV_RECV_PRIM, prim)` on a slave:
only `conn_slave_fsm_st_idle` handles the event. -/
def conn_slave_fsm_dispatch_recv_prim (ops : osmo_modbus_proto_ops) (c : osmo_modbus_conn)
    (prim : osmo_modbus_prim) (app : List osmo_modbus_prim) :
    Option (Int × osmo_modbus_conn) :=
  if conn_slave_states_in_event_mask c.fi_state .CONN_EV_RECV_PRIM = false then
    some (-1, c)
  else
    match c.fi_state with
    | .CONN_SLAVE_ST_IDLE =>
      if c.prim_cb = false ∨ c.address ≠ prim.address then
        if c.prim_cb = true ∧ c.slave_monitor = true then
          (conn_prim_cb ops c prim app).map (fun c => (0, c))
        else some (0, c)
      else
        (conn_prim_cb ops (conn_slave_fsm_state_chg c .CONN_SLAVE_ST_CHECK_REQUEST) prim app).map
          (fun c => (0, c))
    | _ => none

/-- Function `osmo_modbus_conn_rx_prim`: the connection afterwards. When the dispatch
fails the primitive is freed and nothing else happens. -/
def osmo_modbus_conn_rx_prim (ops : osmo_modbus_proto_ops) (c : osmo_modbus_conn)
    (prim : osmo_modbus_prim) (app : List osmo_modbus_prim) : Option osmo_modbus_conn :=
  (if c.role = .OSMO_MODBUS_ROLE_MASTER then conn_master_fsm_dispatch_recv_prim ops c prim app
    else conn_slave_fsm_dispatch_recv_prim ops c prim app).map (fun r => r.2)

/-- Function `conn_master_fsm_timer_cb`, with `T` the value of `fi->T`; `app` is what the
application submits from inside the callback. -/
def conn_master_fsm_timer_cb (ops : osmo_modbus_proto_ops) (c : osmo_modbus_conn) (T : Nat)
    (app : List osmo_modbus_prim) : Option osmo_modbus_conn :=
  if T = OSMO_MODBUS_TO_TURNAROUND then
    conn_master_fsm_state_chg ops c .CONN_MASTER_ST_IDLE
  else if T = OSMO_MODBUS_TO_NORESPONSE then
    match conn_master_deliver ops c
        (osmo_modbus_makeprim_timeout_resp c.master_req_for_addr) app with
    | none => none
    | some c => conn_master_fsm_state_chg ops c .CONN_MASTER_ST_IDLE
  else some c

/-- The pending timer of the FSM instance of a master expires: libosmocore calls the
`timer_cb` of the FSM, the timer being no longer pending. Nothing happens when no timer
is pending. -/
def conn_master_timer_expired (ops : osmo_modbus_proto_ops) (c : osmo_modbus_conn)
    (app : List osmo_modbus_prim) : Option osmo_modbus_conn :=
  match c.fi_timer with
  | none => some c
  | some (T, _) => conn_master_fsm_timer_cb ops { c with fi_timer := none } T app

def ENOTCONN : Int := 107

/-- Function `osmo_modbus_conn_connect`: the dispatch of `CONN_EV_CONNECT`, handled by
`conn_master_fsm_st_disconnected` and `conn_slave_fsm_st_disconnected`. -/
def osmo_modbus_conn_connect (ops : osmo_modbus_proto_ops) (c : osmo_modbus_conn) :
    Option (Int × osmo_modbus_conn) :=
  if c.role = .OSMO_MODBUS_ROLE_MASTER then
    if conn_master_states_in_event_mask c.fi_state .CONN_EV_CONNECT = false then some (-1, c)
    else
      match c.fi_state with
      | .CONN_MASTER_ST_DISCONNECTED =>
        if (ops.connect c.proto).1 = 0 then
          (conn_master_fsm_state_chg ops { c with proto := (ops.connect c.proto).2 }
            .CONN_MASTER_ST_IDLE).map (fun c => (0, c))
        else some (-ENOTCONN, { c with proto := (ops.connect c.proto).2 })
      | _ => none
  else
    if conn_slave_states_in_event_mask c.fi_state .CONN_EV_CONNECT = false then some (-1, c)
    else
      match c.fi_state with
      | .CONN_SLAVE_ST_DISCONNECTED =>
        if (ops.connect c.proto).1 = 0 then
          some (0, conn_slave_fsm_state_chg { c with proto := (ops.connect c.proto).2 }
            .CONN_SLAVE_ST_IDLE)
        else some (-ENOTCONN, { c with proto := (ops.connect c.proto).2 })
      | _ => none

/-- Function `osmo_modbus_conn_set_address`; the argument is a `uint16_t`. -/
def osmo_modbus_conn_set_address (c : osmo_modbus_conn) (address : Nat) :
    Int × osmo_modbus_conn :=
  (0, { c with address := address % 65536 })

/-- Function `osmo_modbus_conn_set_prim_cb`. -/
def osmo_modbus_conn_set_prim_cb (c : osmo_modbus_conn) (prim_cb : Bool) : osmo_modbus_conn :=
  { c with prim_cb := prim_cb }

/-- Function `osmo_modbus_conn_set_monitor_mode`. -/
def osmo_modbus_conn_set_monitor_mode (c : osmo_modbus_conn) (enable : Bool) :
    Int × osmo_modbus_conn :=
  if c.role = .OSMO_MODBUS_ROLE_MASTER then (-EINVAL, c)
  else (0, { c with slave_monitor := enable })

/-- The states of a master connection reached from `osmo_modbus_conn_alloc` by connect,
submit, receive and timeout events, by the configuration calls, and by the endpoint
changing on its own (serial events); only steps that do not abort count. -/
inductive master_reachable (ops : osmo_modbus_proto_ops) : osmo_modbus_conn → Prop where
  | alloc : master_reachable ops (osmo_modbus_conn_alloc .OSMO_MODBUS_ROLE_MASTER)
  | connect (c c' : osmo_modbus_conn) (rc : Int) (h : master_reachable ops c)
      (hstep : osmo_modbus_conn_connect ops c = some (rc, c')) : master_reachable ops c'
  | submit (c c' : osmo_modbus_conn) (prim : osmo_modbus_prim) (rc : Int)
      (h : master_reachable ops c)
      (hstep : osmo_modbus_conn_submit_prim ops c prim = some (rc, c')) :
      master_reachable ops c'
  | receive (c c' : osmo_modbus_conn) (prim : osmo_modbus_prim)
      (app : List osmo_modbus_prim) (h : master_reachable ops c)
      (hstep : osmo_modbus_conn_rx_prim ops c prim app = some c') : master_reachable ops c'
  | timeout (c c' : osmo_modbus_conn) (app : List osmo_modbus_prim)
      (h : master_reachable ops c)
      (hstep : conn_master_timer_expired ops c app = some c') : master_reachable ops c'
  | set_address (c : osmo_modbus_conn) (address : Nat) (h : master_reachable ops c) :
      master_reachable ops (osmo_modbus_conn_set_address c address).2
  | set_prim_cb (c : osmo_modbus_conn) (prim_cb : Bool) (h : master_reachable ops c) :
      master_reachable ops (osmo_modbus_conn_set_prim_cb c prim_cb)
  | set_timeout (c : osmo_modbus_conn) (turnaround noresponse : Nat)
      (h : master_reachable ops c) :
      master_reachable ops { c with T_turnaround := turnaround, T_noresponse := noresponse }
  | endpoint (c : osmo_modbus_conn) (proto : osmo_modbus_conn_rtu)
      (h : master_reachable ops c) : master_reachable ops { c with proto := proto }

/-- The primitives of a list that `osmo_modbus_conn_submit_prim` accepts on a master:
those whose operation is REQUEST. -/
def conn_requests (app : List osmo_modbus_prim) : List osmo_modbus_prim :=
  app.filter (fun p => decide (p.oph.operation = .PRIM_OP_REQUEST))

/-- The timer started on entering `CONN_MASTER_ST_WAIT_REPLY`: the no-response timeout
in seconds, none when that is zero. -/
def conn_master_noresponse_timer (c : osmo_modbus_conn) : Option (Nat × Nat) :=
  if osmo_tdef_get_ms_as_s c.T_noresponse = 0 then none
  else some (OSMO_MODBUS_TO_NORESPONSE, osmo_tdef_get_ms_as_s c.T_noresponse)

/-- The FIFO property of a master connection: the primitives handed to the transmitter
followed by the content of the outbound queue are the primitives the connection accepted,
in the order of their submission, and all of these are requests. -/
def master_fifo_inv (c : osmo_modbus_conn) : Prop :=
  c.role = .OSMO_MODBUS_ROLE_MASTER
    ∧ c.tx_log ++ c.msg_queue = c.submit_log
    ∧ ∀ p ∈ c.submit_log, p.oph.operation = .PRIM_OP_REQUEST

/-- The primitives of a list that `osmo_modbus_conn_submit_prim` accepts on a slave:
those whose operation is RESPONSE. -/
def conn_responses (app : List osmo_modbus_prim) : List osmo_modbus_prim :=
  app.filter (fun p => decide (p.oph.operation = .PRIM_OP_RESPONSE))

/-- The states of a slave connection reached from `osmo_modbus_conn_alloc` by connect,
submit and receive events, by the configuration calls, and by the endpoint changing on
its own (serial events); only steps that do not abort count. -/
inductive slave_reachable (ops : osmo_modbus_proto_ops) : osmo_modbus_conn → Prop where
  | alloc : slave_reachable ops (osmo_modbus_conn_alloc .OSMO_MODBUS_ROLE_SLAVE)
  | connect (c c' : osmo_modbus_conn) (rc : Int) (h : slave_reachable ops c)
      (hstep : osmo_modbus_conn_connect ops c = some (rc, c')) : slave_reachable ops c'
  | submit (c c' : osmo_modbus_conn) (prim : osmo_modbus_prim) (rc : Int)
      (h : slave_reachable ops c)
      (hstep : osmo_modbus_conn_submit_prim ops c prim = some (rc, c')) :
      slave_reachable ops c'
  | receive (c c' : osmo_modbus_conn) (prim : osmo_modbus_prim)
      (app : List osmo_modbus_prim) (h : slave_reachable ops c)
      (hstep : osmo_modbus_conn_rx_prim ops c prim app = some c') : slave_reachable ops c'
  | set_address (c : osmo_modbus_conn) (address : Nat) (h : slave_reachable ops c) :
      slave_reachable ops (osmo_modbus_conn_set_address c address).2
  | set_prim_cb (c : osmo_modbus_conn) (prim_cb : Bool) (h : slave_reachable ops c) :
      slave_reachable ops (osmo_modbus_conn_set_prim_cb c prim_cb)
  | set_monitor_mode (c : osmo_modbus_conn) (enable : Bool) (h : slave_reachable ops c) :
      slave_reachable ops (osmo_modbus_conn_set_monitor_mode c enable).2
  | endpoint (c : osmo_modbus_conn) (proto : osmo_modbus_conn_rtu)
      (h : slave_reachable ops c) : slave_reachable ops { c with proto := proto }

/-- The transmissions of a slave counted against the deliveries to the application:
every primitive handed to the transmitter, and the one the slave may still transmit
while it is in `CONN_SLAVE_ST_CHECK_REQUEST`, has its own invocation of the callback. -/
def slave_tx_inv (c : osmo_modbus_conn) : Prop :=
  c.role = .OSMO_MODBUS_ROLE_SLAVE
    ∧ c.tx_log.length + (if c.fi_state = .CONN_SLAVE_ST_CHECK_REQUEST then 1 else 0)
        ≤ c.cb_log.length

/-! ## The RTU transmission FSM (`rtu_transmit_fsm.c`) -/

/-- Modelled from the spec: the header `rtu_transmit_fsm.h` with the event enumeration of
the RTU transmission FSM is not part of the sources; the five events are those
`rtu_transmit_fsm.c` names. -/
inductive rtu_transmit_event where
  | RTU_TRANSMIT_EV_START
  | RTU_TRANSMIT_EV_T15_TIMEOUT
  | RTU_TRANSMIT_EV_T35_TIMEOUT
  | RTU_TRANSMIT_EV_CHAR_RECEIVED
  | RTU_TRANSMIT_EV_DEMAND_OF_EMISSION
  deriving DecidableEq, Repr

/-- The table `rtu_transmit_fsm_timeouts`: the timer `T` of each state, 0 for none. -/
def rtu_transmit_fsm_timeouts : rtu_transmit_state → Nat
  | .RTU_TRANSMIT_ST_INITIAL => 35
  | .RTU_TRANSMIT_ST_RECEPTION => 15
  | _ => 0

/-- The `in_event_mask` entries of `rtu_transmit_states`. -/
def rtu_transmit_states_in_event_mask : rtu_transmit_state → rtu_transmit_event → Bool
  | .RTU_TRANSMIT_ST_INITIAL, .RTU_TRANSMIT_EV_START => true
  | .RTU_TRANSMIT_ST_INITIAL, .RTU_TRANSMIT_EV_CHAR_RECEIVED => true
  | .RTU_TRANSMIT_ST_INITIAL, .RTU_TRANSMIT_EV_T35_TIMEOUT => true
  | .RTU_TRANSMIT_ST_IDLE, .RTU_TRANSMIT_EV_DEMAND_OF_EMISSION => true
  | .RTU_TRANSMIT_ST_IDLE, .RTU_TRANSMIT_EV_CHAR_RECEIVED => true
  | .RTU_TRANSMIT_ST_EMISSION, .RTU_TRANSMIT_EV_T35_TIMEOUT => true
  | .RTU_TRANSMIT_ST_RECEPTION, .RTU_TRANSMIT_EV_CHAR_RECEIVED => true
  | .RTU_TRANSMIT_ST_RECEPTION, .RTU_TRANSMIT_EV_T15_TIMEOUT => true
  | .RTU_TRANSMIT_ST_CTRL_WAIT, .RTU_TRANSMIT_EV_CHAR_RECEIVED => true
  | .RTU_TRANSMIT_ST_CTRL_WAIT, .RTU_TRANSMIT_EV_T35_TIMEOUT => true
  | _, _ => false

/-- The `out_state_mask` entries of `rtu_transmit_states`. -/
def rtu_transmit_states_out_state_mask : rtu_transmit_state → rtu_transmit_state → Bool
  | .RTU_TRANSMIT_ST_INITIAL, .RTU_TRANSMIT_ST_IDLE => true
  | .RTU_TRANSMIT_ST_IDLE, .RTU_TRANSMIT_ST_EMISSION => true
  | .RTU_TRANSMIT_ST_IDLE, .RTU_TRANSMIT_ST_RECEPTION => true
  | .RTU_TRANSMIT_ST_EMISSION, .RTU_TRANSMIT_ST_IDLE => true
  | .RTU_TRANSMIT_ST_RECEPTION, .RTU_TRANSMIT_ST_CTRL_WAIT => true
  | .RTU_TRANSMIT_ST_CTRL_WAIT, .RTU_TRANSMIT_ST_IDLE => true
  | _, _ => false

/-- The call `osmo_tdef_get(rtu->T_defs, T, OSMO_TDEF_US, -1)`: the entry `T`, in
microseconds, and the `unsigned long` -1 for a timer the table does not have. -/
def osmo_modbus_conn_rtu.T_defs (rtu : osmo_modbus_conn_rtu) (T : Nat) : Nat :=
  if T = 15 then rtu.T15 else if T = 35 then rtu.T35 else 2 ^ 64 - 1

/-- Function `rearm_timer_with_factor`: `timeout_us` is an `unsigned long` (64 bits) to
which the `long` factor is added; the timer is scheduled for `timeout_us` microseconds
and `fi->T` set. -/
def rearm_timer_with_factor (rtu : osmo_modbus_conn_rtu) (T : Nat) (factor_us : Int) :
    osmo_modbus_conn_rtu :=
  let timeout_us := (((rtu.T_defs T : Nat) : Int) + factor_us) % (2 ^ 64 : Int)
  { rtu with fi_timer := some (T, timeout_us.toNat) }

/-- Function `rearm_timer`. -/
def rearm_timer (rtu : osmo_modbus_conn_rtu) (T : Nat) : osmo_modbus_conn_rtu :=
  rearm_timer_with_factor rtu T 0

/-- Function `osmo_tdef_get` of libosmocore for a value stored in microseconds and asked
for in seconds: the value is rounded up. -/
def osmo_tdef_get_us_as_s (val_us : Nat) : Nat :=
  (val_us + 999999) / 1000000

/-- What `osmo_tdef_fsm_inst_state_chg` of libosmocore does to the instance of the RTU
FSM once the transition is permitted and before it calls `onenter`: the old timer is
deleted, the state is set, and the timer of the new state in `rtu_transmit_fsm_timeouts`
is started when the state has one and its value, asked for in seconds, is not zero. -/
def rtu_transmit_fsm_set_state (rtu : osmo_modbus_conn_rtu) (state : rtu_transmit_state) :
    osmo_modbus_conn_rtu :=
  let T := rtu_transmit_fsm_timeouts state
  let val := if T = 0 then 0 else osmo_tdef_get_us_as_s (rtu.T_defs T)
  { rtu with fi_state := state
             fi_timer := if val = 0 then none else some (T, val * 1000000) }

/-- Function `rtu_transmit_fsm_st_emission_onenter`: `none` is the read of the length of
a `tx_msg` that is `NULL`, or the division by a baud rate of zero. -/
def rtu_transmit_fsm_st_emission_onenter (rtu : osmo_modbus_conn_rtu) :
    Option osmo_modbus_conn_rtu :=
  match rtu.tx_msg with
  | none => none
  | some msg =>
    if rtu.baudrate = 0 then none
    else
      let char_len := msg.length
      let time_factor_us := rtu_chars2bits char_len * 1000000 / rtu.baudrate
      some (rearm_timer_with_factor { rtu with ofd_when_write := true } 35 time_factor_us)

/-- Function `rtu_transmit_fsm_st_ctrlwait_onenter`: `none` is the division by a baud
rate of zero. -/
def rtu_transmit_fsm_st_ctrlwait_onenter (rtu : osmo_modbus_conn_rtu) :
    Option osmo_modbus_conn_rtu :=
  if rtu.baudrate = 0 then none
  else
    let time_factor_us : Int := -1 * ((rtu_chars2bits 1500000 / rtu.baudrate : Nat) : Int)
    let rtu := rearm_timer_with_factor rtu 35 time_factor_us
    let len := rtu.rx_msg.length
    if len < 2 then some { rtu with rx_msg_ok := false }
    else some { rtu with rx_msg_ok := rtu_crc_matches rtu.rx_msg (len - 2) }

/-- The macro `rtu_transmit_fsm_state_chg(fi, state)`: a transition the `out_state_mask`
does not permit changes nothing; otherwise the state change of libosmocore is followed
by the `onenter` function of the new state. -/
def rtu_transmit_fsm_state_chg (rtu : osmo_modbus_conn_rtu) (state : rtu_transmit_state) :
    Option osmo_modbus_conn_rtu :=
  if rtu_transmit_states_out_state_mask rtu.fi_state state = false then some rtu
  else
    match state with
    | .RTU_TRANSMIT_ST_EMISSION =>
      rtu_transmit_fsm_st_emission_onenter (rtu_transmit_fsm_set_state rtu state)
    | .RTU_TRANSMIT_ST_CTRL_WAIT =>
      rtu_transmit_fsm_st_ctrlwait_onenter (rtu_transmit_fsm_set_state rtu state)
    | _ => some (rtu_transmit_fsm_set_state rtu state)

/-- The case `RTU_TRANSMIT_EV_T35_TIMEOUT` of `rtu_transmit_fsm_st_ctrlwait`: the endpoint
afterwards and the primitive passed to `osmo_modbus_conn_rx_prim`, if any. -/
def rtu_transmit_fsm_st_ctrlwait_t35 (e : host_endian) (rtu : osmo_modbus_conn_rtu) :
    Option (osmo_modbus_conn_rtu × Option osmo_modbus_prim) :=
  let r := if rtu.rx_msg_ok = true then rtu2prim e rtu.rx_msg else (0, none)
  let ok := rtu.rx_msg_ok && decide (0 ≤ r.1)
  (rtu_transmit_fsm_state_chg { rtu with rx_msg_ok := ok, rx_msg := [] }
    .RTU_TRANSMIT_ST_IDLE).map (fun rtu => (rtu, if ok = true then r.2 else none))

/-- The call `osmo_fsm_inst_dispatch(rtu->fi, event, NULL)`: the value returned, the
endpoint afterwards and the primitive passed to `osmo_modbus_conn_rx_prim`, if any. An
event outside the `in_event_mask` of the state returns -1; `none` is an abort, among
them the `OSMO_ASSERT(0)` of the `default` branches. -/
def rtu_transmit_fsm_dispatch (e : host_endian) (rtu : osmo_modbus_conn_rtu)
    (event : rtu_transmit_event) :
    Option (Int × osmo_modbus_conn_rtu × Option osmo_modbus_prim) :=
  if rtu_transmit_states_in_event_mask rtu.fi_state event = false then some (-1, rtu, none)
  else
    match rtu.fi_state, event with
    | .RTU_TRANSMIT_ST_INITIAL, .RTU_TRANSMIT_EV_START => some (0, rearm_timer rtu 35, none)
    | .RTU_TRANSMIT_ST_INITIAL, .RTU_TRANSMIT_EV_CHAR_RECEIVED =>
      some (0, rearm_timer rtu 35, none)
    | .RTU_TRANSMIT_ST_INITIAL, .RTU_TRANSMIT_EV_T35_TIMEOUT =>
      (rtu_transmit_fsm_state_chg rtu .RTU_TRANSMIT_ST_IDLE).map (fun r => (0, r, none))
    | .RTU_TRANSMIT_ST_IDLE, .RTU_TRANSMIT_EV_DEMAND_OF_EMISSION =>
      (rtu_transmit_fsm_state_chg rtu .RTU_TRANSMIT_ST_EMISSION).map (fun r => (0, r, none))
    | .RTU_TRANSMIT_ST_IDLE, .RTU_TRANSMIT_EV_CHAR_RECEIVED =>
      (rtu_transmit_fsm_state_chg rtu .RTU_TRANSMIT_ST_RECEPTION).map (fun r => (0, r, none))
    | .RTU_TRANSMIT_ST_EMISSION, .RTU_TRANSMIT_EV_T35_TIMEOUT =>
      (rtu_transmit_fsm_state_chg rtu .RTU_TRANSMIT_ST_IDLE).map (fun r => (0, r, none))
    | .RTU_TRANSMIT_ST_RECEPTION, .RTU_TRANSMIT_EV_CHAR_RECEIVED =>
      some (0, rearm_timer rtu 15, none)
    | .RTU_TRANSMIT_ST_RECEPTION, .RTU_TRANSMIT_EV_T15_TIMEOUT =>
      (rtu_transmit_fsm_state_chg rtu .RTU_TRANSMIT_ST_CTRL_WAIT).map (fun r => (0, r, none))
    | .RTU_TRANSMIT_ST_CTRL_WAIT, .RTU_TRANSMIT_EV_CHAR_RECEIVED =>
      some (0, { rtu with rx_msg_ok := false }, none)
    | .RTU_TRANSMIT_ST_CTRL_WAIT, .RTU_TRANSMIT_EV_T35_TIMEOUT =>
      (rtu_transmit_fsm_st_ctrlwait_t35 e rtu).map (fun r => (0, r.1, r.2))
    | _, _ => none

/-- Function `rtu_transmit_fsm_timer_cb`, with `T` the value of `fi->T`. -/
def rtu_transmit_fsm_timer_cb (e : host_endian) (rtu : osmo_modbus_conn_rtu) (T : Nat) :
    Option (osmo_modbus_conn_rtu × Option osmo_modbus_prim) :=
  if T = 15 then
    (rtu_transmit_fsm_dispatch e rtu .RTU_TRANSMIT_EV_T15_TIMEOUT).map (fun r => r.2)
  else if T = 35 then
    (rtu_transmit_fsm_dispatch e rtu .RTU_TRANSMIT_EV_T35_TIMEOUT).map (fun r => r.2)
  else some (rtu, none)

/-- The pending timer of the FSM instance of the endpoint expires: libosmocore calls the
`timer_cb` of the FSM, the timer being no longer pending. Nothing happens when no timer
is pending. -/
def rtu_timer_expired (e : host_endian) (rtu : osmo_modbus_conn_rtu) :
    Option (osmo_modbus_conn_rtu × Option osmo_modbus_prim) :=
  match rtu.fi_timer with
  | none => some (rtu, none)
  | some (T, _) => rtu_transmit_fsm_timer_cb e { rtu with fi_timer := none } T

/-! ## The endpoint on the serial line (`conn_rtu.c`, lines 229-353) -/

/-- Function `rtu_read`, with `bytes` what the serial line holds when `read` is called:
`read` stores at most `msgb_tailroom(rtu->rx_msg)` of them behind the bytes received so
far; when it stored at least one, `RTU_TRANSMIT_EV_CHAR_RECEIVED` is dispatched (the
value the dispatch returns is ignored). -/
def rtu_read (e : host_endian) (rtu : osmo_modbus_conn_rtu) (bytes : List Nat) :
    Option osmo_modbus_conn_rtu :=
  let got := bytes.take (MODBUS_MSGB_SIZE - rtu.rx_msg.length)
  if got = [] then some rtu
  else
    (rtu_transmit_fsm_dispatch e { rtu with rx_msg := rtu.rx_msg ++ got }
      .RTU_TRANSMIT_EV_CHAR_RECEIVED).map (fun r => r.2.1)

/-- The serial line becomes readable several times in a row: `rtu_read` once for each
element of `batches`. -/
def rtu_reads (e : host_endian) :
    osmo_modbus_conn_rtu → List (List Nat) → Option osmo_modbus_conn_rtu
  | rtu, [] => some rtu
  | rtu, bytes :: rest =>
    match rtu_read e rtu bytes with
    | none => none
    | some r => rtu_reads e r rest

/-- Function `rtu_write`: the endpoint afterwards and the frame given to `write`, if
any. -/
def rtu_write (rtu : osmo_modbus_conn_rtu) : osmo_modbus_conn_rtu × Option (List Nat) :=
  let rtu := { rtu with ofd_when_write := false }
  match rtu.tx_msg with
  | none => (rtu, none)
  | some msg => ({ rtu with tx_msg := none }, some msg)

/-- What `osmo_modbus_conn_rtu_connect` gets from the operating system: whether
`osmo_serial_speed_t` knows a baud rate, the value of `osmo_serial_init` (a file
descriptor, or a negative error), and the value of `osmo_fd_register`. -/
structure serial_env where
  speed_ok : Nat → Bool
  init_fd : Int
  register_rc : Int

/-- Function `osmo_modbus_conn_rtu_connect`; the dispatch of `RTU_TRANSMIT_EV_START` does
not abort in any state. -/
def osmo_modbus_conn_rtu_connect (e : host_endian) (env : serial_env)
    (rtu : osmo_modbus_conn_rtu) : Int × osmo_modbus_conn_rtu :=
  if rtu.dev_path = none ∨ rtu.dev_path = some "" then (-EINVAL, rtu)
  else if env.speed_ok rtu.baudrate = false then (-EINVAL, rtu)
  else if env.init_fd < 0 then (env.init_fd, rtu)
  else
    let rtu := { rtu with ofd_fd := env.init_fd, ofd_when_write := false }
    if env.register_rc ≠ 0 then (-EINVAL, rtu)
    else
      match rtu_transmit_fsm_dispatch e rtu .RTU_TRANSMIT_EV_START with
      | some r => (r.1, r.2.1)
      | none => (-1, rtu)

/-- Function `osmo_modbus_conn_rtu_tx_prim`: `none` is the failure of
`OSMO_ASSERT(!rtu->tx_msg)` or an abort further down. -/
def osmo_modbus_conn_rtu_tx_prim (e : host_endian) (rtu : osmo_modbus_conn_rtu)
    (prim : osmo_modbus_prim) : Option (Int × osmo_modbus_conn_rtu) :=
  match rtu.tx_msg with
  | some _ => none
  | none =>
    match prim2rtu e prim with
    | none => none
    | some msg =>
      (rtu_transmit_fsm_dispatch e { rtu with tx_msg := some msg }
        .RTU_TRANSMIT_EV_DEMAND_OF_EMISSION).map (fun r => (r.1, r.2.1))

/-- The `proto_ops` that `osmo_modbus_conn_rtu_alloc` installs in the connection. -/
def rtu_proto_ops (e : host_endian) (env : serial_env) : osmo_modbus_proto_ops :=
  ⟨osmo_modbus_conn_rtu_connect e env, osmo_modbus_conn_rtu_is_connected,
    osmo_modbus_conn_rtu_tx_prim e⟩

/-- The serial line becomes readable on a connection (`rtu_ofd_cb` with
`OSMO_FD_READ`). -/
def conn_rtu_read (e : host_endian) (c : osmo_modbus_conn) (bytes : List Nat) :
    Option osmo_modbus_conn :=
  (rtu_read e c.proto bytes).map (fun r => { c with proto := r })

/-- The serial line becomes writable on a connection (`rtu_ofd_cb` with
`OSMO_FD_WRITE`): the connection afterwards and the frame written, if any. -/
def conn_rtu_write (c : osmo_modbus_conn) : osmo_modbus_conn × Option (List Nat) :=
  ({ c with proto := (rtu_write c.proto).1 }, (rtu_write c.proto).2)

/-- The timer of the RTU FSM of a connection expires: a primitive the FSM forwards goes
to `osmo_modbus_conn_rx_prim`, with `app` what the application submits from inside the
callback. -/
def conn_rtu_timer_expired (e : host_endian) (ops : osmo_modbus_proto_ops)
    (c : osmo_modbus_conn) (app : List osmo_modbus_prim) : Option osmo_modbus_conn :=
  match rtu_timer_expired e c.proto with
  | none => none
  | some (rtu, none) => some { c with proto := rtu }
  | some (rtu, some prim) => osmo_modbus_conn_rx_prim ops { c with proto := rtu } prim app

/-- The next-state table of the RTU transmission FSM in the words of the specification:
the state after each accepted pair of state and event, `none` for a rejected pair. -/
def rtu_next_state_spec : rtu_transmit_state → rtu_transmit_event → Option rtu_transmit_state
  | .RTU_TRANSMIT_ST_INITIAL, .RTU_TRANSMIT_EV_START => some .RTU_TRANSMIT_ST_INITIAL
  | .RTU_TRANSMIT_ST_INITIAL, .RTU_TRANSMIT_EV_CHAR_RECEIVED => some .RTU_TRANSMIT_ST_INITIAL
  | .RTU_TRANSMIT_ST_INITIAL, .RTU_TRANSMIT_EV_T35_TIMEOUT => some .RTU_TRANSMIT_ST_IDLE
  | .RTU_TRANSMIT_ST_IDLE, .RTU_TRANSMIT_EV_DEMAND_OF_EMISSION =>
    some .RTU_TRANSMIT_ST_EMISSION
  | .RTU_TRANSMIT_ST_IDLE, .RTU_TRANSMIT_EV_CHAR_RECEIVED => some .RTU_TRANSMIT_ST_RECEPTION
  | .RTU_TRANSMIT_ST_EMISSION, .RTU_TRANSMIT_EV_T35_TIMEOUT => some .RTU_TRANSMIT_ST_IDLE
  | .RTU_TRANSMIT_ST_RECEPTION, .RTU_TRANSMIT_EV_CHAR_RECEIVED =>
    some .RTU_TRANSMIT_ST_RECEPTION
  | .RTU_TRANSMIT_ST_RECEPTION, .RTU_TRANSMIT_EV_T15_TIMEOUT =>
    some .RTU_TRANSMIT_ST_CTRL_WAIT
  | .RTU_TRANSMIT_ST_CTRL_WAIT, .RTU_TRANSMIT_EV_CHAR_RECEIVED =>
    some .RTU_TRANSMIT_ST_CTRL_WAIT
  | .RTU_TRANSMIT_ST_CTRL_WAIT, .RTU_TRANSMIT_EV_T35_TIMEOUT => some .RTU_TRANSMIT_ST_IDLE
  | _, _ => none

/-! ## The bytes `rtu2prim` reads -/

/-- The reads of one decoding attempt of `rtu2prim` with the expected length
`exp_len_nocrc`: nothing unless `len >= exp_len_nocrc + RTU_CRC_LEN`, then the bytes
`crc16(data, exp_len_nocrc)` goes through and the two bytes at `data[exp_len_nocrc]` that
`memcmp` compares. -/
def rtu2prim_attempt_reads (data : List Nat) (exp_len_nocrc : Nat) : List Nat :=
  if data.length ≥ exp_len_nocrc + RTU_CRC_LEN then
    List.range exp_len_nocrc ++ [exp_len_nocrc, exp_len_nocrc + 1]
  else []

/-- The indices of `data` that `rtu2prim` reads, in the order of the source and along the
path `rtu2prim` takes: the header bytes, the byte count, the reads of the response
attempt, the `byte_count / 2` registers that `osmo_modbus_makeprim_mult_hold_reg_resp`
copies from `data[RTU_HDR_LEN + 1]` on, the reads of the request attempt and the two
16-bit fields `osmo_load16be` loads. -/
def rtu2prim_reads (data : List Nat) : List Nat :=
  let len := data.length
  if len < RTU_HDR_LEN then []
  else
    let hdr := [0, 1]
    if data.getD 1 0 = OSMO_MODBUS_FUNC_READ_MULT_HOLD_REG then
      if len < RTU_HDR_LEN + 4 then hdr
      else
        let byte_count := data.getD RTU_HDR_LEN 0
        let resp := rtu2prim_attempt_reads data (rtu_resp_exp_len data)
        if rtu_resp_check data = true then
          hdr ++ [RTU_HDR_LEN] ++ resp
            ++ (List.range (byte_count / 2 * 2)).map (fun k => RTU_HDR_LEN + 1 + k)
        else
          let req := rtu2prim_attempt_reads data (RTU_HDR_LEN + 2 + 2)
          if rtu_req_check data = true then
            hdr ++ [RTU_HDR_LEN] ++ resp ++ req
              ++ [RTU_HDR_LEN, RTU_HDR_LEN + 1, RTU_HDR_LEN + 2, RTU_HDR_LEN + 3]
          else hdr ++ [RTU_HDR_LEN] ++ resp ++ req
    else hdr

/-! ## Invariants of the connection FSMs -/

/-- What holds of a master connection between events: the state is one of DISCONNECTED,
IDLE and WAIT_REPLY, and a timer is pending only in WAIT_REPLY, where it is the
no-response timer. -/
def master_state_inv (c : osmo_modbus_conn) : Prop :=
  c.role = .OSMO_MODBUS_ROLE_MASTER
    ∧ (c.fi_state = .CONN_MASTER_ST_DISCONNECTED ∨ c.fi_state = .CONN_MASTER_ST_IDLE
        ∨ c.fi_state = .CONN_MASTER_ST_WAIT_REPLY)
    ∧ ∀ T v, c.fi_timer = some (T, v) →
        T = OSMO_MODBUS_TO_NORESPONSE ∧ c.fi_state = .CONN_MASTER_ST_WAIT_REPLY

/-- What holds of a slave connection between events: the state is one of DISCONNECTED,
IDLE and CHECK_REQUEST. -/
def slave_state_inv (c : osmo_modbus_conn) : Prop :=
  c.role = .OSMO_MODBUS_ROLE_SLAVE
    ∧ (c.fi_state = .CONN_SLAVE_ST_DISCONNECTED ∨ c.fi_state = .CONN_SLAVE_ST_IDLE
        ∨ c.fi_state = .CONN_SLAVE_ST_CHECK_REQUEST)

/-- The states of a master connection whose application registers its callback right
after `osmo_modbus_conn_alloc` and keeps it: as `master_reachable`, without the calls
that change the callback. -/
inductive master_reachable_cb (ops : osmo_modbus_proto_ops) : osmo_modbus_conn → Prop where
  | alloc : master_reachable_cb ops
      (osmo_modbus_conn_set_prim_cb (osmo_modbus_conn_alloc .OSMO_MODBUS_ROLE_MASTER) true)
  | connect (c c' : osmo_modbus_conn) (rc : Int) (h : master_reachable_cb ops c)
      (hstep : osmo_modbus_conn_connect ops c = some (rc, c')) : master_reachable_cb ops c'
  | submit (c c' : osmo_modbus_conn) (prim : osmo_modbus_prim) (rc : Int)
      (h : master_reachable_cb ops c)
      (hstep : osmo_modbus_conn_submit_prim ops c prim = some (rc, c')) :
      master_reachable_cb ops c'
  | receive (c c' : osmo_modbus_conn) (prim : osmo_modbus_prim)
      (app : List osmo_modbus_prim) (h : master_reachable_cb ops c)
      (hstep : osmo_modbus_conn_rx_prim ops c prim app = some c') :
      master_reachable_cb ops c'
  | timeout (c c' : osmo_modbus_conn) (app : List osmo_modbus_prim)
      (h : master_reachable_cb ops c)
      (hstep : conn_master_timer_expired ops c app = some c') : master_reachable_cb ops c'
  | set_address (c : osmo_modbus_conn) (address : Nat) (h : master_reachable_cb ops c) :
      master_reachable_cb ops (osmo_modbus_conn_set_address c address).2
  | set_timeout (c : osmo_modbus_conn) (turnaround noresponse : Nat)
      (h : master_reachable_cb ops c) :
      master_reachable_cb ops
        { c with T_turnaround := turnaround, T_noresponse := noresponse }
  | endpoint (c : osmo_modbus_conn) (proto : osmo_modbus_conn_rtu)
      (h : master_reachable_cb ops c) : master_reachable_cb ops { c with proto := proto }

/-- The accounting of a master whose callback is registered: every primitive handed to
the transmitter has been answered by one invocation of the callback, except the one the
master is waiting for in WAIT_REPLY. -/
def master_account_inv (c : osmo_modbus_conn) : Prop :=
  c.prim_cb = true
    ∧ c.cb_log.length + (if c.fi_state = .CONN_MASTER_ST_WAIT_REPLY then 1 else 0)
        = c.tx_log.length

/-! ## The table-driven CRC against the bit-by-bit checksum -/

theorem xor_low_byte (A x y : Nat) (hx : x < 256) (hy : y < 256) :
    (256 * A + x) ^^^ y = 256 * A + (x ^^^ y) := by
  have hx8 : x < 2 ^ 8 := by omega
  have hy8 : y < 2 ^ 8 := by omega
  have hxy : x ^^^ y < 2 ^ 8 := Nat.xor_lt_two_pow hx8 hy8
  have e256 : (256 : Nat) = 2 ^ 8 := by norm_num
  rw [e256]
  apply Nat.eq_of_testBit_eq
  intro j
  rw [Nat.testBit_xor, Nat.testBit_mul_pow_two_add A hx8, Nat.testBit_mul_pow_two_add A hxy]
  by_cases hj : j < 8
  · simp [hj]
  · have hyj : y.testBit j = false := by
      apply Nat.testBit_lt_two_pow
      calc y < 2 ^ 8 := hy8
        _ ≤ 2 ^ j := Nat.pow_le_pow_right (by norm_num) (by omega)
    simp [hj, hyj]

theorem crc16_spec_shift_xor (x y : Nat) :
    crc16_spec_shift (x ^^^ y) = crc16_spec_shift x ^^^ crc16_spec_shift y := by
  unfold crc16_spec_shift
  have hd : (x ^^^ y) / 2 = x / 2 ^^^ y / 2 := Nat.xor_div_two
  have hm : (x ^^^ y) % 2 = (x + y) % 2 := Nat.xor_mod_two_eq
  have key : ∀ a b c : Nat, a ^^^ c ^^^ (b ^^^ c) = a ^^^ b := by
    intro a b c
    apply Nat.eq_of_testBit_eq
    intro i
    simp only [Nat.testBit_xor]
    cases a.testBit i <;> cases b.testBit i <;> cases c.testBit i <;> rfl
  rcases Nat.mod_two_eq_zero_or_one x with hx | hx <;>
    rcases Nat.mod_two_eq_zero_or_one y with hy | hy
  · have h0 : (x ^^^ y) % 2 = 0 := by omega
    simp [hx, hy, h0, hd]
  · have h1 : (x ^^^ y) % 2 = 1 := by omega
    simp [hx, hy, h1, hd, Nat.xor_assoc]
  · have h1 : (x ^^^ y) % 2 = 1 := by omega
    simp only [hx, hy, h1, hd, if_true]
    simp only [Nat.zero_ne_one, if_false]
    rw [Nat.xor_assoc, Nat.xor_assoc, Nat.xor_comm (y / 2)]
  · have h0 : (x ^^^ y) % 2 = 0 := by omega
    simp only [hx, hy, h0, hd, if_true]
    simp only [Nat.zero_ne_one, if_false]
    exact (key _ _ _).symm

theorem crc16_spec_shift_iterate_xor (n x y : Nat) :
    crc16_spec_shift^[n] (x ^^^ y) = crc16_spec_shift^[n] x ^^^ crc16_spec_shift^[n] y := by
  induction n with
  | zero => rfl
  | succ n ih => rw [Function.iterate_succ_apply', Function.iterate_succ_apply',
      Function.iterate_succ_apply', ih, crc16_spec_shift_xor]

theorem crc16_spec_shift_double (k : Nat) : crc16_spec_shift (2 * k) = k := by
  unfold crc16_spec_shift
  have h0 : (2 * k) % 2 = 0 := by omega
  have h1 : (2 * k) / 2 = k := by omega
  simp [h0, h1]

theorem crc16_spec_shift_high (k : Nat) : crc16_spec_shift^[8] (256 * k) = k := by
  have e : 256 * k = 2 * (2 * (2 * (2 * (2 * (2 * (2 * (2 * k))))))) := by omega
  rw [e]
  simp only [Function.iterate_succ, Function.iterate_zero, Function.comp_apply,
    crc16_spec_shift_double, id_eq]

theorem crc16_tables (i : Nat) (hi : i < 256) :
    crc16_spec_shift^[8] i = 256 * table_crc_lo.getD i 0 + table_crc_hi.getD i 0
      ∧ table_crc_lo.getD i 0 < 256 ∧ table_crc_hi.getD i 0 < 256 := by
  have h : ∀ i < 256, crc16_spec_shift^[8] i = 256 * table_crc_lo.getD i 0 + table_crc_hi.getD i 0
      ∧ table_crc_lo.getD i 0 < 256 ∧ table_crc_hi.getD i 0 < 256 := by decide!
  exact h i hi

/-- One pass of the loop of `crc16` is one byte step of the bit-by-bit checksum, the
variable `crc_hi` holding the low byte of the register and `crc_lo` its high byte. -/
theorem crc16_step_spec (reg byte : Nat) (hreg : reg < 65536) (hb : byte < 256) :
    crc16_step (reg % 256, reg / 256) byte
        = (crc16_spec_byte reg byte % 256, crc16_spec_byte reg byte / 256)
      ∧ crc16_spec_byte reg byte < 65536 := by
  have hlo : reg / 256 < 256 := by omega
  have hhi : reg % 256 < 256 := by omega
  have hidx : reg % 256 ^^^ byte < 256 :=
    Nat.xor_lt_two_pow (n := 8) (by omega) (by omega)
  obtain ⟨ht, htl, hth⟩ := crc16_tables _ hidx
  have hx : (reg / 256) ^^^ table_crc_hi.getD (reg % 256 ^^^ byte) 0 < 256 :=
    Nat.xor_lt_two_pow (n := 8) (by omega) (by omega)
  have e1 : reg ^^^ byte = (256 * (reg / 256)) ^^^ (reg % 256 ^^^ byte) := by
    have h0 := xor_low_byte (reg / 256) 0 (reg % 256 ^^^ byte) (by norm_num) hidx
    rw [Nat.add_zero, Nat.zero_xor] at h0
    rw [h0, ← xor_low_byte (reg / 256) (reg % 256) byte hhi hb]
    congr 1
    omega
  have e2 : crc16_spec_byte reg byte
      = 256 * table_crc_lo.getD (reg % 256 ^^^ byte) 0
        + ((reg / 256) ^^^ table_crc_hi.getD (reg % 256 ^^^ byte) 0) := by
    unfold crc16_spec_byte
    rw [e1, crc16_spec_shift_iterate_xor, crc16_spec_shift_high, ht, Nat.xor_comm (reg / 256),
      xor_low_byte _ _ _ hth hlo, Nat.xor_comm (table_crc_hi.getD _ 0)]
  refine ⟨?_, by rw [e2]; omega⟩
  rw [e2]
  simp only [crc16_step]
  refine Prod.ext ?_ ?_
  · simp only []
    omega
  · simp only []
    omega

theorem crc16_foldl_spec (data : List Nat) (hdata : ∀ b ∈ data, b < 256) :
    ∀ reg, reg < 65536 →
      data.foldl crc16_step (reg % 256, reg / 256)
          = ((data.foldl crc16_spec_byte reg) % 256, (data.foldl crc16_spec_byte reg) / 256)
        ∧ data.foldl crc16_spec_byte reg < 65536 := by
  induction data with
  | nil => intro reg hreg; exact ⟨rfl, hreg⟩
  | cons b rest ih =>
    intro reg hreg
    obtain ⟨hs, hlt⟩ := crc16_step_spec reg b hreg (hdata b (List.mem_cons_self _ _))
    simp only [List.foldl_cons]
    rw [hs]
    exact ih (fun x hx => hdata x (List.mem_cons_of_mem _ hx)) _ hlt

/-- The value `crc16` returns is the bit-by-bit checksum with its two bytes swapped:
its high byte is the checksum's low byte. -/
theorem crc16_eq_swap_spec (data : List Nat) (hdata : ∀ b ∈ data, b < 256) :
    crc16 data = (crc16_spec data % 256) * 256 + crc16_spec data / 256
      ∧ crc16_spec data < 65536 := by
  obtain ⟨h, hlt⟩ := crc16_foldl_spec data hdata 0xFFFF (by norm_num)
  have h' : crc16_loop data = (crc16_spec data % 256, crc16_spec data / 256) := h
  refine ⟨?_, hlt⟩
  unfold crc16
  rw [h']
  simp only []
  have hlt' : crc16_spec data < 65536 := hlt
  have hq : crc16_spec data / 256 < 2 ^ 8 := by omega
  rw [Nat.shiftLeft_eq, Nat.mul_comm, ← Nat.mul_add_lt_is_or hq]


/-! ## Shape of the frames `prim2rtu` builds -/

theorem osmo_store16be_crc16 (body : List Nat) (hbody : ∀ b ∈ body, b < 256) :
    osmo_store16be (crc16 body) = [crc16_spec body % 256, crc16_spec body / 256] := by
  obtain ⟨h, hlt⟩ := crc16_eq_swap_spec body hbody
  unfold osmo_store16be
  rw [h]
  have hq : crc16_spec body / 256 < 256 := by omega
  have hm : crc16_spec body % 256 < 256 := by omega
  generalize crc16_spec body % 256 = m at hm ⊢
  generalize crc16_spec body / 256 = q at hq ⊢
  have h1 : (m * 256 + q) / 256 % 256 = m := by omega
  have h2 : (m * 256 + q) % 256 = q := by omega
  rw [h1, h2]

theorem host_store16_array_length (e : host_endian) (regs : List Nat) :
    (host_store16_array e regs).length = 2 * regs.length := by
  induction regs with
  | nil => rfl
  | cons v rest ih =>
    cases e <;> simp [host_store16_array, host_store16, ih] <;> omega

theorem host_store16_array_lt (e : host_endian) (regs : List Nat) :
    ∀ b ∈ host_store16_array e regs, b < 256 := by
  induction regs with
  | nil => intro b hb; simp [host_store16_array] at hb
  | cons v rest ih =>
    intro b hb
    simp only [host_store16_array, List.mem_append] at hb
    rcases hb with hb | hb
    · cases e <;> simp [host_store16] at hb <;> omega
    · exact ih b hb

theorem range_map_getD (regs : List Nat) :
    (List.range regs.length).map (fun i => regs.getD i 0) = regs := by
  apply List.ext_getElem
  · simp
  · intro i h1 h2
    simp [List.getD_eq_getElem?_getD, List.getElem?_eq_getElem h2]

/-- The frame of a request: six header and payload bytes, then the CRC stored
big-endian. -/
theorem prim2rtu_request (e : host_endian) (prim : osmo_modbus_prim)
    (hp : prim.oph.primitive = .OSMO_MODBUS_PRIM_N_MULT_HOLD_REG)
    (ho : prim.oph.operation = .PRIM_OP_REQUEST) :
    prim2rtu e prim = some
      ([prim.address % 256, 3, prim.u.req.first_reg / 256 % 256, prim.u.req.first_reg % 256,
          prim.u.req.num_reg / 256 % 256, prim.u.req.num_reg % 256]
        ++ osmo_store16be (crc16 [prim.address % 256, 3, prim.u.req.first_reg / 256 % 256,
          prim.u.req.first_reg % 256, prim.u.req.num_reg / 256 % 256,
          prim.u.req.num_reg % 256])) := by
  simp [prim2rtu, prim2rtu_payload, hp, ho, msgb_put_u8, msgb_put_u16, msgb_put,
    osmo_store16be, MODBUS_MSGB_SIZE, OSMO_MODBUS_FUNC_READ_MULT_HOLD_REG]

/-- The frame of a response with at most 125 registers: address, function code, byte
count, the register array as it lies in the memory of the host, then the CRC stored
big-endian. -/
theorem prim2rtu_response (e : host_endian) (prim : osmo_modbus_prim)
    (hp : prim.oph.primitive = .OSMO_MODBUS_PRIM_N_MULT_HOLD_REG)
    (ho : prim.oph.operation = .PRIM_OP_RESPONSE)
    (hn : prim.u.resp.num_reg ≤ 125) :
    prim2rtu e prim = some
      (([prim.address % 256, 3, prim.u.resp.num_reg * 2 % 256]
          ++ host_store16_array e
            ((List.range prim.u.resp.num_reg).map (fun i => prim.u.resp.registers.getD i 0)))
        ++ osmo_store16be (crc16 ([prim.address % 256, 3, prim.u.resp.num_reg * 2 % 256]
          ++ host_store16_array e
            ((List.range prim.u.resp.num_reg).map
              (fun i => prim.u.resp.registers.getD i 0))))) := by
  have hl := host_store16_array_length e
    ((List.range prim.u.resp.num_reg).map (fun i => prim.u.resp.registers.getD i 0))
  simp only [List.length_map, List.length_range] at hl
  simp only [prim2rtu, prim2rtu_payload, hp, ho]
  generalize host_store16_array e
    ((List.range prim.u.resp.num_reg).map (fun i => prim.u.resp.registers.getD i 0)) = arr
    at hl ⊢
  have h3 : 3 + arr.length ≤ 256 := by omega
  have h4 : arr.length + 1 + 1 + 1 ≤ 254 := by omega
  simp [msgb_put_u8, msgb_put_u16, msgb_put, osmo_store16be, MODBUS_MSGB_SIZE,
    OSMO_MODBUS_FUNC_READ_MULT_HOLD_REG, h3, h4]

/-! ## Case analysis of `rtu2prim` -/

theorem rtu2prim_short (e : host_endian) (data : List Nat) (h : data.length < 2) :
    rtu2prim e data = (-ENODATA, none) := by
  simp [rtu2prim, RTU_HDR_LEN, h]

theorem rtu2prim_short_read (e : host_endian) (data : List Nat)
    (hcode : data.getD 1 0 = 0x03) (h : data.length < 6) :
    rtu2prim e data = (-ENODATA, none) := by
  unfold rtu2prim
  by_cases h2 : data.length < RTU_HDR_LEN
  · simp [h2]
  · have h6 : data.length < RTU_HDR_LEN + 4 := by simp [RTU_HDR_LEN]; omega
    simp only [h2, if_false, hcode, OSMO_MODBUS_FUNC_READ_MULT_HOLD_REG, if_true, h6]

/-- The response branch of `rtu2prim`. -/
theorem rtu2prim_of_resp_check (e : host_endian) (data : List Nat)
    (hlen : 6 ≤ data.length) (hcode : data.getD 1 0 = 0x03)
    (hcheck : rtu_resp_check data = true) :
    rtu2prim e data =
      (((rtu_resp_exp_len data + 2 : Nat) : Int),
        some (osmo_modbus_makeprim_mult_hold_reg_resp (data.getD 0 0) (data.getD 2 0 / 2)
          (fun i => host_load16 e (data.getD (3 + 2 * i) 0) (data.getD (3 + 2 * i + 1) 0)))) := by
  unfold rtu2prim
  have h2 : ¬ data.length < 2 := by omega
  have h6 : ¬ data.length < 2 + 4 := by omega
  simp only [RTU_HDR_LEN, RTU_CRC_LEN, h2, h6, if_false, hcode,
    OSMO_MODBUS_FUNC_READ_MULT_HOLD_REG, if_true, hcheck]

/-- The request branch of `rtu2prim`. -/
theorem rtu2prim_of_req_check (e : host_endian) (data : List Nat)
    (hlen : 6 ≤ data.length) (hcode : data.getD 1 0 = 0x03)
    (hresp : rtu_resp_check data = false) (hcheck : rtu_req_check data = true) :
    rtu2prim e data =
      (8, some (osmo_modbus_makeprim_mult_hold_reg_req (data.getD 0 0)
        (osmo_load16be data 2) (osmo_load16be data 4))) := by
  unfold rtu2prim
  have h2 : ¬ data.length < 2 := by omega
  have h6 : ¬ data.length < 2 + 4 := by omega
  simp only [RTU_HDR_LEN, RTU_CRC_LEN, h2, h6, if_false, hcode,
    OSMO_MODBUS_FUNC_READ_MULT_HOLD_REG, if_true, hresp, hcheck, Bool.false_eq_true]
  rfl

/-- Neither attempt of `rtu2prim` succeeds. -/
theorem rtu2prim_of_no_check (e : host_endian) (data : List Nat)
    (hlen : 6 ≤ data.length) (hcode : data.getD 1 0 = 0x03)
    (hresp : rtu_resp_check data = false) (hreq : rtu_req_check data = false) :
    rtu2prim e data = (-ENODATA, none) := by
  unfold rtu2prim
  have h2 : ¬ data.length < 2 := by omega
  have h6 : ¬ data.length < 2 + 4 := by omega
  simp only [RTU_HDR_LEN, RTU_CRC_LEN, h2, h6, if_false, hcode,
    OSMO_MODBUS_FUNC_READ_MULT_HOLD_REG, if_true, hresp, hreq, Bool.false_eq_true]

/-- The `default` branch of the `switch` of `rtu2prim`. -/
theorem rtu2prim_of_other_code (e : host_endian) (data : List Nat)
    (hlen : 2 ≤ data.length) (hcode : data.getD 1 0 ≠ 0x03) :
    rtu2prim e data = (-EINVAL, none) := by
  unfold rtu2prim
  have h2 : ¬ data.length < 2 := by omega
  simp only [RTU_HDR_LEN, h2, if_false, hcode, OSMO_MODBUS_FUNC_READ_MULT_HOLD_REG]

/-- Every way `rtu2prim` can return a primitive. -/
theorem rtu2prim_some (e : host_endian) (data : List Nat) (rc : Int) (p : osmo_modbus_prim)
    (h : rtu2prim e data = (rc, some p)) :
    6 ≤ data.length ∧ data.getD 1 0 = 0x03 ∧
      ((rtu_resp_check data = true ∧
          p = osmo_modbus_makeprim_mult_hold_reg_resp (data.getD 0 0) (data.getD 2 0 / 2)
            (fun i => host_load16 e (data.getD (3 + 2 * i) 0) (data.getD (3 + 2 * i + 1) 0)))
        ∨ (rtu_resp_check data = false ∧ rtu_req_check data = true ∧
          p = osmo_modbus_makeprim_mult_hold_reg_req (data.getD 0 0)
            (osmo_load16be data 2) (osmo_load16be data 4))) := by
  by_cases h2 : data.length < 2
  · rw [rtu2prim_short e data h2] at h
    simp at h
  by_cases hcode : data.getD 1 0 = 0x03
  · by_cases h6 : data.length < 6
    · rw [rtu2prim_short_read e data hcode h6] at h
      simp at h
    · have hlen : 6 ≤ data.length := by omega
      refine ⟨hlen, hcode, ?_⟩
      by_cases hresp : rtu_resp_check data = true
      · rw [rtu2prim_of_resp_check e data hlen hcode hresp] at h
        simp only [Prod.mk.injEq, Option.some.injEq] at h
        exact Or.inl ⟨hresp, h.2.symm⟩
      · have hresp' : rtu_resp_check data = false := by simpa using hresp
        by_cases hreq : rtu_req_check data = true
        · rw [rtu2prim_of_req_check e data hlen hcode hresp' hreq] at h
          simp only [Prod.mk.injEq, Option.some.injEq] at h
          exact Or.inr ⟨hresp', hreq, h.2.symm⟩
        · have hreq' : rtu_req_check data = false := by simpa using hreq
          rw [rtu2prim_of_no_check e data hlen hcode hresp' hreq'] at h
          simp at h
  · rw [rtu2prim_of_other_code e data (by omega) hcode] at h
    simp at h

/-! ## The response attempt when the 8-bit expected length wraps around -/

theorem getD_lt_256 (data : List Nat) (hbytes : ∀ x ∈ data, x < 256) (i : Nat) :
    data.getD i 0 < 256 := by
  by_cases hi : i < data.length
  · rw [List.getD_eq_getElem _ _ hi]
    exact hbytes _ (List.getElem_mem hi)
  · rw [List.getD_eq_default _ _ (by omega)]
    norm_num

theorem crc16_one_byte_high (a : Nat) (ha : a < 256) : crc16 [a] / 256 % 256 ≠ 3 := by
  have h : ∀ a < 256, crc16 [a] / 256 % 256 ≠ 3 := by decide!
  exact h a ha

theorem crc16_two_bytes_high (a : Nat) (ha : a < 256) : crc16 [a, 3] / 256 % 256 ≠ 255 := by
  have h : ∀ a < 256, crc16 [a, 3] / 256 % 256 ≠ 255 := by decide!
  exact h a ha

/-- For the byte counts 253, 254 and 255 the `uint8_t` expected length wraps around to
0, 1 and 2; the CRC comparison then fails whatever the address is. -/
theorem rtu_resp_check_wrap (data : List Nat) (hbytes : ∀ x ∈ data, x < 256)
    (hlen : 4 ≤ data.length) (hcode : data.getD 1 0 = 0x03) (hbc : 253 ≤ data.getD 2 0) :
    rtu_resp_check data = false := by
  match data, hlen with
  | x0 :: x1 :: x2 :: x3 :: rest, _ =>
    have h0 : x0 < 256 := hbytes x0 (by simp)
    have h2 : x2 < 256 := hbytes x2 (by simp)
    simp only [List.getD_cons_succ, List.getD_cons_zero] at hcode hbc
    subst hcode
    have hA := crc16_one_byte_high x0 h0
    have hB := crc16_two_bytes_high x0 h0
    have hx2 : x2 = 253 ∨ x2 = 254 ∨ x2 = 255 := by omega
    rcases hx2 with rfl | rfl | rfl
    · have h : crc16 [] = 65535 := by decide
      simp [rtu_resp_check, rtu_resp_exp_len, rtu_crc_matches, RTU_HDR_LEN, RTU_CRC_LEN,
        osmo_store16be, h]
    · simp only [rtu_resp_check, rtu_resp_exp_len, rtu_crc_matches, RTU_HDR_LEN, RTU_CRC_LEN,
        osmo_store16be, List.getD_cons_succ, List.getD_cons_zero]
      simp
      intro h _
      exact absurd h.symm hA
    · simp only [rtu_resp_check, rtu_resp_exp_len, rtu_crc_matches, RTU_HDR_LEN, RTU_CRC_LEN,
        osmo_store16be, List.getD_cons_succ, List.getD_cons_zero]
      simp
      intro h _
      exact absurd h.symm hB

/-- When the response attempt succeeds on a buffer of at most 256 bytes, the byte count
is at most 251 and the expected length did not wrap. -/
theorem rtu_resp_check_byte_count (data : List Nat) (hlen : data.length ≤ 256)
    (hbytes : ∀ x ∈ data, x < 256) (h4 : 4 ≤ data.length) (hcode : data.getD 1 0 = 0x03)
    (hcheck : rtu_resp_check data = true) :
    data.getD 2 0 ≤ 251 ∧ rtu_resp_exp_len data = 3 + data.getD 2 0
      ∧ 5 + data.getD 2 0 ≤ data.length := by
  have hbc := getD_lt_256 data hbytes 2
  by_cases hw : 253 ≤ data.getD 2 0
  · rw [rtu_resp_check_wrap data hbytes h4 hcode hw] at hcheck
    simp at hcheck
  · have hexp : rtu_resp_exp_len data = 3 + data.getD 2 0 := by
      unfold rtu_resp_exp_len
      simp only [RTU_HDR_LEN]
      omega
    simp only [rtu_resp_check, Bool.and_eq_true, decide_eq_true_eq, hexp, RTU_CRC_LEN] at hcheck
    refine ⟨by omega, hexp, by omega⟩

/-! ## Indexing into frames -/

theorem drop_take_two (l : List Nat) (n : Nat) (h : n + 2 ≤ l.length) :
    (l.drop n).take 2 = [l.getD n 0, l.getD (n + 1) 0] := by
  induction n generalizing l with
  | zero =>
    match l, h with
    | a :: b :: rest, _ => simp
  | succ n ih =>
    match l, h with
    | a :: rest, h =>
      have h' : n + 2 ≤ rest.length := by simpa using h
      simpa using ih rest h'

theorem host_store16_array_getD (e : host_endian) (regs : List Nat)
    (hregs : ∀ r ∈ regs, r < 65536) (i : Nat) (hi : i < regs.length) :
    host_load16 e ((host_store16_array e regs).getD (2 * i) 0)
      ((host_store16_array e regs).getD (2 * i + 1) 0) = regs.getD i 0 := by
  induction regs generalizing i with
  | nil => simp at hi
  | cons v rest ih =>
    have hv : v < 65536 := hregs v (by simp)
    cases i with
    | zero =>
      cases e <;> simp [host_store16_array, host_store16, host_load16] <;> omega
    | succ j =>
      have hj : j < rest.length := by simpa using hi
      have ih' := ih (fun r hr => hregs r (List.mem_cons_of_mem _ hr)) j hj
      have e1 : 2 * (j + 1) = 2 * j + 1 + 1 := by omega
      rw [e1]
      cases e <;> simpa [host_store16_array, host_store16] using ih'

theorem frame_getD_payload (hdr arr tail : List Nat) (h3 : hdr.length = 3) (k : Nat)
    (hk : k < arr.length) : ((hdr ++ arr) ++ tail).getD (3 + k) 0 = arr.getD k 0 := by
  rw [List.getD_append _ _ _ _ (by simp; omega), List.getD_append_right _ _ _ _ (by omega)]
  congr 1
  omega

/-! ## Decoding a response -/

/-- What `rtu2prim` returns on a buffer that holds a response frame: the length check
passes without wrap-around and the two bytes after the payload are the CRC as
`osmo_store16be` writes it. -/
theorem rtu2prim_response (e : host_endian) (data : List Nat)
    (hlen : data.length ≤ 256) (hbytes : ∀ x ∈ data, x < 256)
    (hcode : data.getD 1 0 = 0x03) (h6 : 6 ≤ data.length)
    (h5 : 5 + data.getD 2 0 ≤ data.length)
    (hcrc : (data.drop (3 + data.getD 2 0)).take 2
      = osmo_store16be (crc16 (data.take (3 + data.getD 2 0)))) :
    rtu2prim e data =
      (((5 + data.getD 2 0 : Nat) : Int),
        some { oph := ⟨MODBUS_SAP, .OSMO_MODBUS_PRIM_N_MULT_HOLD_REG, .PRIM_OP_RESPONSE⟩
               address := data.getD 0 0
               u := .read_mult_hold_reg_resp ⟨data.getD 2 0 / 2,
                 (List.range (data.getD 2 0 / 2)).map
                   (fun i => host_load16 e (data.getD (3 + 2 * i) 0)
                     (data.getD (4 + 2 * i) 0))⟩ }) := by
  have hbc : data.getD 2 0 ≤ 251 := by omega
  have hexp : rtu_resp_exp_len data = 3 + data.getD 2 0 := by
    unfold rtu_resp_exp_len
    simp only [RTU_HDR_LEN]
    omega
  have hcheck : rtu_resp_check data = true := by
    simp only [rtu_resp_check, rtu_crc_matches, Bool.and_eq_true, decide_eq_true_eq, hexp,
      RTU_CRC_LEN]
    exact ⟨by omega, hcrc⟩
  rw [rtu2prim_of_resp_check e data h6 hcode hcheck, hexp]
  have ha : data.getD 0 0 % 65536 = data.getD 0 0 := by
    have := getD_lt_256 data hbytes 0
    omega
  have hn : data.getD 2 0 / 2 % 256 = data.getD 2 0 / 2 := by omega
  have hidx : ∀ i, 3 + 2 * i + 1 = 4 + 2 * i := by intro i; omega
  have hret : 3 + data.getD 2 0 + 2 = 5 + data.getD 2 0 := by omega
  simp only [osmo_modbus_makeprim_mult_hold_reg_resp, ha, hn, hidx, hret]

/-! ## Properties of the CRC -/

/-- C3, as stated, fails: on the six bytes 01 03 00 0C 00 01 the two-table `crc16`
returns 0x4409 while the checksum computed bit by bit is 0x0944. -/
theorem crc16_differs_from_bitwise_checksum :
    crc16 [0x01, 0x03, 0x00, 0x0C, 0x00, 0x01] = 0x4409
      ∧ crc16_spec [0x01, 0x03, 0x00, 0x0C, 0x00, 0x01] = 0x0944
      ∧ crc16 [0x01, 0x03, 0x00, 0x0C, 0x00, 0x01]
          ≠ crc16_spec [0x01, 0x03, 0x00, 0x0C, 0x00, 0x01] := by decide!

/-- C3, amended: for every byte sequence `B` of fewer than 65536 bytes, the value
`crc16 B` of the two-table implementation is the CRC-16/Modbus checksum of `B` computed
bit by bit, with its two bytes swapped: the high byte of `crc16 B` is the low byte of
the checksum and the low byte of `crc16 B` is its high byte. -/
theorem crc16_is_byte_swapped_checksum (B : List Nat) (_hlen : B.length < 65536)
    (hB : ∀ b ∈ B, b < 256) :
    crc16 B = (crc16_spec B % 256) * 256 + crc16_spec B / 256 ∧ crc16_spec B < 65536 :=
  crc16_eq_swap_spec B hB

theorem crc16_is_byte_swapped_checksum_witness :
    crc16 [0x01, 0x03, 0x02, 0x00, 0x7B]
        = (crc16_spec [0x01, 0x03, 0x02, 0x00, 0x7B] % 256) * 256
          + crc16_spec [0x01, 0x03, 0x02, 0x00, 0x7B] / 256
      ∧ crc16_spec [0x01, 0x03, 0x02, 0x00, 0x7B] < 65536 :=
  crc16_is_byte_swapped_checksum [0x01, 0x03, 0x02, 0x00, 0x7B] (by decide) (by decide)

/-- C4: for every request primitive and every response primitive with at most 125
registers, `prim2rtu` produces a frame whose last two bytes are the CRC-16/Modbus
checksum (computed bit by bit, initial value 0xFFFF, reflected polynomial 0xA001) of
all the bytes before them, the low byte of the checksum first and its high byte
second. -/
theorem prim2rtu_appends_checksum_low_byte_first (e : host_endian) (prim : osmo_modbus_prim)
    (hp : prim.oph.primitive = .OSMO_MODBUS_PRIM_N_MULT_HOLD_REG)
    (ho : prim.oph.operation = .PRIM_OP_REQUEST
      ∨ (prim.oph.operation = .PRIM_OP_RESPONSE ∧ prim.u.resp.num_reg ≤ 125)) :
    ∃ body, prim2rtu e prim = some (body ++ [crc16_spec body % 256, crc16_spec body / 256])
      ∧ crc16_spec body < 65536 := by
  have key : ∀ body : List Nat, (∀ b ∈ body, b < 256) →
      prim2rtu e prim = some (body ++ osmo_store16be (crc16 body)) →
      ∃ body, prim2rtu e prim = some (body ++ [crc16_spec body % 256, crc16_spec body / 256])
        ∧ crc16_spec body < 65536 := by
    intro body hbody h
    exact ⟨body, by rw [h, osmo_store16be_crc16 _ hbody], (crc16_eq_swap_spec _ hbody).2⟩
  rcases ho with ho | ⟨ho, hn⟩
  · refine key _ ?_ (prim2rtu_request e prim hp ho)
    intro b hb
    simp only [List.mem_cons, List.mem_singleton, List.not_mem_nil, or_false] at hb
    omega
  · refine key _ ?_ (prim2rtu_response e prim hp ho hn)
    intro b hb
    rw [List.mem_append] at hb
    rcases hb with hb | hb
    · simp only [List.mem_cons, List.mem_singleton, List.not_mem_nil, or_false] at hb
      omega
    · exact host_store16_array_lt e _ b hb

theorem prim2rtu_appends_checksum_low_byte_first_witness :
    ∃ body, prim2rtu .little (osmo_modbus_makeprim_mult_hold_reg_resp 1 2 (fun i => 0x1234 + i))
        = some (body ++ [crc16_spec body % 256, crc16_spec body / 256])
      ∧ crc16_spec body < 65536 :=
  prim2rtu_appends_checksum_low_byte_first .little
    (osmo_modbus_makeprim_mult_hold_reg_resp 1 2 (fun i => 0x1234 + i)) rfl
    (Or.inr ⟨rfl, by decide⟩)

/-- C5, as stated, fails: `crc16` over 01 03 00 0C 00 01 is not 0x4405, and the frame
of the request {address 1, first_reg 0x000C, num_reg 1} does not end in 05 44. -/
theorem crc_test_vector_mismatch :
    crc16 [0x01, 0x03, 0x00, 0x0C, 0x00, 0x01] ≠ 0x4405
      ∧ prim2rtu .little (osmo_modbus_makeprim_mult_hold_reg_req 1 0x000C 1)
          ≠ some [0x01, 0x03, 0x00, 0x0C, 0x00, 0x01, 0x05, 0x44] := by decide!

/-- C5, amended: `crc16` over the six bytes 01 03 00 0C 00 01 is 0x4409, and the frame
`prim2rtu` emits for the request {address 1, first_reg 0x000C, num_reg 1} is exactly
the eight bytes 01 03 00 0C 00 01 44 09, on a host of either byte order. -/
theorem crc_test_vector :
    crc16 [0x01, 0x03, 0x00, 0x0C, 0x00, 0x01] = 0x4409
      ∧ ∀ e, prim2rtu e (osmo_modbus_makeprim_mult_hold_reg_req 1 0x000C 1)
          = some [0x01, 0x03, 0x00, 0x0C, 0x00, 0x01, 0x44, 0x09] := by
  refine ⟨by decide!, ?_⟩
  intro e
  cases e <;> decide!

/-! ## Properties of the encoder -/

/-- C6: for every read-holding-registers request primitive with address at most 255
(and 16-bit `first_reg`, `num_reg`), `prim2rtu` produces a frame of exactly 8 bytes:
the address, 0x03, the high and low byte of `first_reg`, the high and low byte of
`num_reg`, then the two bytes of the CRC of these six bytes. -/
theorem prim2rtu_request_frame (e : host_endian) (prim : osmo_modbus_prim)
    (hp : prim.oph.primitive = .OSMO_MODBUS_PRIM_N_MULT_HOLD_REG)
    (ho : prim.oph.operation = .PRIM_OP_REQUEST)
    (ha : prim.address ≤ 255)
    (hfirst : prim.u.req.first_reg < 65536) (hnum : prim.u.req.num_reg < 65536) :
    ∃ frame, prim2rtu e prim = some frame ∧ frame.length = 8
      ∧ frame.take 6 = [prim.address, 0x03, prim.u.req.first_reg / 256,
          prim.u.req.first_reg % 256, prim.u.req.num_reg / 256, prim.u.req.num_reg % 256]
      ∧ frame.drop 6 = [crc16 (frame.take 6) / 256, crc16 (frame.take 6) % 256]
      ∧ frame.drop 6 = [crc16_spec (frame.take 6) % 256, crc16_spec (frame.take 6) / 256] := by
  have h1 : prim.address % 256 = prim.address := by omega
  have h2 : prim.u.req.first_reg / 256 % 256 = prim.u.req.first_reg / 256 := by omega
  have h3 : prim.u.req.num_reg / 256 % 256 = prim.u.req.num_reg / 256 := by omega
  have hbytes : ∀ b ∈ [prim.address, 0x03, prim.u.req.first_reg / 256,
      prim.u.req.first_reg % 256, prim.u.req.num_reg / 256, prim.u.req.num_reg % 256],
      b < 256 := by
    intro b hb
    simp only [List.mem_cons, List.mem_singleton, List.not_mem_nil, or_false] at hb
    omega
  have hc := crc16_eq_swap_spec _ hbytes
  refine ⟨_, prim2rtu_request e prim hp ho, ?_, ?_, ?_, ?_⟩
  · simp [osmo_store16be]
  · simp [h1, h2, h3]
  · simp only [h1, h2, h3, osmo_store16be]
    simp only [List.cons_append, List.nil_append, List.drop_succ_cons, List.drop_zero,
      List.take_succ_cons, List.take_zero]
    have hlt : crc16 [prim.address, 0x03, prim.u.req.first_reg / 256,
        prim.u.req.first_reg % 256, prim.u.req.num_reg / 256, prim.u.req.num_reg % 256]
        < 65536 := by
      rw [hc.1]; omega
    have h4 : ∀ c, c < 65536 → c / 256 % 256 = c / 256 := by intro c hc; omega
    rw [h4 _ hlt]
  · simp only [h1, h2, h3]
    simp only [List.cons_append, List.nil_append, List.drop_succ_cons, List.drop_zero,
      List.take_succ_cons, List.take_zero]
    exact osmo_store16be_crc16 _ hbytes

theorem prim2rtu_request_frame_witness :
    ∃ frame, prim2rtu .little (osmo_modbus_makeprim_mult_hold_reg_req 1 0x000C 1) = some frame
      ∧ frame.length = 8
      ∧ frame.take 6 = [1, 0x03, 0x000C / 256, 0x000C % 256, 1 / 256, 1 % 256]
      ∧ frame.drop 6 = [crc16 (frame.take 6) / 256, crc16 (frame.take 6) % 256]
      ∧ frame.drop 6 = [crc16_spec (frame.take 6) % 256, crc16_spec (frame.take 6) / 256] :=
  prim2rtu_request_frame .little (osmo_modbus_makeprim_mult_hold_reg_req 1 0x000C 1) rfl rfl
    (by decide) (by decide) (by decide)

/-- C7, as stated, fails on a little-endian host: the frame of the response
{address 1, one register 0x007B} carries the register as 7B 00, so
256 * frame[3] + frame[4] is 0x7B00 and not the register value. -/
theorem prim2rtu_response_registers_host_order :
    ∃ frame, prim2rtu .little (osmo_modbus_makeprim_mult_hold_reg_resp 1 1 (fun _ => 0x007B))
        = some frame
      ∧ (osmo_modbus_makeprim_mult_hold_reg_resp 1 1 (fun _ => 0x007B)).u.resp.registers
        = [0x007B]
      ∧ frame.take 5 = [0x01, 0x03, 0x02, 0x7B, 0x00]
      ∧ 256 * frame.getD 3 0 + frame.getD 4 0 ≠ 0x007B :=
  ⟨[0x01, 0x03, 0x02, 0x7B, 0x00, 0x9A, 0xB4], by decide!, by decide, by decide, by decide⟩

/-- C7, amended: for every read-holding-registers response primitive with address at
most 255 and `N ≤ 125` registers (16-bit values), `prim2rtu` produces a frame of exactly
`5 + 2N` bytes (hence at most 256): the address, 0x03, the byte count `2N`, then for
each register in order its two bytes as they lie in the memory of the host (`memcpy`):
high byte first on a big-endian host, low byte first on a little-endian host; then the
two CRC bytes. -/
theorem prim2rtu_response_frame (e : host_endian) (prim : osmo_modbus_prim)
    (hp : prim.oph.primitive = .OSMO_MODBUS_PRIM_N_MULT_HOLD_REG)
    (ho : prim.oph.operation = .PRIM_OP_RESPONSE)
    (ha : prim.address ≤ 255) (hn : prim.u.resp.num_reg ≤ 125)
    (hregs : ∀ r ∈ prim.u.resp.registers, r < 65536) :
    ∃ frame, prim2rtu e prim = some frame
      ∧ frame.length = 5 + 2 * prim.u.resp.num_reg ∧ frame.length ≤ 256
      ∧ frame.getD 0 0 = prim.address ∧ frame.getD 1 0 = 0x03
      ∧ frame.getD 2 0 = 2 * prim.u.resp.num_reg
      ∧ (∀ i < prim.u.resp.num_reg, prim.u.resp.registers.getD i 0 =
          match e with
          | .big => 256 * frame.getD (3 + 2 * i) 0 + frame.getD (4 + 2 * i) 0
          | .little => frame.getD (3 + 2 * i) 0 + 256 * frame.getD (4 + 2 * i) 0)
      ∧ frame.drop (3 + 2 * prim.u.resp.num_reg)
        = [crc16_spec (frame.take (3 + 2 * prim.u.resp.num_reg)) % 256,
           crc16_spec (frame.take (3 + 2 * prim.u.resp.num_reg)) / 256] := by
  have hwlen : ((List.range prim.u.resp.num_reg).map
      (fun i => prim.u.resp.registers.getD i 0)).length = prim.u.resp.num_reg := by simp
  have hwlt : ∀ r ∈ (List.range prim.u.resp.num_reg).map
      (fun i => prim.u.resp.registers.getD i 0), r < 65536 := by
    intro r hr
    rw [List.mem_map] at hr
    obtain ⟨i, _, rfl⟩ := hr
    by_cases hi : i < prim.u.resp.registers.length
    · rw [List.getD_eq_getElem _ _ hi]
      exact hregs _ (List.getElem_mem hi)
    · rw [List.getD_eq_default _ _ (by omega)]
      norm_num
  have hwget : ∀ i < prim.u.resp.num_reg, ((List.range prim.u.resp.num_reg).map
      (fun i => prim.u.resp.registers.getD i 0)).getD i 0 = prim.u.resp.registers.getD i 0 := by
    intro i hi
    rw [List.getD_eq_getElem _ _ (by simpa using hi)]
    simp
  have hget := host_store16_array_getD e _ hwlt
  have halen := host_store16_array_length e
    ((List.range prim.u.resp.num_reg).map (fun i => prim.u.resp.registers.getD i 0))
  have hblt := host_store16_array_lt e
    ((List.range prim.u.resp.num_reg).map (fun i => prim.u.resp.registers.getD i 0))
  rw [hwlen] at halen hget
  refine ⟨_, prim2rtu_response e prim hp ho hn, ?_⟩
  generalize host_store16_array e
    ((List.range prim.u.resp.num_reg).map (fun i => prim.u.resp.registers.getD i 0)) = arr
    at halen hget hblt
  generalize hws : (List.range prim.u.resp.num_reg).map
    (fun i => prim.u.resp.registers.getD i 0) = ws at hget hwget
  have h1 : prim.address % 256 = prim.address := by omega
  have h2 : prim.u.resp.num_reg * 2 % 256 = 2 * prim.u.resp.num_reg := by omega
  rw [h1, h2]
  have hbody : ([prim.address, 3, 2 * prim.u.resp.num_reg] ++ arr).length
      = 3 + 2 * prim.u.resp.num_reg := by simp [halen]; omega
  have hbytes : ∀ b ∈ [prim.address, 3, 2 * prim.u.resp.num_reg] ++ arr, b < 256 := by
    intro b hb
    rw [List.mem_append] at hb
    rcases hb with hb | hb
    · simp only [List.mem_cons, List.mem_singleton, List.not_mem_nil, or_false] at hb
      omega
    · exact hblt b hb
  refine ⟨?_, ?_, ?_, ?_, ?_, ?_, ?_⟩
  · simp [osmo_store16be, halen]; omega
  · simp [osmo_store16be, halen]; omega
  · simp
  · simp
  · simp
  · intro i hi
    have e4 : 4 + 2 * i = 3 + (2 * i + 1) := by omega
    rw [e4, frame_getD_payload [prim.address, 3, 2 * prim.u.resp.num_reg] arr _ rfl (2 * i)
        (by omega),
      frame_getD_payload [prim.address, 3, 2 * prim.u.resp.num_reg] arr _ rfl (2 * i + 1)
        (by omega)]
    have hg := hget i hi
    rw [hwget i hi] at hg
    rw [← hg]
    cases e <;> rfl
  · rw [List.drop_left' hbody, List.take_left' hbody]
    exact osmo_store16be_crc16 _ hbytes

theorem prim2rtu_response_frame_witness :
    ∃ frame, prim2rtu .big (osmo_modbus_makeprim_mult_hold_reg_resp 1 2 (fun i => 0x2B00 + i))
        = some frame
      ∧ frame.length = 5 + 2 * 2 ∧ frame.length ≤ 256
      ∧ frame.getD 0 0 = 1 ∧ frame.getD 1 0 = 0x03
      ∧ frame.getD 2 0 = 2 * 2
      ∧ (∀ i < 2, [0x2B00, 0x2B01].getD i 0 =
          256 * frame.getD (3 + 2 * i) 0 + frame.getD (4 + 2 * i) 0)
      ∧ frame.drop (3 + 2 * 2)
        = [crc16_spec (frame.take (3 + 2 * 2)) % 256,
           crc16_spec (frame.take (3 + 2 * 2)) / 256] :=
  prim2rtu_response_frame .big (osmo_modbus_makeprim_mult_hold_reg_resp 1 2 (fun i => 0x2B00 + i))
    rfl rfl (by decide) (by decide) (by decide)

/-! ## Properties of the decoder -/

/-- C9: for every buffer of at most 256 bytes, whenever `rtu2prim` returns a response
primitive its `num_reg` is at most 125 and it holds exactly `num_reg` registers, so the
decoded registers fit the 125-entry array; this covers the byte counts 252..255, for
which the response attempt never succeeds. -/
theorem rtu2prim_response_fits_register_array (e : host_endian) (data : List Nat)
    (hlen : data.length ≤ 256) (hbytes : ∀ x ∈ data, x < 256)
    (rc : Int) (p : osmo_modbus_prim) (h : rtu2prim e data = (rc, some p))
    (hop : p.oph.operation = .PRIM_OP_RESPONSE) :
    p.u.resp.num_reg ≤ 125 ∧ p.u.resp.registers.length = p.u.resp.num_reg
      ∧ data.getD 2 0 ≤ 251 := by
  obtain ⟨h6, hcode, hcase⟩ := rtu2prim_some e data rc p h
  rcases hcase with ⟨hcheck, rfl⟩ | ⟨_, _, rfl⟩
  · obtain ⟨hbc, _, _⟩ := rtu_resp_check_byte_count data hlen hbytes (by omega) hcode hcheck
    have hn : data.getD 2 0 / 2 % 256 = data.getD 2 0 / 2 := by omega
    simp only [osmo_modbus_makeprim_mult_hold_reg_resp, osmo_modbus_prim_u.resp, hn,
      List.length_map, List.length_range]
    exact ⟨by omega, trivial, hbc⟩
  · simp [osmo_modbus_makeprim_mult_hold_reg_req] at hop

theorem rtu2prim_response_fits_register_array_witness :
    (osmo_modbus_makeprim_mult_hold_reg_resp 1 1 (fun _ => 0x7B00)).u.resp.num_reg ≤ 125
      ∧ (osmo_modbus_makeprim_mult_hold_reg_resp 1 1 (fun _ => 0x7B00)).u.resp.registers.length
          = (osmo_modbus_makeprim_mult_hold_reg_resp 1 1 (fun _ => 0x7B00)).u.resp.num_reg
      ∧ [0x01, 0x03, 0x02, 0x00, 0x7B, 0xF8, 0x67].getD 2 0 ≤ 251 :=
  rtu2prim_response_fits_register_array .little [0x01, 0x03, 0x02, 0x00, 0x7B, 0xF8, 0x67]
    (by decide) (by decide) 7 (osmo_modbus_makeprim_mult_hold_reg_resp 1 1 (fun _ => 0x7B00))
    (by decide!) rfl

/-- C10: for every buffer too short for either frame shape (fewer than 2 bytes, or
function code 0x03 with fewer than 6 bytes), `rtu2prim` returns `-ENODATA` and produces
no primitive. -/
theorem rtu2prim_too_short_needs_more_data (e : host_endian) (data : List Nat)
    (h : data.length < 2 ∨ (data.getD 1 0 = 0x03 ∧ data.length < 6)) :
    rtu2prim e data = (-ENODATA, none) := by
  rcases h with h | ⟨hcode, h⟩
  · exact rtu2prim_short e data h
  · exact rtu2prim_short_read e data hcode h

theorem rtu2prim_too_short_needs_more_data_witness :
    rtu2prim .little [0x01, 0x03, 0x02, 0x00, 0x7B] = (-ENODATA, none) :=
  rtu2prim_too_short_needs_more_data .little [0x01, 0x03, 0x02, 0x00, 0x7B]
    (Or.inr ⟨by decide, by decide⟩)

/-- C8, as stated, fails on a little-endian host: the buffer 01 03 02 00 7B F8 67
meets every hypothesis of the claim, and the register `rtu2prim` decodes from it is
0x7B00, not the big-endian value 256 * b[3] + b[4] = 0x007B. -/
theorem rtu2prim_response_registers_host_order :
    [0x01, 0x03, 0x02, 0x00, 0x7B, 0xF8, 0x67].getD 1 0 = 0x03
      ∧ [0x01, 0x03, 0x02, 0x00, 0x7B, 0xF8, 0x67].getD 5 0
          = crc16_spec [0x01, 0x03, 0x02, 0x00, 0x7B] % 256
      ∧ [0x01, 0x03, 0x02, 0x00, 0x7B, 0xF8, 0x67].getD 6 0
          = crc16_spec [0x01, 0x03, 0x02, 0x00, 0x7B] / 256
      ∧ ∃ p, rtu2prim .little [0x01, 0x03, 0x02, 0x00, 0x7B, 0xF8, 0x67] = (7, some p)
        ∧ p.u.resp.registers = [0x7B00]
        ∧ p.u.resp.registers.getD 0 0
          ≠ 256 * [0x01, 0x03, 0x02, 0x00, 0x7B, 0xF8, 0x67].getD 3 0
            + [0x01, 0x03, 0x02, 0x00, 0x7B, 0xF8, 0x67].getD 4 0 :=
  ⟨by decide, by decide!, by decide!,
    osmo_modbus_makeprim_mult_hold_reg_resp 1 1 (fun _ => 0x7B00), by decide!, by decide,
    by decide⟩

/-- C8, amended: for every buffer `b` of at most 256 bytes with `b[1] = 0x03`, length at
least 6 and at least `5 + b[2]`, whose two bytes at offset `3 + b[2]` are the CRC-16/Modbus
checksum of the first `3 + b[2]` bytes (low byte first), `rtu2prim` returns `5 + b[2]` and
a RESPONSE primitive with address `b[0]`, `num_reg = b[2] / 2` and, for every
`i < num_reg`, register `i` equal to the 16-bit value the host reads from the two bytes
`b[3+2i]`, `b[4+2i]` (`memcpy`): `256 * b[3+2i] + b[4+2i]` on a big-endian host,
`b[3+2i] + 256 * b[4+2i]` on a little-endian host. -/
theorem rtu2prim_decodes_response (e : host_endian) (b : List Nat)
    (hlen : b.length ≤ 256) (hbytes : ∀ x ∈ b, x < 256)
    (hcode : b.getD 1 0 = 0x03) (h6 : 6 ≤ b.length) (h5 : 5 + b.getD 2 0 ≤ b.length)
    (hcrc_lo : b.getD (3 + b.getD 2 0) 0 = crc16_spec (b.take (3 + b.getD 2 0)) % 256)
    (hcrc_hi : b.getD (4 + b.getD 2 0) 0 = crc16_spec (b.take (3 + b.getD 2 0)) / 256) :
    rtu2prim e b =
      (((5 + b.getD 2 0 : Nat) : Int),
        some { oph := ⟨MODBUS_SAP, .OSMO_MODBUS_PRIM_N_MULT_HOLD_REG, .PRIM_OP_RESPONSE⟩
               address := b.getD 0 0
               u := .read_mult_hold_reg_resp ⟨b.getD 2 0 / 2,
                 (List.range (b.getD 2 0 / 2)).map (fun i =>
                   match e with
                   | .big => 256 * b.getD (3 + 2 * i) 0 + b.getD (4 + 2 * i) 0
                   | .little => b.getD (3 + 2 * i) 0 + 256 * b.getD (4 + 2 * i) 0)⟩ }) := by
  have htake : ∀ x ∈ b.take (3 + b.getD 2 0), x < 256 :=
    fun x hx => hbytes x (List.mem_of_mem_take hx)
  have hcrc : (b.drop (3 + b.getD 2 0)).take 2
      = osmo_store16be (crc16 (b.take (3 + b.getD 2 0))) := by
    rw [drop_take_two b _ (by omega), osmo_store16be_crc16 _ htake]
    have e4 : 3 + b.getD 2 0 + 1 = 4 + b.getD 2 0 := by omega
    rw [e4, hcrc_lo, hcrc_hi]
  rw [rtu2prim_response e b hlen hbytes hcode h6 h5 hcrc]
  cases e <;> rfl

theorem rtu2prim_decodes_response_witness :
    rtu2prim .big [0x01, 0x03, 0x02, 0x00, 0x7B, 0xF8, 0x67] =
      (((5 + 2 : Nat) : Int),
        some { oph := ⟨MODBUS_SAP, .OSMO_MODBUS_PRIM_N_MULT_HOLD_REG, .PRIM_OP_RESPONSE⟩
               address := 1
               u := .read_mult_hold_reg_resp ⟨2 / 2,
                 (List.range (2 / 2)).map (fun i =>
                   256 * [0x01, 0x03, 0x02, 0x00, 0x7B, 0xF8, 0x67].getD (3 + 2 * i) 0
                     + [0x01, 0x03, 0x02, 0x00, 0x7B, 0xF8, 0x67].getD (4 + 2 * i) 0)⟩ }) :=
  rtu2prim_decodes_response .big [0x01, 0x03, 0x02, 0x00, 0x7B, 0xF8, 0x67]
    (by decide) (by decide) (by decide) (by decide) (by decide) (by decide!) (by decide!)

/-! ## Round trips -/

/-- C1: for every address `a` in 0..255, every `N` with `1 ≤ N ≤ 125` and every list of
`N` 16-bit register values, `rtu2prim` applied to the frame `prim2rtu` builds from the
response primitive {address `a`, `num_reg` `N`, registers} succeeds, reports `5 + 2N`
bytes consumed and returns a RESPONSE primitive with the same address, the same
`num_reg` and the same `N` register values (encoder and decoder running on hosts of the
same byte order). -/
theorem response_round_trip (e : host_endian) (a N : Nat) (regs : List Nat)
    (ha : a ≤ 255) (hN1 : 1 ≤ N) (hN : N ≤ 125) (hlen : regs.length = N)
    (hregs : ∀ r ∈ regs, r < 65536) :
    ∃ frame,
      prim2rtu e { oph := ⟨MODBUS_SAP, .OSMO_MODBUS_PRIM_N_MULT_HOLD_REG, .PRIM_OP_RESPONSE⟩
                   address := a
                   u := .read_mult_hold_reg_resp ⟨N, regs⟩ } = some frame
      ∧ rtu2prim e frame =
        (((5 + 2 * N : Nat) : Int),
          some { oph := ⟨MODBUS_SAP, .OSMO_MODBUS_PRIM_N_MULT_HOLD_REG, .PRIM_OP_RESPONSE⟩
                 address := a
                 u := .read_mult_hold_reg_resp ⟨N, regs⟩ }) := by
  subst hlen
  have hshape := prim2rtu_response e
    { oph := ⟨MODBUS_SAP, .OSMO_MODBUS_PRIM_N_MULT_HOLD_REG, .PRIM_OP_RESPONSE⟩
      address := a
      u := .read_mult_hold_reg_resp ⟨regs.length, regs⟩ } rfl rfl hN
  simp only [osmo_modbus_prim_u.resp, range_map_getD] at hshape
  refine ⟨_, hshape, ?_⟩
  have halen := host_store16_array_length e regs
  have hblt := host_store16_array_lt e regs
  have hget := host_store16_array_getD e regs hregs
  generalize host_store16_array e regs = arr at halen hblt hget
  have h1 : a % 256 = a := by omega
  have h2 : regs.length * 2 % 256 = 2 * regs.length := by omega
  rw [h1, h2]
  have hbody : ([a, 3, 2 * regs.length] ++ arr).length = 3 + 2 * regs.length := by
    simp [halen]; omega
  have hbytes : ∀ b ∈ [a, 3, 2 * regs.length] ++ arr, b < 256 := by
    intro b hb
    rw [List.mem_append] at hb
    rcases hb with hb | hb
    · simp only [List.mem_cons, List.mem_singleton, List.not_mem_nil, or_false] at hb
      omega
    · exact hblt b hb
  have hcrclt : ∀ b ∈ osmo_store16be (crc16 ([a, 3, 2 * regs.length] ++ arr)), b < 256 := by
    intro b hb
    simp only [osmo_store16be, List.mem_cons, List.mem_singleton, List.not_mem_nil,
      or_false] at hb
    omega
  generalize hcb : osmo_store16be (crc16 ([a, 3, 2 * regs.length] ++ arr)) = crcb at hcrclt
  have hcblen : crcb.length = 2 := by rw [← hcb]; rfl
  have hb2 : (([a, 3, 2 * regs.length] ++ arr) ++ crcb).getD 2 0 = 2 * regs.length := by simp
  have hres := rtu2prim_response e (([a, 3, 2 * regs.length] ++ arr) ++ crcb)
    (by simp [halen, hcblen]; omega)
    (by
      intro x hx
      rw [List.mem_append] at hx
      rcases hx with hx | hx
      · exact hbytes x hx
      · exact hcrclt x hx)
    (by simp) (by simp [halen, hcblen]; omega)
    (by rw [hb2]; simp [halen, hcblen]; omega)
    (by
      rw [hb2, List.drop_left' hbody, List.take_left' hbody, hcb]
      exact List.take_of_length_le (by omega))
  rw [hres, hb2]
  have hdiv : 2 * regs.length / 2 = regs.length := by omega
  have ha0 : (([a, 3, 2 * regs.length] ++ arr) ++ crcb).getD 0 0 = a := by simp
  rw [hdiv, ha0]
  have hmap : (List.range regs.length).map (fun i =>
      host_load16 e ((([a, 3, 2 * regs.length] ++ arr) ++ crcb).getD (3 + 2 * i) 0)
        ((([a, 3, 2 * regs.length] ++ arr) ++ crcb).getD (4 + 2 * i) 0)) = regs := by
    apply List.ext_getElem
    · simp
    · intro i hi1 hi2
      have e4 : 4 + 2 * i = 3 + (2 * i + 1) := by omega
      rw [List.getElem_map, List.getElem_range, e4,
        frame_getD_payload [a, 3, 2 * regs.length] arr crcb rfl (2 * i) (by omega),
        frame_getD_payload [a, 3, 2 * regs.length] arr crcb rfl (2 * i + 1) (by omega),
        hget i hi2, List.getD_eq_getElem _ _ hi2]
  rw [hmap]

theorem response_round_trip_witness :
    ∃ frame,
      prim2rtu .little
          { oph := ⟨MODBUS_SAP, .OSMO_MODBUS_PRIM_N_MULT_HOLD_REG, .PRIM_OP_RESPONSE⟩
            address := 1
            u := .read_mult_hold_reg_resp ⟨2, [0x007B, 0xFFFF]⟩ } = some frame
      ∧ rtu2prim .little frame =
        (((5 + 2 * 2 : Nat) : Int),
          some { oph := ⟨MODBUS_SAP, .OSMO_MODBUS_PRIM_N_MULT_HOLD_REG, .PRIM_OP_RESPONSE⟩
                 address := 1
                 u := .read_mult_hold_reg_resp ⟨2, [0x007B, 0xFFFF]⟩ }) :=
  response_round_trip .little 1 2 [0x007B, 0xFFFF] (by decide) (by decide) (by decide) rfl
    (by decide)

/-- C2, as stated, fails: the frame 01 03 03 00 00 01 84 4E that `prim2rtu` builds from
the request {address 1, first_reg 0x0300, num_reg 1} passes the response attempt that
`rtu2prim` makes first (byte count 3, CRC over six bytes), so it is returned as a
RESPONSE primitive with one register, not as the request. -/
theorem request_decoded_as_response :
    prim2rtu .little
        { oph := ⟨MODBUS_SAP, .OSMO_MODBUS_PRIM_N_MULT_HOLD_REG, .PRIM_OP_REQUEST⟩
          address := 1
          u := .read_mult_hold_reg_req ⟨0x0300, 1⟩ }
      = some [0x01, 0x03, 0x03, 0x00, 0x00, 0x01, 0x84, 0x4E]
    ∧ rtu2prim .little [0x01, 0x03, 0x03, 0x00, 0x00, 0x01, 0x84, 0x4E]
      = (8, some { oph := ⟨MODBUS_SAP, .OSMO_MODBUS_PRIM_N_MULT_HOLD_REG, .PRIM_OP_RESPONSE⟩
                   address := 1
                   u := .read_mult_hold_reg_resp ⟨1, [0]⟩ })
    ∧ rtu2prim .little [0x01, 0x03, 0x03, 0x00, 0x00, 0x01, 0x84, 0x4E]
      ≠ (8, some { oph := ⟨MODBUS_SAP, .OSMO_MODBUS_PRIM_N_MULT_HOLD_REG, .PRIM_OP_REQUEST⟩
                   address := 1
                   u := .read_mult_hold_reg_req ⟨0x0300, 1⟩ }) := by
  refine ⟨by decide!, by decide!, by decide!⟩

/-- C2, amended: for every address `a` in 0..255 and every 16-bit `first_reg` and
`num_reg`, `prim2rtu` builds an 8-byte frame from the request primitive, and `rtu2prim`
applied to it reports 8 bytes consumed and returns a REQUEST primitive with the same
address, `first_reg` and `num_reg` exactly when the frame does not also pass the
response attempt that `rtu2prim` makes first (byte count = high byte of `first_reg`);
that is the case whenever `first_reg ≥ 0x0400`. -/
theorem request_round_trip (e : host_endian) (a first_reg num_reg : Nat)
    (ha : a ≤ 255) (hfirst : first_reg < 65536) (hnum : num_reg < 65536) :
    ∃ frame,
      prim2rtu e { oph := ⟨MODBUS_SAP, .OSMO_MODBUS_PRIM_N_MULT_HOLD_REG, .PRIM_OP_REQUEST⟩
                   address := a
                   u := .read_mult_hold_reg_req ⟨first_reg, num_reg⟩ } = some frame
      ∧ frame.length = 8
      ∧ (rtu2prim e frame =
          (8, some { oph := ⟨MODBUS_SAP, .OSMO_MODBUS_PRIM_N_MULT_HOLD_REG, .PRIM_OP_REQUEST⟩
                     address := a
                     u := .read_mult_hold_reg_req ⟨first_reg, num_reg⟩ })
          ↔ rtu_resp_check frame = false)
      ∧ (0x0400 ≤ first_reg → rtu_resp_check frame = false) := by
  have hshape := prim2rtu_request e
    { oph := ⟨MODBUS_SAP, .OSMO_MODBUS_PRIM_N_MULT_HOLD_REG, .PRIM_OP_REQUEST⟩
      address := a
      u := .read_mult_hold_reg_req ⟨first_reg, num_reg⟩ } rfl rfl
  simp only [osmo_modbus_prim_u.req] at hshape
  have h1 : a % 256 = a := by omega
  have h2 : first_reg / 256 % 256 = first_reg / 256 := by omega
  have h3 : num_reg / 256 % 256 = num_reg / 256 := by omega
  rw [h1, h2, h3] at hshape
  refine ⟨_, hshape, by simp [osmo_store16be], ?_, ?_⟩
  all_goals
    generalize hc : crc16 [a, 3, first_reg / 256, first_reg % 256, num_reg / 256,
      num_reg % 256] = c
  · have hreq : rtu_req_check ([a, 3, first_reg / 256, first_reg % 256, num_reg / 256,
        num_reg % 256] ++ osmo_store16be c) = true := by
      simp [rtu_req_check, rtu_crc_matches, RTU_HDR_LEN, RTU_CRC_LEN, osmo_store16be, hc]
    constructor
    · intro h
      by_contra hne
      have hresp : rtu_resp_check ([a, 3, first_reg / 256, first_reg % 256, num_reg / 256,
          num_reg % 256] ++ osmo_store16be c) = true := by simpa using hne
      rw [rtu2prim_of_resp_check e _ (by simp [osmo_store16be]) (by simp) hresp] at h
      simp [osmo_modbus_makeprim_mult_hold_reg_resp] at h
    · intro hresp
      rw [rtu2prim_of_req_check e _ (by simp [osmo_store16be]) (by simp) hresp hreq]
      have e1 : a % 65536 = a := by omega
      have e2 : (256 * (first_reg / 256) + first_reg % 256) % 65536 = first_reg := by omega
      have e3 : (256 * (num_reg / 256) + num_reg % 256) % 65536 = num_reg := by omega
      simp [osmo_modbus_makeprim_mult_hold_reg_req, osmo_load16be, e1, e2, e3]
  · intro h400
    by_cases hw : 253 ≤ first_reg / 256
    · apply rtu_resp_check_wrap
      · intro x hx
        simp only [osmo_store16be, List.cons_append, List.nil_append, List.mem_cons,
          List.mem_singleton, List.not_mem_nil, or_false] at hx
        omega
      · simp [osmo_store16be]
      · simp
      · simpa using hw
    · have hexp : (3 + first_reg / 256) % 256 = 3 + first_reg / 256 := by omega
      simp [rtu_resp_check, rtu_resp_exp_len, RTU_HDR_LEN, RTU_CRC_LEN, osmo_store16be, hexp]
      intro hle
      omega

theorem request_round_trip_witness :
    ∃ frame,
      prim2rtu .little
          { oph := ⟨MODBUS_SAP, .OSMO_MODBUS_PRIM_N_MULT_HOLD_REG, .PRIM_OP_REQUEST⟩
            address := 1
            u := .read_mult_hold_reg_req ⟨0x000C, 1⟩ } = some frame
      ∧ frame = [0x01, 0x03, 0x00, 0x0C, 0x00, 0x01, 0x44, 0x09]
      ∧ rtu2prim .little frame =
          (8, some { oph := ⟨MODBUS_SAP, .OSMO_MODBUS_PRIM_N_MULT_HOLD_REG, .PRIM_OP_REQUEST⟩
                     address := 1
                     u := .read_mult_hold_reg_req ⟨0x000C, 1⟩ }) := by
  obtain ⟨frame, h1, _, h3, _⟩ :=
    request_round_trip .little 1 0x000C 1 (by decide) (by decide) (by decide)
  have h : prim2rtu .little
      { oph := ⟨MODBUS_SAP, .OSMO_MODBUS_PRIM_N_MULT_HOLD_REG, .PRIM_OP_REQUEST⟩
        address := 1
        u := .read_mult_hold_reg_req ⟨0x000C, 1⟩ }
      = some [0x01, 0x03, 0x00, 0x0C, 0x00, 0x01, 0x44, 0x09] := by decide!
  have hf : frame = [0x01, 0x03, 0x00, 0x0C, 0x00, 0x01, 0x44, 0x09] := by
    rw [h] at h1
    exact (Option.some.inj h1).symm
  subst hf
  exact ⟨_, h, rfl, h3.mpr (by decide!)⟩

/-! ## Errors of the decoder -/

theorem rtu_crc_matches_iff (data : List Nat) (hbytes : ∀ x ∈ data, x < 256) (n : Nat)
    (hn : n + 2 ≤ data.length) :
    rtu_crc_matches data n = true ↔
      (data.getD n 0 = crc16_spec (data.take n) % 256
        ∧ data.getD (n + 1) 0 = crc16_spec (data.take n) / 256) := by
  have htake : ∀ x ∈ data.take n, x < 256 := fun x hx => hbytes x (List.mem_of_mem_take hx)
  simp only [rtu_crc_matches, RTU_CRC_LEN, decide_eq_true_eq, drop_take_two data n hn,
    osmo_store16be_crc16 _ htake]
  constructor
  · intro h
    simp only [List.cons.injEq, and_true] at h
    exact h
  · rintro ⟨h1, h2⟩
    rw [h1, h2]

/-- C11, as stated, fails: the eight bytes 01 03 02 00 7B 00 00 00 have function code
0x03 and a length sufficient for both shapes, neither CRC matches, and `rtu2prim`
returns `-ENODATA`, not `-EINVAL`. -/
theorem rtu2prim_crc_mismatch_is_not_invalid :
    [0x01, 0x03, 0x02, 0x00, 0x7B, 0x00, 0x00, 0x00].getD 1 0 = 0x03
      ∧ rtu_crc_matches [0x01, 0x03, 0x02, 0x00, 0x7B, 0x00, 0x00, 0x00] (3 + 2) = false
      ∧ rtu_crc_matches [0x01, 0x03, 0x02, 0x00, 0x7B, 0x00, 0x00, 0x00] 6 = false
      ∧ rtu2prim .little [0x01, 0x03, 0x02, 0x00, 0x7B, 0x00, 0x00, 0x00] = (-ENODATA, none)
      ∧ (rtu2prim .little [0x01, 0x03, 0x02, 0x00, 0x7B, 0x00, 0x00, 0x00]).1 ≠ -EINVAL := by
  refine ⟨by decide, by decide!, by decide!, by decide!, by decide!⟩

/-- C11, amended: for every buffer with function code 0x03 whose length suffices for
both candidate shapes (length at least 8 and at least `5 + byte_count`) but in which
neither the response CRC nor the request CRC matches, `rtu2prim` returns the "need more
data" error `-ENODATA` and produces no primitive. -/
theorem rtu2prim_crc_mismatch_needs_more_data (e : host_endian) (b : List Nat)
    (hbytes : ∀ x ∈ b, x < 256) (hcode : b.getD 1 0 = 0x03)
    (h8 : 8 ≤ b.length) (h5 : 5 + b.getD 2 0 ≤ b.length)
    (hresp : ¬ (b.getD (3 + b.getD 2 0) 0 = crc16_spec (b.take (3 + b.getD 2 0)) % 256
      ∧ b.getD (4 + b.getD 2 0) 0 = crc16_spec (b.take (3 + b.getD 2 0)) / 256))
    (hreq : ¬ (b.getD 6 0 = crc16_spec (b.take 6) % 256
      ∧ b.getD 7 0 = crc16_spec (b.take 6) / 256)) :
    rtu2prim e b = (-ENODATA, none) := by
  have hr : rtu_resp_check b = false := by
    by_cases hw : 253 ≤ b.getD 2 0
    · exact rtu_resp_check_wrap b hbytes (by omega) hcode hw
    · have hexp : rtu_resp_exp_len b = 3 + b.getD 2 0 := by
        unfold rtu_resp_exp_len
        simp only [RTU_HDR_LEN]
        omega
      have hm : rtu_crc_matches b (3 + b.getD 2 0) = false := by
        rw [Bool.eq_false_iff]
        intro h
        rw [rtu_crc_matches_iff b hbytes _ (by omega)] at h
        have e4 : 3 + b.getD 2 0 + 1 = 4 + b.getD 2 0 := by omega
        rw [e4] at h
        exact hresp h
      simp only [rtu_resp_check, hexp, hm, Bool.and_false]
  have hq : rtu_req_check b = false := by
    have hm : rtu_crc_matches b 6 = false := by
      rw [Bool.eq_false_iff]
      intro h
      rw [rtu_crc_matches_iff b hbytes 6 (by omega)] at h
      exact hreq h
    simp [rtu_req_check, RTU_HDR_LEN, hm]
  exact rtu2prim_of_no_check e b (by omega) hcode hr hq

theorem rtu2prim_crc_mismatch_needs_more_data_witness :
    rtu2prim .big [0x01, 0x03, 0x02, 0x00, 0x7B, 0x00, 0x00, 0x00] = (-ENODATA, none) :=
  rtu2prim_crc_mismatch_needs_more_data .big [0x01, 0x03, 0x02, 0x00, 0x7B, 0x00, 0x00, 0x00]
    (by decide) (by decide) (by decide) (by decide) (by decide!) (by decide!)

/-- C12: for every buffer of at least two bytes whose second byte, the function code,
is not 0x03, `rtu2prim` returns `-EINVAL` and produces no primitive, whatever the
remaining bytes are. -/
theorem rtu2prim_unknown_function_code_is_invalid (e : host_endian) (b : List Nat)
    (h2 : 2 ≤ b.length) (hcode : b.getD 1 0 ≠ 0x03) :
    rtu2prim e b = (-EINVAL, none) :=
  rtu2prim_of_other_code e b h2 hcode

theorem rtu2prim_unknown_function_code_is_invalid_witness :
    rtu2prim .little [0x01, 0x10, 0x00, 0x0C, 0x00, 0x01, 0x44, 0x09] = (-EINVAL, none) :=
  rtu2prim_unknown_function_code_is_invalid .little
    [0x01, 0x10, 0x00, 0x0C, 0x00, 0x01, 0x44, 0x09] (by decide) (by decide)

/-! ## Timers of the endpoint -/

theorem recalc_baudrate_timers_values (rtu : osmo_modbus_conn_rtu) :
    (recalc_baudrate_timers rtu).baudrate = rtu.baudrate
      ∧ (rtu.baudrate ≤ 19200 → (recalc_baudrate_timers rtu).T15 = 16500000 / rtu.baudrate
          ∧ (recalc_baudrate_timers rtu).T35 = 38500000 / rtu.baudrate)
      ∧ (19200 < rtu.baudrate → (recalc_baudrate_timers rtu).T15 = 750
          ∧ (recalc_baudrate_timers rtu).T35 = 1750) := by
  unfold recalc_baudrate_timers
  by_cases h : rtu.baudrate ≤ 19200
  · simp [h, rtu_chars2bits]
  · simp [h]

theorem recalc_baudrate_timers_lt (rtu : osmo_modbus_conn_rtu) (hb : 1 ≤ rtu.baudrate) :
    (recalc_baudrate_timers rtu).T15 < (recalc_baudrate_timers rtu).T35 := by
  obtain ⟨_, hlow, hhigh⟩ := recalc_baudrate_timers_values rtu
  by_cases h : rtu.baudrate ≤ 19200
  · obtain ⟨h1, h2⟩ := hlow h
    rw [h1, h2]
    have hpos : 0 < rtu.baudrate := hb
    have hd : 16500000 / rtu.baudrate * rtu.baudrate ≤ 16500000 := Nat.div_mul_le_self _ _
    have hle : (16500000 / rtu.baudrate + 1) * rtu.baudrate ≤ 38500000 := by
      rw [Nat.add_mul, Nat.one_mul]
      omega
    exact (Nat.le_div_iff_mul_le hpos).2 hle
  · obtain ⟨h1, h2⟩ := hhigh (by omega)
    rw [h1, h2]
    norm_num

theorem set_baudrate_not_connected (speed_ok : Nat → Bool) (serial_rc : Int)
    (rtu : osmo_modbus_conn_rtu) (b : Nat)
    (hconn : osmo_modbus_conn_rtu_is_connected rtu = false) :
    osmo_modbus_conn_rtu_set_baudrate speed_ok serial_rc rtu b =
      if speed_ok b = false then (-EINVAL, rtu)
      else (0, recalc_baudrate_timers { rtu with baudrate := b }) := by
  unfold osmo_modbus_conn_rtu_set_baudrate
  have h : osmo_modbus_conn_rtu_is_connected { rtu with baudrate := b } = false := hconn
  simp only [h, Bool.false_eq_true, if_false]

theorem set_baudrate_connected (speed_ok : Nat → Bool) (serial_rc : Int)
    (rtu : osmo_modbus_conn_rtu) (b : Nat)
    (hconn : osmo_modbus_conn_rtu_is_connected rtu = true) :
    osmo_modbus_conn_rtu_set_baudrate speed_ok serial_rc rtu b =
      if speed_ok b = false then (-EINVAL, rtu)
      else (serial_rc, { rtu with baudrate := b }) := by
  unfold osmo_modbus_conn_rtu_set_baudrate
  have h : osmo_modbus_conn_rtu_is_connected { rtu with baudrate := b } = true := hconn
  simp only [h, if_true]

/-- C14: right after `osmo_modbus_conn_rtu_alloc` (baud 9600) the timers are
T1.5 = floor(16500000 / 9600) = 1718 and T3.5 = floor(38500000 / 9600) = 4010
microseconds, and after every successful `osmo_modbus_conn_rtu_set_baudrate(b)` with
`b ≥ 1` on an endpoint that is not connected the stored baud rate is `b`, with
T1.5 = floor(16500000 / b) and T3.5 = floor(38500000 / b) when `b ≤ 19200`, and
T1.5 = 750, T3.5 = 1750 when `b > 19200`. -/
theorem timers_derived_from_baudrate :
    (osmo_modbus_conn_rtu_alloc.baudrate = 9600
      ∧ osmo_modbus_conn_rtu_alloc.T15 = 16500000 / 9600
      ∧ osmo_modbus_conn_rtu_alloc.T35 = 38500000 / 9600
      ∧ osmo_modbus_conn_rtu_alloc.T15 = 1718 ∧ osmo_modbus_conn_rtu_alloc.T35 = 4010)
    ∧ ∀ (speed_ok : Nat → Bool) (serial_rc : Int) (rtu : osmo_modbus_conn_rtu) (b : Nat),
        1 ≤ b → osmo_modbus_conn_rtu_is_connected rtu = false →
        (osmo_modbus_conn_rtu_set_baudrate speed_ok serial_rc rtu b).1 = 0 →
        (osmo_modbus_conn_rtu_set_baudrate speed_ok serial_rc rtu b).2.baudrate = b
          ∧ (b ≤ 19200 →
              (osmo_modbus_conn_rtu_set_baudrate speed_ok serial_rc rtu b).2.T15 = 16500000 / b
              ∧ (osmo_modbus_conn_rtu_set_baudrate speed_ok serial_rc rtu b).2.T35
                  = 38500000 / b)
          ∧ (19200 < b →
              (osmo_modbus_conn_rtu_set_baudrate speed_ok serial_rc rtu b).2.T15 = 750
              ∧ (osmo_modbus_conn_rtu_set_baudrate speed_ok serial_rc rtu b).2.T35 = 1750) := by
  refine ⟨by decide, ?_⟩
  intro speed_ok serial_rc rtu b _ hconn hrc
  rw [set_baudrate_not_connected speed_ok serial_rc rtu b hconn] at hrc ⊢
  by_cases hs : speed_ok b = false
  · simp [hs, EINVAL] at hrc
  · simp only [hs, if_false]
    exact recalc_baudrate_timers_values { rtu with baudrate := b }

theorem timers_derived_from_baudrate_witness :
    (osmo_modbus_conn_rtu_set_baudrate (fun _ => true) 0
        { osmo_modbus_conn_rtu_alloc with baudrate := 115200, T15 := 750, T35 := 1750 }
        9600).2.T15 = 1718
      ∧ (osmo_modbus_conn_rtu_set_baudrate (fun _ => true) 0
        { osmo_modbus_conn_rtu_alloc with baudrate := 115200, T15 := 750, T35 := 1750 }
        9600).2.T35 = 4010 := by
  have h := (timers_derived_from_baudrate.2 (fun _ => true) 0
    { osmo_modbus_conn_rtu_alloc with baudrate := 115200, T15 := 750, T35 := 1750 } 9600
    (by decide) (by decide) (by decide)).2.1 (by decide)
  exact ⟨h.1, h.2⟩

/-- C15, the code at the failing input: on a connected endpoint (file descriptor 3)
running at 9600 baud, `osmo_modbus_conn_rtu_set_baudrate(19200)` accepted by the serial
driver returns 0 and stores the baud rate 19200, but T1.5 and T3.5 keep the values 1718
and 4010 of 9600 baud instead of 859 and 2005. -/
theorem set_baudrate_connected_keeps_stale_timers :
    osmo_modbus_conn_rtu_is_connected { osmo_modbus_conn_rtu_alloc with ofd_fd := 3 } = true
      ∧ (osmo_modbus_conn_rtu_set_baudrate (fun _ => true) 0
          { osmo_modbus_conn_rtu_alloc with ofd_fd := 3 } 19200).1 = 0
      ∧ (osmo_modbus_conn_rtu_set_baudrate (fun _ => true) 0
          { osmo_modbus_conn_rtu_alloc with ofd_fd := 3 } 19200).2.baudrate = 19200
      ∧ (osmo_modbus_conn_rtu_set_baudrate (fun _ => true) 0
          { osmo_modbus_conn_rtu_alloc with ofd_fd := 3 } 19200).2.T15 = 1718
      ∧ (osmo_modbus_conn_rtu_set_baudrate (fun _ => true) 0
          { osmo_modbus_conn_rtu_alloc with ofd_fd := 3 } 19200).2.T35 = 4010
      ∧ 16500000 / 19200 = 859 ∧ 38500000 / 19200 = 2005 := by
  decide

/-- C16: for every baud rate of at least 1 the two timer values `recalc_baudrate_timers`
computes satisfy T1.5 < T3.5, strictly, and T1.5 < T3.5 holds in every endpoint state
reachable by allocation and baud-rate changes. -/
theorem t15_lt_t35 :
    (∀ rtu : osmo_modbus_conn_rtu, 1 ≤ rtu.baudrate →
      (recalc_baudrate_timers rtu).T15 < (recalc_baudrate_timers rtu).T35)
    ∧ (∀ rtu : osmo_modbus_conn_rtu, rtu_baud_reachable rtu → rtu.T15 < rtu.T35) := by
  refine ⟨recalc_baudrate_timers_lt, ?_⟩
  intro rtu h
  induction h with
  | alloc => decide
  | set_baudrate rtu speed_ok serial_rc b hb _ ih =>
    by_cases hconn : osmo_modbus_conn_rtu_is_connected rtu = true
    · rw [set_baudrate_connected speed_ok serial_rc rtu b hconn]
      by_cases hs : speed_ok b = false
      · simpa [hs] using ih
      · simpa [hs] using ih
    · have hconn' : osmo_modbus_conn_rtu_is_connected rtu = false := by simpa using hconn
      rw [set_baudrate_not_connected speed_ok serial_rc rtu b hconn']
      by_cases hs : speed_ok b = false
      · simpa [hs] using ih
      · simp only [hs, if_false]
        exact recalc_baudrate_timers_lt { rtu with baudrate := b } hb
  | set_fd rtu fd _ ih => exact ih

theorem t15_lt_t35_witness :
    (recalc_baudrate_timers { osmo_modbus_conn_rtu_alloc with baudrate := 19200 }).T15
      < (recalc_baudrate_timers { osmo_modbus_conn_rtu_alloc with baudrate := 19200 }).T35 :=
  t15_lt_t35.1 { osmo_modbus_conn_rtu_alloc with baudrate := 19200 } (by decide)

/-! ## Submitting primitives -/

theorem submit_prim_rejects_wrong_operation_aux (ops : osmo_modbus_proto_ops)
    (c : osmo_modbus_conn) (prim : osmo_modbus_prim)
    (hrole : c.role = .OSMO_MODBUS_ROLE_MASTER)
    (hop : prim.oph.operation ≠ .PRIM_OP_REQUEST) :
    osmo_modbus_conn_submit_prim ops c prim = some (-EINVAL, c) := by
  unfold osmo_modbus_conn_submit_prim
  rw [if_pos (Or.inl ⟨hrole, hop⟩)]

theorem submit_prim_master_wait_reply (ops : osmo_modbus_proto_ops)
    (c : osmo_modbus_conn) (prim : osmo_modbus_prim)
    (hrole : c.role = .OSMO_MODBUS_ROLE_MASTER)
    (hstate : c.fi_state = .CONN_MASTER_ST_WAIT_REPLY)
    (hop : prim.oph.operation = .PRIM_OP_REQUEST) :
    osmo_modbus_conn_submit_prim ops c prim =
      some (0, { c with msg_queue := c.msg_queue ++ [prim]
                        submit_log := c.submit_log ++ [prim] }) := by
  simp [osmo_modbus_conn_submit_prim, conn_master_fsm_dispatch_submit_prim,
    conn_master_states_in_event_mask, hrole, hstate, hop]

/-- C13: `osmo_modbus_conn_submit_prim` rejects a primitive whose operation does not fit
the role: on a master every primitive whose operation is not REQUEST, and on a slave
every primitive whose operation is not RESPONSE, makes it return `-EINVAL` in every
connection state, with the connection unchanged: same outbound queue, same FSM state,
nothing handed to the transmitter. -/
theorem submit_prim_rejects_wrong_operation (ops : osmo_modbus_proto_ops)
    (c : osmo_modbus_conn) (prim : osmo_modbus_prim)
    (h : (c.role = .OSMO_MODBUS_ROLE_MASTER ∧ prim.oph.operation ≠ .PRIM_OP_REQUEST)
      ∨ (c.role = .OSMO_MODBUS_ROLE_SLAVE ∧ prim.oph.operation ≠ .PRIM_OP_RESPONSE)) :
    osmo_modbus_conn_submit_prim ops c prim = some (-EINVAL, c) := by
  unfold osmo_modbus_conn_submit_prim
  rw [if_pos h]

theorem submit_prim_rejects_wrong_operation_witness :
    osmo_modbus_conn_submit_prim ⟨fun r => (0, r), fun _ => true, fun r _ => some (0, r)⟩
        { osmo_modbus_conn_alloc .OSMO_MODBUS_ROLE_MASTER with
          fi_state := .CONN_MASTER_ST_IDLE }
        (osmo_modbus_makeprim_mult_hold_reg_resp 1 1 (fun _ => 0x007B))
      = some (-EINVAL, { osmo_modbus_conn_alloc .OSMO_MODBUS_ROLE_MASTER with
          fi_state := .CONN_MASTER_ST_IDLE }) :=
  submit_prim_rejects_wrong_operation _ _ _ (Or.inl ⟨rfl, by decide⟩)

/-- C17: for a master in WAIT_REPLY, `osmo_modbus_conn_submit_prim` with a REQUEST
primitive appends the primitive at the tail of the outbound queue and returns 0; the
state stays WAIT_REPLY, `req_for_addr`, the pending timer and the endpoint are unchanged
and nothing is handed to the transmitter. -/
theorem submit_prim_in_wait_reply_only_enqueues (ops : osmo_modbus_proto_ops)
    (c : osmo_modbus_conn) (prim : osmo_modbus_prim)
    (hrole : c.role = .OSMO_MODBUS_ROLE_MASTER)
    (hstate : c.fi_state = .CONN_MASTER_ST_WAIT_REPLY)
    (hop : prim.oph.operation = .PRIM_OP_REQUEST) :
    osmo_modbus_conn_submit_prim ops c prim =
      some (0, { c with msg_queue := c.msg_queue ++ [prim]
                        submit_log := c.submit_log ++ [prim] }) :=
  submit_prim_master_wait_reply ops c prim hrole hstate hop

theorem submit_prim_in_wait_reply_only_enqueues_witness :
    osmo_modbus_conn_submit_prim ⟨fun r => (0, r), fun _ => true, fun r _ => some (0, r)⟩
        { osmo_modbus_conn_alloc .OSMO_MODBUS_ROLE_MASTER with
          fi_state := .CONN_MASTER_ST_WAIT_REPLY
          master_req_for_addr := 1
          msg_queue := [osmo_modbus_makeprim_mult_hold_reg_req 2 0x000C 1] }
        (osmo_modbus_makeprim_mult_hold_reg_req 3 0x000C 1)
      = some (0, { osmo_modbus_conn_alloc .OSMO_MODBUS_ROLE_MASTER with
          fi_state := .CONN_MASTER_ST_WAIT_REPLY
          master_req_for_addr := 1
          msg_queue := [osmo_modbus_makeprim_mult_hold_reg_req 2 0x000C 1,
            osmo_modbus_makeprim_mult_hold_reg_req 3 0x000C 1]
          submit_log := [osmo_modbus_makeprim_mult_hold_reg_req 3 0x000C 1] }) :=
  submit_prim_in_wait_reply_only_enqueues _ _ _ rfl rfl rfl

/-! ## The master FSM leaving WAIT_REPLY -/

/-- What the application submits from inside a callback of a master in WAIT_REPLY is
only enqueued, as far as it is a REQUEST. -/
theorem conn_app_submits_in_wait_reply (ops : osmo_modbus_proto_ops)
    (app : List osmo_modbus_prim) :
    ∀ c : osmo_modbus_conn, c.role = .OSMO_MODBUS_ROLE_MASTER →
      c.fi_state = .CONN_MASTER_ST_WAIT_REPLY →
      conn_app_submits ops c app =
        some { c with msg_queue := c.msg_queue ++ conn_requests app
                      submit_log := c.submit_log ++ conn_requests app } := by
  induction app with
  | nil => intro c _ _; simp [conn_app_submits, conn_requests]
  | cons p rest ih =>
    intro c hrole hstate
    by_cases hop : p.oph.operation = .PRIM_OP_REQUEST
    · have hs := submit_prim_master_wait_reply ops c p hrole hstate hop
      simp only [conn_app_submits, hs]
      refine (ih _ ?_ ?_).trans ?_
      · exact hrole
      · exact hstate
      · simp [conn_requests, hop, List.filter_cons]
    · have hs := submit_prim_rejects_wrong_operation_aux ops c p hrole hop
      simp only [conn_app_submits, hs]
      refine (ih _ hrole hstate).trans ?_
      simp [conn_requests, hop, List.filter_cons]

theorem conn_master_fsm_set_state_idle (c : osmo_modbus_conn) :
    conn_master_fsm_set_state c .CONN_MASTER_ST_IDLE
      = { c with fi_state := .CONN_MASTER_ST_IDLE, fi_timer := none } := by
  simp [conn_master_fsm_set_state, conn_master_fsm_timeouts]

theorem conn_master_fsm_set_state_wait_reply (c : osmo_modbus_conn) :
    conn_master_fsm_set_state c .CONN_MASTER_ST_WAIT_REPLY
      = { c with fi_state := .CONN_MASTER_ST_WAIT_REPLY
                 fi_timer := conn_master_noresponse_timer c } := by
  simp [conn_master_fsm_set_state, conn_master_fsm_timeouts, conn_master_noresponse_timer,
    osmo_modbus_conn.T_defs, OSMO_MODBUS_TO_NORESPONSE, OSMO_MODBUS_TO_TURNAROUND]

/-- Entering WAIT_REPLY from IDLE with a queue that is not empty: the head of the queue
is dequeued and handed to `tx_prim`. -/
theorem conn_master_enter_wait_reply (ops : osmo_modbus_proto_ops) (c : osmo_modbus_conn)
    (next : osmo_modbus_prim) (rest : List osmo_modbus_prim)
    (hstate : c.fi_state = .CONN_MASTER_ST_IDLE) (hq : c.msg_queue = next :: rest) :
    conn_master_fsm_state_chg ops c .CONN_MASTER_ST_WAIT_REPLY =
      (ops.tx_prim c.proto next).map (fun r =>
        { c with msg_queue := rest
                 master_req_for_addr := next.address % 65536
                 tx_log := c.tx_log ++ [next]
                 proto := r.2
                 fi_state := .CONN_MASTER_ST_WAIT_REPLY
                 fi_timer := conn_master_noresponse_timer c }) := by
  simp only [conn_master_fsm_state_chg, hstate, conn_master_states_out_state_mask,
    Bool.true_eq_false, if_false, conn_master_fsm_set_state_wait_reply,
    conn_master_fsm_st_wait_reply_onenter, hq]

/-- Leaving WAIT_REPLY for IDLE: the master stays in IDLE when the queue is empty, and
otherwise enters WAIT_REPLY again with the head of the queue. -/
theorem conn_master_leave_wait_reply (ops : osmo_modbus_proto_ops) (c : osmo_modbus_conn)
    (hstate : c.fi_state = .CONN_MASTER_ST_WAIT_REPLY) :
    conn_master_fsm_state_chg ops c .CONN_MASTER_ST_IDLE =
      match c.msg_queue with
      | [] => some { c with fi_state := .CONN_MASTER_ST_IDLE, fi_timer := none }
      | next :: rest =>
        (ops.tx_prim c.proto next).map (fun r =>
          { c with msg_queue := rest
                   master_req_for_addr := next.address % 65536
                   tx_log := c.tx_log ++ [next]
                   proto := r.2
                   fi_state := .CONN_MASTER_ST_WAIT_REPLY
                   fi_timer := conn_master_noresponse_timer c }) := by
  simp only [conn_master_fsm_state_chg, hstate, conn_master_states_out_state_mask,
    Bool.true_eq_false, if_false, conn_master_fsm_set_state_idle,
    conn_master_fsm_st_idle_onenter]
  cases hq : c.msg_queue with
  | nil => simp
  | cons next rest =>
    simp only [ne_eq, reduceCtorEq, not_false_eq_true, if_true,
      conn_master_fsm_state_chg_wait_reply, conn_master_states_out_state_mask,
      Bool.true_eq_false, if_false, conn_master_fsm_set_state_wait_reply,
      conn_master_fsm_st_wait_reply_onenter, hq]
    rfl

/-- The callback of a master in WAIT_REPLY followed by the state change to IDLE. -/
theorem conn_master_deliver_and_leave (ops : osmo_modbus_proto_ops) (c : osmo_modbus_conn)
    (prim : osmo_modbus_prim) (app : List osmo_modbus_prim)
    (hrole : c.role = .OSMO_MODBUS_ROLE_MASTER)
    (hstate : c.fi_state = .CONN_MASTER_ST_WAIT_REPLY) (hcb : c.prim_cb = true) :
    (match conn_master_deliver ops c prim app with
      | none => none
      | some c => conn_master_fsm_state_chg ops c .CONN_MASTER_ST_IDLE) =
      match c.msg_queue ++ conn_requests app with
      | [] => some { c with cb_log := c.cb_log ++ [prim]
                            submit_log := c.submit_log ++ conn_requests app
                            msg_queue := []
                            fi_state := .CONN_MASTER_ST_IDLE
                            fi_timer := none }
      | next :: rest =>
        (ops.tx_prim c.proto next).map (fun r =>
          { c with cb_log := c.cb_log ++ [prim]
                   submit_log := c.submit_log ++ conn_requests app
                   msg_queue := rest
                   master_req_for_addr := next.address % 65536
                   tx_log := c.tx_log ++ [next]
                   proto := r.2
                   fi_state := .CONN_MASTER_ST_WAIT_REPLY
                   fi_timer := conn_master_noresponse_timer c }) := by
  have happ : conn_app_submits ops { c with cb_log := c.cb_log ++ [prim] } app
      = some { c with cb_log := c.cb_log ++ [prim]
                      msg_queue := c.msg_queue ++ conn_requests app
                      submit_log := c.submit_log ++ conn_requests app } :=
    conn_app_submits_in_wait_reply ops app { c with cb_log := c.cb_log ++ [prim] } hrole hstate
  unfold conn_master_deliver conn_prim_cb
  rw [if_pos hcb, happ]
  simp only []
  rw [conn_master_leave_wait_reply ops
    { c with cb_log := c.cb_log ++ [prim]
             msg_queue := c.msg_queue ++ conn_requests app
             submit_log := c.submit_log ++ conn_requests app } hstate]
  simp only []
  cases c.msg_queue ++ conn_requests app with
  | nil => rfl
  | cons next rest => rfl

/-- C20: for a master in WAIT_REPLY with a callback registered and every received
primitive `p`, whatever its address and operation, `osmo_modbus_conn_rx_prim` hands `p`
unchanged to the callback, exactly once, and then leaves WAIT_REPLY: with an empty queue
the master ends in IDLE with no timer pending, and otherwise it dequeues the next queued
request, records its address in `req_for_addr`, hands it to the transmitter and is in
WAIT_REPLY again. The queue is the one after the callback: `app` is what the application
submits from inside it. -/
theorem master_delivers_reply_without_matching (ops : osmo_modbus_proto_ops)
    (c : osmo_modbus_conn) (p : osmo_modbus_prim) (app : List osmo_modbus_prim)
    (hrole : c.role = .OSMO_MODBUS_ROLE_MASTER)
    (hstate : c.fi_state = .CONN_MASTER_ST_WAIT_REPLY) (hcb : c.prim_cb = true) :
    osmo_modbus_conn_rx_prim ops c p app =
      match c.msg_queue ++ conn_requests app with
      | [] => some { c with cb_log := c.cb_log ++ [p]
                            submit_log := c.submit_log ++ conn_requests app
                            msg_queue := []
                            fi_state := .CONN_MASTER_ST_IDLE
                            fi_timer := none }
      | next :: rest =>
        (ops.tx_prim c.proto next).map (fun r =>
          { c with cb_log := c.cb_log ++ [p]
                   submit_log := c.submit_log ++ conn_requests app
                   msg_queue := rest
                   master_req_for_addr := next.address % 65536
                   tx_log := c.tx_log ++ [next]
                   proto := r.2
                   fi_state := .CONN_MASTER_ST_WAIT_REPLY
                   fi_timer := conn_master_noresponse_timer c }) := by
  rw [← conn_master_deliver_and_leave ops c p app hrole hstate hcb]
  simp only [osmo_modbus_conn_rx_prim, hrole, if_true, conn_master_fsm_dispatch_recv_prim,
    hstate, conn_master_states_in_event_mask, Bool.true_eq_false, if_false]
  cases conn_master_deliver ops c p app with
  | none => rfl
  | some c1 =>
    simp only [Option.map_map]
    cases conn_master_fsm_state_chg ops c1 .CONN_MASTER_ST_IDLE <;> rfl

theorem master_delivers_reply_without_matching_witness :
    osmo_modbus_conn_rx_prim ⟨fun r => (0, r), fun _ => true, fun r _ => some (0, r)⟩
        { osmo_modbus_conn_alloc .OSMO_MODBUS_ROLE_MASTER with
          fi_state := .CONN_MASTER_ST_WAIT_REPLY
          prim_cb := true
          master_req_for_addr := 1 }
        (osmo_modbus_makeprim_mult_hold_reg_req 9 0 1) []
      = some { osmo_modbus_conn_alloc .OSMO_MODBUS_ROLE_MASTER with
          fi_state := .CONN_MASTER_ST_IDLE
          prim_cb := true
          master_req_for_addr := 1
          cb_log := [osmo_modbus_makeprim_mult_hold_reg_req 9 0 1] } :=
  master_delivers_reply_without_matching _ _ _ _ rfl rfl rfl

/-- C19: (1) for a master in WAIT_REPLY with a callback registered, the expiry of the
NORESPONSE timer hands to the callback, exactly once, a Response-Timeout INDICATION
primitive whose address is `req_for_addr`; afterwards the master is in IDLE if the queue
is empty (and otherwise in WAIT_REPLY with the next queued request transmitted);
(2) `req_for_addr` is the address of the request dequeued and handed to the transmitter
when WAIT_REPLY was entered; (3) on a master in IDLE with an empty queue, a following
submit of a REQUEST primitive returns 0, hands the primitive to the transmitter and
leaves the master in WAIT_REPLY. -/
theorem master_response_timeout :
    (∀ (ops : osmo_modbus_proto_ops) (c : osmo_modbus_conn) (app : List osmo_modbus_prim)
        (v : Nat),
        c.role = .OSMO_MODBUS_ROLE_MASTER → c.fi_state = .CONN_MASTER_ST_WAIT_REPLY →
        c.prim_cb = true → c.fi_timer = some (OSMO_MODBUS_TO_NORESPONSE, v) →
        c.master_req_for_addr < 65536 →
        (osmo_modbus_makeprim_timeout_resp c.master_req_for_addr).oph.primitive
            = .OSMO_MODBUS_PRIM_RESPONSE_TIMEOUT
          ∧ (osmo_modbus_makeprim_timeout_resp c.master_req_for_addr).oph.operation
            = .PRIM_OP_INDICATION
          ∧ (osmo_modbus_makeprim_timeout_resp c.master_req_for_addr).address
            = c.master_req_for_addr
          ∧ conn_master_timer_expired ops c app =
            match c.msg_queue ++ conn_requests app with
            | [] => some
              { c with cb_log := c.cb_log
                         ++ [osmo_modbus_makeprim_timeout_resp c.master_req_for_addr]
                       submit_log := c.submit_log ++ conn_requests app
                       msg_queue := []
                       fi_state := .CONN_MASTER_ST_IDLE
                       fi_timer := none }
            | next :: rest =>
              (ops.tx_prim c.proto next).map (fun r =>
                { c with cb_log := c.cb_log
                           ++ [osmo_modbus_makeprim_timeout_resp c.master_req_for_addr]
                         submit_log := c.submit_log ++ conn_requests app
                         msg_queue := rest
                         master_req_for_addr := next.address % 65536
                         tx_log := c.tx_log ++ [next]
                         proto := r.2
                         fi_state := .CONN_MASTER_ST_WAIT_REPLY
                         fi_timer := conn_master_noresponse_timer c }))
    ∧ (∀ (ops : osmo_modbus_proto_ops) (c c' : osmo_modbus_conn),
        conn_master_fsm_st_wait_reply_onenter ops c = some c' →
        ∃ prim rest, c.msg_queue = prim :: rest ∧ c'.msg_queue = rest
          ∧ c'.master_req_for_addr = prim.address % 65536
          ∧ c'.tx_log = c.tx_log ++ [prim])
    ∧ (∀ (ops : osmo_modbus_proto_ops) (c : osmo_modbus_conn) (prim : osmo_modbus_prim),
        c.role = .OSMO_MODBUS_ROLE_MASTER → c.fi_state = .CONN_MASTER_ST_IDLE →
        c.msg_queue = [] → prim.oph.operation = .PRIM_OP_REQUEST →
        osmo_modbus_conn_submit_prim ops c prim =
          (ops.tx_prim c.proto prim).map (fun r =>
            (0, { c with submit_log := c.submit_log ++ [prim]
                         msg_queue := []
                         master_req_for_addr := prim.address % 65536
                         tx_log := c.tx_log ++ [prim]
                         proto := r.2
                         fi_state := .CONN_MASTER_ST_WAIT_REPLY
                         fi_timer := conn_master_noresponse_timer c }))) := by
  refine ⟨?_, ?_, ?_⟩
  · intro ops c app v hrole hstate hcb htimer haddr
    refine ⟨rfl, rfl, ?_, ?_⟩
    · simp only [osmo_modbus_makeprim_timeout_resp]
      omega
    · unfold conn_master_timer_expired
      rw [htimer]
      simp only [conn_master_fsm_timer_cb, OSMO_MODBUS_TO_NORESPONSE, OSMO_MODBUS_TO_TURNAROUND,
        if_true]
      have h21 : ¬ (2 : Nat) = 1 := by decide
      rw [if_neg h21]
      exact conn_master_deliver_and_leave ops { c with fi_timer := none }
        (osmo_modbus_makeprim_timeout_resp c.master_req_for_addr) app hrole hstate hcb
  · intro ops c c' h
    unfold conn_master_fsm_st_wait_reply_onenter at h
    cases hq : c.msg_queue with
    | nil => simp [hq] at h
    | cons prim rest =>
      simp only [hq] at h
      cases htx : ops.tx_prim c.proto prim with
      | none => simp [htx] at h
      | some r =>
        simp only [htx, Option.map_some', Option.some.injEq] at h
        subst h
        exact ⟨prim, rest, rfl, rfl, rfl, rfl⟩
  · intro ops c prim hrole hstate hq hop
    obtain ⟨role, address, prim_cb, msg_queue, master_req_for_addr, slave_monitor,
      T_turnaround, T_noresponse, fi_state, fi_timer, proto, tx_log, cb_log, submit_log⟩ := c
    simp only at hrole hstate hq
    subst hrole hstate hq
    simp only [osmo_modbus_conn_submit_prim, hop, ne_eq, not_true_eq_false, and_false,
      reduceCtorEq, false_and, or_self, if_false, if_true, List.nil_append,
      conn_master_fsm_dispatch_submit_prim, conn_master_states_in_event_mask,
      Bool.true_eq_false, conn_master_fsm_state_chg, conn_master_states_out_state_mask,
      conn_master_fsm_set_state_wait_reply, conn_master_fsm_st_wait_reply_onenter,
      Option.map_map]
    rfl

theorem master_response_timeout_witness :
    conn_master_timer_expired ⟨fun r => (0, r), fun _ => true, fun r _ => some (0, r)⟩
        { osmo_modbus_conn_alloc .OSMO_MODBUS_ROLE_MASTER with
          fi_state := .CONN_MASTER_ST_WAIT_REPLY
          prim_cb := true
          master_req_for_addr := 1
          fi_timer := some (OSMO_MODBUS_TO_NORESPONSE, 1) } []
      = some { osmo_modbus_conn_alloc .OSMO_MODBUS_ROLE_MASTER with
          fi_state := .CONN_MASTER_ST_IDLE
          prim_cb := true
          master_req_for_addr := 1
          fi_timer := none
          cb_log := [osmo_modbus_makeprim_timeout_resp 1] } :=
  (master_response_timeout.1 ⟨fun r => (0, r), fun _ => true, fun r _ => some (0, r)⟩
    { osmo_modbus_conn_alloc .OSMO_MODBUS_ROLE_MASTER with
      fi_state := .CONN_MASTER_ST_WAIT_REPLY
      prim_cb := true
      master_req_for_addr := 1
      fi_timer := some (OSMO_MODBUS_TO_NORESPONSE, 1) } [] 1 rfl rfl rfl rfl (by decide)).2.2.2

/-! ## FIFO order on a master -/

theorem master_fifo_inv_set_state (c : osmo_modbus_conn) (state : conn_fi_state)
    (h : master_fifo_inv c) : master_fifo_inv (conn_master_fsm_set_state c state) := h

theorem master_fifo_inv_wait_reply_onenter (ops : osmo_modbus_proto_ops)
    (c c' : osmo_modbus_conn) (hinv : master_fifo_inv c)
    (h : conn_master_fsm_st_wait_reply_onenter ops c = some c') : master_fifo_inv c' := by
  unfold conn_master_fsm_st_wait_reply_onenter at h
  cases hq : c.msg_queue with
  | nil => simp [hq] at h
  | cons prim rest =>
    simp only [hq] at h
    cases htx : ops.tx_prim c.proto prim with
    | none => simp [htx] at h
    | some r =>
      simp only [htx, Option.map_some', Option.some.injEq] at h
      subst h
      obtain ⟨hr, hf, hreq⟩ := hinv
      refine ⟨hr, ?_, hreq⟩
      show (c.tx_log ++ [prim]) ++ rest = c.submit_log
      rw [← hf, hq]
      simp

theorem master_fifo_inv_state_chg_wait_reply (ops : osmo_modbus_proto_ops)
    (c c' : osmo_modbus_conn) (hinv : master_fifo_inv c)
    (h : conn_master_fsm_state_chg_wait_reply ops c = some c') : master_fifo_inv c' := by
  unfold conn_master_fsm_state_chg_wait_reply at h
  split at h
  · simp only [Option.some.injEq] at h
    subst h
    exact hinv
  · exact master_fifo_inv_wait_reply_onenter ops _ c'
      (master_fifo_inv_set_state c _ hinv) h

theorem master_fifo_inv_idle_onenter (ops : osmo_modbus_proto_ops)
    (c c' : osmo_modbus_conn) (hinv : master_fifo_inv c)
    (h : conn_master_fsm_st_idle_onenter ops c = some c') : master_fifo_inv c' := by
  unfold conn_master_fsm_st_idle_onenter at h
  split at h
  · exact master_fifo_inv_state_chg_wait_reply ops c c' hinv h
  · simp only [Option.some.injEq] at h
    subst h
    exact hinv

theorem master_fifo_inv_state_chg (ops : osmo_modbus_proto_ops)
    (c c' : osmo_modbus_conn) (state : conn_fi_state) (hinv : master_fifo_inv c)
    (h : conn_master_fsm_state_chg ops c state = some c') : master_fifo_inv c' := by
  unfold conn_master_fsm_state_chg at h
  split at h
  · simp only [Option.some.injEq] at h
    subst h
    exact hinv
  · split at h
    · exact master_fifo_inv_idle_onenter ops _ c' (master_fifo_inv_set_state c _ hinv) h
    · exact master_fifo_inv_wait_reply_onenter ops _ c'
        (master_fifo_inv_set_state c _ hinv) h
    · simp only [Option.some.injEq] at h
      subst h
      exact master_fifo_inv_set_state c _ hinv

theorem master_fifo_inv_dispatch_submit_prim (ops : osmo_modbus_proto_ops)
    (c c' : osmo_modbus_conn) (rc : Int) (hinv : master_fifo_inv c)
    (h : conn_master_fsm_dispatch_submit_prim ops c = some (rc, c')) : master_fifo_inv c' := by
  unfold conn_master_fsm_dispatch_submit_prim at h
  split at h
  · simp only [Option.some.injEq, Prod.mk.injEq] at h
    rw [← h.2]
    exact hinv
  · split at h
    · simp only [Option.some.injEq, Prod.mk.injEq] at h
      rw [← h.2]
      exact hinv
    · cases hs : conn_master_fsm_state_chg ops c .CONN_MASTER_ST_WAIT_REPLY with
      | none => simp [hs] at h
      | some c1 =>
        simp only [hs, Option.map_some', Option.some.injEq, Prod.mk.injEq] at h
        rw [← h.2]
        exact master_fifo_inv_state_chg ops _ c1 _ hinv hs
    · simp only [Option.some.injEq, Prod.mk.injEq] at h
      rw [← h.2]
      exact hinv
    · simp only [Option.some.injEq, Prod.mk.injEq] at h
      rw [← h.2]
      exact hinv
    · simp at h

theorem master_fifo_inv_submit_prim (ops : osmo_modbus_proto_ops)
    (c c' : osmo_modbus_conn) (prim : osmo_modbus_prim) (rc : Int)
    (hinv : master_fifo_inv c)
    (h : osmo_modbus_conn_submit_prim ops c prim = some (rc, c')) : master_fifo_inv c' := by
  obtain ⟨hr, hf, hreq⟩ := hinv
  unfold osmo_modbus_conn_submit_prim at h
  split at h
  · simp only [Option.some.injEq, Prod.mk.injEq] at h
    rw [← h.2]
    exact ⟨hr, hf, hreq⟩
  · rename_i hacc
    have hop : prim.oph.operation = .PRIM_OP_REQUEST := by
      by_contra hne
      exact hacc (Or.inl ⟨hr, hne⟩)
    have hinv1 : master_fifo_inv
        { c with msg_queue := c.msg_queue ++ [prim], submit_log := c.submit_log ++ [prim] } := by
      refine ⟨hr, ?_, ?_⟩
      · show c.tx_log ++ (c.msg_queue ++ [prim]) = c.submit_log ++ [prim]
        rw [← hf, List.append_assoc]
      · intro p hp
        have hp' : p ∈ c.submit_log ++ [prim] := hp
        rw [List.mem_append, List.mem_singleton] at hp'
        rcases hp' with hp' | rfl
        · exact hreq p hp'
        · exact hop
    have h' : conn_master_fsm_dispatch_submit_prim ops
        { c with msg_queue := c.msg_queue ++ [prim], submit_log := c.submit_log ++ [prim] }
        = some (rc, c') := by
      have hr1 : ({ c with msg_queue := c.msg_queue ++ [prim]
                           submit_log := c.submit_log ++ [prim] } : osmo_modbus_conn).role
          = .OSMO_MODBUS_ROLE_MASTER := hr
      simp only [] at h
      rw [if_pos hr1] at h
      exact h
    exact master_fifo_inv_dispatch_submit_prim ops _ c' rc hinv1 h'

theorem master_fifo_inv_app_submits (ops : osmo_modbus_proto_ops)
    (app : List osmo_modbus_prim) :
    ∀ c c' : osmo_modbus_conn, master_fifo_inv c → conn_app_submits ops c app = some c' →
      master_fifo_inv c' := by
  induction app with
  | nil =>
    intro c c' hinv h
    simp only [conn_app_submits, Option.some.injEq] at h
    subst h
    exact hinv
  | cons p rest ih =>
    intro c c' hinv h
    unfold conn_app_submits at h
    cases hs : osmo_modbus_conn_submit_prim ops c p with
    | none => simp [hs] at h
    | some r =>
      simp only [hs] at h
      exact ih r.2 c' (master_fifo_inv_submit_prim ops c r.2 p r.1 hinv hs) h

theorem master_fifo_inv_deliver (ops : osmo_modbus_proto_ops)
    (c c' : osmo_modbus_conn) (prim : osmo_modbus_prim) (app : List osmo_modbus_prim)
    (hinv : master_fifo_inv c) (h : conn_master_deliver ops c prim app = some c') :
    master_fifo_inv c' := by
  unfold conn_master_deliver at h
  split at h
  · have hinv1 : master_fifo_inv { c with cb_log := c.cb_log ++ [prim] } := hinv
    exact master_fifo_inv_app_submits ops app _ c' hinv1 h
  · simp only [Option.some.injEq] at h
    subst h
    exact hinv

theorem master_fifo_inv_rx_prim (ops : osmo_modbus_proto_ops)
    (c c' : osmo_modbus_conn) (prim : osmo_modbus_prim) (app : List osmo_modbus_prim)
    (hinv : master_fifo_inv c) (h : osmo_modbus_conn_rx_prim ops c prim app = some c') :
    master_fifo_inv c' := by
  unfold osmo_modbus_conn_rx_prim at h
  rw [if_pos hinv.1] at h
  unfold conn_master_fsm_dispatch_recv_prim at h
  split at h
  · simp only [Option.map_some', Option.some.injEq] at h
    subst h
    exact hinv
  · split at h
    · cases hd : conn_master_deliver ops c prim app with
      | none => simp [hd] at h
      | some c1 =>
        simp only [hd] at h
        cases hs : conn_master_fsm_state_chg ops c1 .CONN_MASTER_ST_IDLE with
        | none => simp [hs] at h
        | some c2 =>
          simp only [hs, Option.map_some', Option.some.injEq] at h
          subst h
          exact master_fifo_inv_state_chg ops c1 c2 _
            (master_fifo_inv_deliver ops c c1 prim app hinv hd) hs
    · simp at h

theorem master_fifo_inv_timer_expired (ops : osmo_modbus_proto_ops)
    (c c' : osmo_modbus_conn) (app : List osmo_modbus_prim)
    (hinv : master_fifo_inv c) (h : conn_master_timer_expired ops c app = some c') :
    master_fifo_inv c' := by
  unfold conn_master_timer_expired at h
  split at h
  · simp only [Option.some.injEq] at h
    subst h
    exact hinv
  · have hinv0 : master_fifo_inv { c with fi_timer := none } := hinv
    unfold conn_master_fsm_timer_cb at h
    split at h
    · exact master_fifo_inv_state_chg ops _ c' _ hinv0 h
    · split at h
      · cases hd : conn_master_deliver ops { c with fi_timer := none }
            (osmo_modbus_makeprim_timeout_resp c.master_req_for_addr) app with
        | none => simp [hd] at h
        | some c1 =>
          simp only [hd] at h
          exact master_fifo_inv_state_chg ops c1 c' _
            (master_fifo_inv_deliver ops _ c1 _ app hinv0 hd) h
      · simp only [Option.some.injEq] at h
        subst h
        exact hinv0

theorem master_fifo_inv_connect (ops : osmo_modbus_proto_ops)
    (c c' : osmo_modbus_conn) (rc : Int)
    (hinv : master_fifo_inv c) (h : osmo_modbus_conn_connect ops c = some (rc, c')) :
    master_fifo_inv c' := by
  unfold osmo_modbus_conn_connect at h
  rw [if_pos hinv.1] at h
  have hinv0 : master_fifo_inv { c with proto := (ops.connect c.proto).2 } := hinv
  split at h
  · simp only [Option.some.injEq, Prod.mk.injEq] at h
    rw [← h.2]
    exact hinv
  · split at h
    · split at h
      · cases hs : conn_master_fsm_state_chg ops { c with proto := (ops.connect c.proto).2 }
            .CONN_MASTER_ST_IDLE with
        | none => simp [hs] at h
        | some c1 =>
          simp only [hs, Option.map_some', Option.some.injEq, Prod.mk.injEq] at h
          rw [← h.2]
          exact master_fifo_inv_state_chg ops _ c1 _ hinv0 hs
      · simp only [Option.some.injEq, Prod.mk.injEq] at h
        rw [← h.2]
        exact hinv0
    · simp at h

theorem master_fifo_inv_reachable (ops : osmo_modbus_proto_ops) (c : osmo_modbus_conn)
    (h : master_reachable ops c) : master_fifo_inv c := by
  induction h with
  | alloc => exact ⟨rfl, rfl, by intro p hp; simp [osmo_modbus_conn_alloc] at hp⟩
  | connect c c' rc _ hstep ih => exact master_fifo_inv_connect ops c c' rc ih hstep
  | submit c c' prim rc _ hstep ih => exact master_fifo_inv_submit_prim ops c c' prim rc ih hstep
  | receive c c' prim app _ hstep ih => exact master_fifo_inv_rx_prim ops c c' prim app ih hstep
  | timeout c c' app _ hstep ih => exact master_fifo_inv_timer_expired ops c c' app ih hstep
  | set_address c address _ ih => exact ih
  | set_prim_cb c prim_cb _ ih => exact ih
  | set_timeout c turnaround noresponse _ ih => exact ih
  | endpoint c proto _ ih => exact ih

/-- C18: in every state of a master connection reachable by connect, submit, receive
and timeout events (and by configuration calls and endpoint activity), the primitives
handed to the transmitter followed by the content of the outbound queue are the accepted
submissions in submission order, each of them a REQUEST; in particular the primitives
transmitted so far are a prefix of the submissions: requests are transmitted in the
order they were submitted. -/
theorem master_fifo_order (ops : osmo_modbus_proto_ops) (c : osmo_modbus_conn)
    (h : master_reachable ops c) :
    c.tx_log ++ c.msg_queue = c.submit_log
      ∧ (∀ p ∈ c.submit_log, p.oph.operation = .PRIM_OP_REQUEST)
      ∧ c.tx_log <+: c.submit_log := by
  obtain ⟨_, hf, hreq⟩ := master_fifo_inv_reachable ops c h
  exact ⟨hf, hreq, ⟨c.msg_queue, hf⟩⟩

theorem master_fifo_order_witness :
    ∃ c1 c2 : osmo_modbus_conn,
      osmo_modbus_conn_submit_prim ⟨fun r => (0, r), fun _ => true, fun r _ => some (0, r)⟩
          (osmo_modbus_conn_alloc .OSMO_MODBUS_ROLE_MASTER)
          (osmo_modbus_makeprim_mult_hold_reg_req 1 0x000C 1) = some (0, c1)
      ∧ osmo_modbus_conn_connect ⟨fun r => (0, r), fun _ => true, fun r _ => some (0, r)⟩ c1
          = some (0, c2)
      ∧ c2.fi_state = .CONN_MASTER_ST_WAIT_REPLY
      ∧ c2.tx_log = [osmo_modbus_makeprim_mult_hold_reg_req 1 0x000C 1]
      ∧ c2.tx_log ++ c2.msg_queue = c2.submit_log
      ∧ (∀ p ∈ c2.submit_log, p.oph.operation = .PRIM_OP_REQUEST)
      ∧ c2.tx_log <+: c2.submit_log := by
  have h1 : osmo_modbus_conn_submit_prim
      ⟨fun r => (0, r), fun _ => true, fun r _ => some (0, r)⟩
      (osmo_modbus_conn_alloc .OSMO_MODBUS_ROLE_MASTER)
      (osmo_modbus_makeprim_mult_hold_reg_req 1 0x000C 1)
      = some (0, { osmo_modbus_conn_alloc .OSMO_MODBUS_ROLE_MASTER with
          msg_queue := [osmo_modbus_makeprim_mult_hold_reg_req 1 0x000C 1]
          submit_log := [osmo_modbus_makeprim_mult_hold_reg_req 1 0x000C 1] }) := rfl
  have h2 : osmo_modbus_conn_connect
      ⟨fun r => (0, r), fun _ => true, fun r _ => some (0, r)⟩
      { osmo_modbus_conn_alloc .OSMO_MODBUS_ROLE_MASTER with
          msg_queue := [osmo_modbus_makeprim_mult_hold_reg_req 1 0x000C 1]
          submit_log := [osmo_modbus_makeprim_mult_hold_reg_req 1 0x000C 1] }
      = some (0, { osmo_modbus_conn_alloc .OSMO_MODBUS_ROLE_MASTER with
          fi_state := .CONN_MASTER_ST_WAIT_REPLY
          fi_timer := some (OSMO_MODBUS_TO_NORESPONSE, 1)
          master_req_for_addr := 1
          tx_log := [osmo_modbus_makeprim_mult_hold_reg_req 1 0x000C 1]
          submit_log := [osmo_modbus_makeprim_mult_hold_reg_req 1 0x000C 1] }) := by decide
  exact ⟨_, _, h1, h2, rfl, rfl,
    master_fifo_order _ _
      (master_reachable.connect _ _ 0
        (master_reachable.submit _ _ _ 0 master_reachable.alloc h1) h2)⟩

/-! ## The slave connection -/

theorem submit_prim_slave_check_request (ops : osmo_modbus_proto_ops)
    (c : osmo_modbus_conn) (prim head : osmo_modbus_prim) (rest : List osmo_modbus_prim)
    (hrole : c.role = .OSMO_MODBUS_ROLE_SLAVE)
    (hstate : c.fi_state = .CONN_SLAVE_ST_CHECK_REQUEST)
    (hop : prim.oph.operation = .PRIM_OP_RESPONSE)
    (hq : c.msg_queue ++ [prim] = head :: rest) :
    osmo_modbus_conn_submit_prim ops c prim =
      (ops.tx_prim c.proto head).map (fun r =>
        (0, { c with msg_queue := rest
                     submit_log := c.submit_log ++ [prim]
                     tx_log := c.tx_log ++ [head]
                     proto := r.2
                     fi_state := .CONN_SLAVE_ST_IDLE
                     fi_timer := none })) := by
  obtain ⟨role, address, prim_cb, msg_queue, master_req_for_addr, slave_monitor,
    T_turnaround, T_noresponse, fi_state, fi_timer, proto, tx_log, cb_log, submit_log⟩ := c
  simp only at hrole hstate hq
  subst hrole hstate
  simp [osmo_modbus_conn_submit_prim, conn_slave_fsm_dispatch_submit_prim,
    conn_slave_states_in_event_mask, conn_slave_fsm_state_chg,
    conn_slave_states_out_state_mask, hop, hq]

theorem submit_prim_slave_not_check_request (ops : osmo_modbus_proto_ops)
    (c : osmo_modbus_conn) (prim : osmo_modbus_prim)
    (hrole : c.role = .OSMO_MODBUS_ROLE_SLAVE)
    (hstate : c.fi_state ≠ .CONN_SLAVE_ST_CHECK_REQUEST) :
    osmo_modbus_conn_submit_prim ops c prim =
      if prim.oph.operation = .PRIM_OP_RESPONSE then
        some (-1, { c with msg_queue := c.msg_queue ++ [prim]
                           submit_log := c.submit_log ++ [prim] })
      else some (-EINVAL, c) := by
  obtain ⟨role, address, prim_cb, msg_queue, master_req_for_addr, slave_monitor,
    T_turnaround, T_noresponse, fi_state, fi_timer, proto, tx_log, cb_log, submit_log⟩ := c
  simp only at hrole hstate
  subst hrole
  by_cases hop : prim.oph.operation = .PRIM_OP_RESPONSE
  · cases fi_state <;>
      simp_all [osmo_modbus_conn_submit_prim, conn_slave_fsm_dispatch_submit_prim,
        conn_slave_states_in_event_mask]
  · simp [osmo_modbus_conn_submit_prim, hop]

theorem conn_app_submits_slave_not_check_request (ops : osmo_modbus_proto_ops)
    (app : List osmo_modbus_prim) (c : osmo_modbus_conn)
    (hrole : c.role = .OSMO_MODBUS_ROLE_SLAVE)
    (hstate : c.fi_state ≠ .CONN_SLAVE_ST_CHECK_REQUEST) :
    conn_app_submits ops c app =
      some { c with msg_queue := c.msg_queue ++ conn_responses app
                    submit_log := c.submit_log ++ conn_responses app } := by
  induction app generalizing c with
  | nil => simp [conn_app_submits, conn_responses]
  | cons p rest ih =>
    unfold conn_app_submits
    rw [submit_prim_slave_not_check_request ops c p hrole hstate]
    by_cases hop : p.oph.operation = .PRIM_OP_RESPONSE
    · rw [if_pos hop]
      show conn_app_submits ops { c with msg_queue := c.msg_queue ++ [p]
                                         submit_log := c.submit_log ++ [p] } rest = _
      refine (ih { c with msg_queue := c.msg_queue ++ [p]
                          submit_log := c.submit_log ++ [p] } hrole hstate).trans ?_
      simp [conn_responses, List.filter_cons, hop]
    · rw [if_neg hop]
      show conn_app_submits ops c rest = _
      refine (ih c hrole hstate).trans ?_
      simp [conn_responses, List.filter_cons, hop]

theorem rx_prim_slave_idle_addressed (ops : osmo_modbus_proto_ops)
    (c : osmo_modbus_conn) (prim : osmo_modbus_prim) (app : List osmo_modbus_prim)
    (hrole : c.role = .OSMO_MODBUS_ROLE_SLAVE)
    (hstate : c.fi_state = .CONN_SLAVE_ST_IDLE)
    (hcb : c.prim_cb = true)
    (haddr : prim.address = c.address) :
    osmo_modbus_conn_rx_prim ops c prim app =
      conn_app_submits ops
        { c with fi_state := .CONN_SLAVE_ST_CHECK_REQUEST
                 fi_timer := none
                 cb_log := c.cb_log ++ [prim] } app := by
  obtain ⟨role, address, prim_cb, msg_queue, master_req_for_addr, slave_monitor,
    T_turnaround, T_noresponse, fi_state, fi_timer, proto, tx_log, cb_log, submit_log⟩ := c
  simp only at hrole hstate hcb haddr
  subst hrole hstate hcb
  simp [osmo_modbus_conn_rx_prim, conn_slave_fsm_dispatch_recv_prim,
    conn_slave_states_in_event_mask, conn_slave_fsm_state_chg,
    conn_slave_states_out_state_mask, conn_prim_cb, haddr, Option.map_map, Function.comp_def]

theorem rx_prim_slave_idle_not_addressed (ops : osmo_modbus_proto_ops)
    (c : osmo_modbus_conn) (prim : osmo_modbus_prim) (app : List osmo_modbus_prim)
    (hrole : c.role = .OSMO_MODBUS_ROLE_SLAVE)
    (hstate : c.fi_state = .CONN_SLAVE_ST_IDLE)
    (hnot : c.prim_cb = false ∨ c.address ≠ prim.address) :
    osmo_modbus_conn_rx_prim ops c prim app =
      some (if c.prim_cb = true ∧ c.slave_monitor = true then
          { c with cb_log := c.cb_log ++ [prim]
                   msg_queue := c.msg_queue ++ conn_responses app
                   submit_log := c.submit_log ++ conn_responses app }
        else c) := by
  have hsub := conn_app_submits_slave_not_check_request ops app
    { c with cb_log := c.cb_log ++ [prim] } hrole (by rw [hstate]; decide)
  obtain ⟨role, address, prim_cb, msg_queue, master_req_for_addr, slave_monitor,
    T_turnaround, T_noresponse, fi_state, fi_timer, proto, tx_log, cb_log, submit_log⟩ := c
  simp only at hrole hstate hnot hsub
  subst hrole hstate
  unfold osmo_modbus_conn_rx_prim conn_slave_fsm_dispatch_recv_prim
  simp only [conn_slave_states_in_event_mask]
  rw [if_neg (by decide), if_neg (by decide), if_pos hnot]
  by_cases hm : prim_cb = true ∧ slave_monitor = true
  · rw [if_pos hm, if_pos hm]
    unfold conn_prim_cb
    simp only []
    rw [hsub]
    rfl
  · rw [if_neg hm, if_neg hm]
    rfl

/-- C21: for a slave in IDLE with a callback registered and a received primitive whose
address is the local address, whatever the monitor mode, `osmo_modbus_conn_rx_prim` is
what the application does inside one invocation of the callback with that primitive,
started from the slave in CHECK_REQUEST; a RESPONSE the application submits there
returns 0, the head of the outbound queue goes to the transmitter and the slave is back
in IDLE. -/
theorem slave_addressed_request (ops : osmo_modbus_proto_ops)
    (c : osmo_modbus_conn) (prim : osmo_modbus_prim) (app : List osmo_modbus_prim)
    (hrole : c.role = .OSMO_MODBUS_ROLE_SLAVE)
    (hstate : c.fi_state = .CONN_SLAVE_ST_IDLE)
    (hcb : c.prim_cb = true)
    (haddr : prim.address = c.address) :
    osmo_modbus_conn_rx_prim ops c prim app =
        conn_app_submits ops
          { c with fi_state := .CONN_SLAVE_ST_CHECK_REQUEST
                   fi_timer := none
                   cb_log := c.cb_log ++ [prim] } app
      ∧ ∀ resp : osmo_modbus_prim, resp.oph.operation = .PRIM_OP_RESPONSE →
          ∃ head rest, c.msg_queue ++ [resp] = head :: rest
            ∧ osmo_modbus_conn_submit_prim ops
                { c with fi_state := .CONN_SLAVE_ST_CHECK_REQUEST
                         fi_timer := none
                         cb_log := c.cb_log ++ [prim] } resp =
              (ops.tx_prim c.proto head).map (fun r =>
                (0, { c with msg_queue := rest
                             submit_log := c.submit_log ++ [resp]
                             tx_log := c.tx_log ++ [head]
                             cb_log := c.cb_log ++ [prim]
                             proto := r.2
                             fi_state := .CONN_SLAVE_ST_IDLE
                             fi_timer := none })) := by
  refine ⟨rx_prim_slave_idle_addressed ops c prim app hrole hstate hcb haddr, ?_⟩
  intro resp hop
  cases hq : c.msg_queue ++ [resp] with
  | nil => simp at hq
  | cons head rest =>
    exact ⟨head, rest, rfl,
      submit_prim_slave_check_request ops
        { c with fi_state := .CONN_SLAVE_ST_CHECK_REQUEST
                 fi_timer := none
                 cb_log := c.cb_log ++ [prim] } resp head rest hrole rfl hop hq⟩

theorem slave_addressed_request_witness :
    osmo_modbus_conn_rx_prim ⟨fun r => (0, r), fun _ => true, fun r _ => some (0, r)⟩
        { osmo_modbus_conn_alloc .OSMO_MODBUS_ROLE_SLAVE with
          fi_state := .CONN_SLAVE_ST_IDLE, prim_cb := true }
        (osmo_modbus_makeprim_mult_hold_reg_req 1 0x000C 1)
        [osmo_modbus_makeprim_mult_hold_reg_resp 1 1 (fun _ => 0x007B)]
      = some { osmo_modbus_conn_alloc .OSMO_MODBUS_ROLE_SLAVE with
          fi_state := .CONN_SLAVE_ST_IDLE
          prim_cb := true
          cb_log := [osmo_modbus_makeprim_mult_hold_reg_req 1 0x000C 1]
          submit_log := [osmo_modbus_makeprim_mult_hold_reg_resp 1 1 (fun _ => 0x007B)]
          tx_log := [osmo_modbus_makeprim_mult_hold_reg_resp 1 1 (fun _ => 0x007B)] } :=
  (slave_addressed_request ⟨fun r => (0, r), fun _ => true, fun r _ => some (0, r)⟩
    { osmo_modbus_conn_alloc .OSMO_MODBUS_ROLE_SLAVE with
      fi_state := .CONN_SLAVE_ST_IDLE, prim_cb := true }
    (osmo_modbus_makeprim_mult_hold_reg_req 1 0x000C 1)
    [osmo_modbus_makeprim_mult_hold_reg_resp 1 1 (fun _ => 0x007B)]
    rfl rfl rfl rfl).1.trans (by decide)

/-- C22: for a slave in IDLE and a received primitive such that no callback is
registered or the address of the primitive is not the local address,
`osmo_modbus_conn_rx_prim` returns with the slave in IDLE, nothing handed to the
transmitter and the endpoint untouched; the callback is invoked, once and with that
primitive, exactly when a callback is registered and monitor mode is enabled. -/
theorem slave_frame_not_for_us (ops : osmo_modbus_proto_ops)
    (c : osmo_modbus_conn) (prim : osmo_modbus_prim) (app : List osmo_modbus_prim)
    (hrole : c.role = .OSMO_MODBUS_ROLE_SLAVE)
    (hstate : c.fi_state = .CONN_SLAVE_ST_IDLE)
    (hnot : c.prim_cb = false ∨ c.address ≠ prim.address) :
    ∃ c', osmo_modbus_conn_rx_prim ops c prim app = some c'
      ∧ c'.fi_state = .CONN_SLAVE_ST_IDLE
      ∧ c'.tx_log = c.tx_log
      ∧ c'.proto = c.proto
      ∧ c'.cb_log = if c.prim_cb = true ∧ c.slave_monitor = true then c.cb_log ++ [prim]
          else c.cb_log := by
  refine ⟨_, rx_prim_slave_idle_not_addressed ops c prim app hrole hstate hnot, ?_⟩
  by_cases hm : c.prim_cb = true ∧ c.slave_monitor = true
  · rw [if_pos hm, if_pos hm]
    exact ⟨hstate, rfl, rfl, rfl⟩
  · rw [if_neg hm, if_neg hm]
    exact ⟨hstate, rfl, rfl, rfl⟩

theorem slave_frame_not_for_us_witness :
    (∃ c', osmo_modbus_conn_rx_prim ⟨fun r => (0, r), fun _ => true, fun r _ => some (0, r)⟩
        { osmo_modbus_conn_alloc .OSMO_MODBUS_ROLE_SLAVE with
          fi_state := .CONN_SLAVE_ST_IDLE, prim_cb := true, slave_monitor := false }
        (osmo_modbus_makeprim_mult_hold_reg_req 2 0x000C 1) [] = some c'
      ∧ c'.fi_state = .CONN_SLAVE_ST_IDLE ∧ c'.tx_log = [] ∧ c'.cb_log = [])
    ∧ (∃ c', osmo_modbus_conn_rx_prim ⟨fun r => (0, r), fun _ => true, fun r _ => some (0, r)⟩
        { osmo_modbus_conn_alloc .OSMO_MODBUS_ROLE_SLAVE with
          fi_state := .CONN_SLAVE_ST_IDLE, prim_cb := true, slave_monitor := true }
        (osmo_modbus_makeprim_mult_hold_reg_req 2 0x000C 1) [] = some c'
      ∧ c'.fi_state = .CONN_SLAVE_ST_IDLE ∧ c'.tx_log = []
      ∧ c'.cb_log = [osmo_modbus_makeprim_mult_hold_reg_req 2 0x000C 1]) := by
  refine ⟨?_, ?_⟩
  · obtain ⟨c', h, hs, ht, _, hc⟩ :=
      slave_frame_not_for_us ⟨fun r => (0, r), fun _ => true, fun r _ => some (0, r)⟩
        { osmo_modbus_conn_alloc .OSMO_MODBUS_ROLE_SLAVE with
          fi_state := .CONN_SLAVE_ST_IDLE, prim_cb := true, slave_monitor := false }
        (osmo_modbus_makeprim_mult_hold_reg_req 2 0x000C 1) [] rfl rfl
        (Or.inr (by decide))
    exact ⟨c', h, hs, ht, hc⟩
  · obtain ⟨c', h, hs, ht, _, hc⟩ :=
      slave_frame_not_for_us ⟨fun r => (0, r), fun _ => true, fun r _ => some (0, r)⟩
        { osmo_modbus_conn_alloc .OSMO_MODBUS_ROLE_SLAVE with
          fi_state := .CONN_SLAVE_ST_IDLE, prim_cb := true, slave_monitor := true }
        (osmo_modbus_makeprim_mult_hold_reg_req 2 0x000C 1) [] rfl rfl
        (Or.inr (by decide))
    exact ⟨c', h, hs, ht, hc⟩

/-- C23: for a slave in CHECK_REQUEST, `osmo_modbus_conn_submit_prim` with a RESPONSE
primitive appends it to the outbound queue, removes the head of the queue, hands that
head to `tx_prim` of the endpoint and, unless the transmitter aborts, returns 0 with the
slave in IDLE. -/
theorem slave_reply (ops : osmo_modbus_proto_ops)
    (c : osmo_modbus_conn) (prim : osmo_modbus_prim)
    (hrole : c.role = .OSMO_MODBUS_ROLE_SLAVE)
    (hstate : c.fi_state = .CONN_SLAVE_ST_CHECK_REQUEST)
    (hop : prim.oph.operation = .PRIM_OP_RESPONSE) :
    ∃ head rest, c.msg_queue ++ [prim] = head :: rest
      ∧ osmo_modbus_conn_submit_prim ops c prim =
        (ops.tx_prim c.proto head).map (fun r =>
          (0, { c with msg_queue := rest
                       submit_log := c.submit_log ++ [prim]
                       tx_log := c.tx_log ++ [head]
                       proto := r.2
                       fi_state := .CONN_SLAVE_ST_IDLE
                       fi_timer := none })) := by
  cases hq : c.msg_queue ++ [prim] with
  | nil => simp at hq
  | cons head rest =>
    exact ⟨head, rest, rfl,
      submit_prim_slave_check_request ops c prim head rest hrole hstate hop hq⟩

theorem slave_reply_witness :
    ∃ head rest,
      [] ++ [osmo_modbus_makeprim_mult_hold_reg_resp 1 1 (fun _ => 0x007B)] = head :: rest
      ∧ osmo_modbus_conn_submit_prim ⟨fun r => (0, r), fun _ => true, fun r _ => some (0, r)⟩
          { osmo_modbus_conn_alloc .OSMO_MODBUS_ROLE_SLAVE with
            fi_state := .CONN_SLAVE_ST_CHECK_REQUEST }
          (osmo_modbus_makeprim_mult_hold_reg_resp 1 1 (fun _ => 0x007B)) =
        some (0, { osmo_modbus_conn_alloc .OSMO_MODBUS_ROLE_SLAVE with
            msg_queue := rest
            submit_log := [osmo_modbus_makeprim_mult_hold_reg_resp 1 1 (fun _ => 0x007B)]
            tx_log := [head]
            fi_state := .CONN_SLAVE_ST_IDLE }) :=
  slave_reply ⟨fun r => (0, r), fun _ => true, fun r _ => some (0, r)⟩
    { osmo_modbus_conn_alloc .OSMO_MODBUS_ROLE_SLAVE with
      fi_state := .CONN_SLAVE_ST_CHECK_REQUEST }
    (osmo_modbus_makeprim_mult_hold_reg_resp 1 1 (fun _ => 0x007B)) rfl rfl rfl

/-! ## A slave transmits only in CHECK_REQUEST -/

theorem submit_prim_slave_step (ops : osmo_modbus_proto_ops)
    (c c' : osmo_modbus_conn) (prim : osmo_modbus_prim) (rc : Int)
    (hrole : c.role = .OSMO_MODBUS_ROLE_SLAVE)
    (h : osmo_modbus_conn_submit_prim ops c prim = some (rc, c')) :
    c'.role = c.role ∧ c'.cb_log = c.cb_log
      ∧ ((c'.tx_log = c.tx_log ∧ c'.fi_state = c.fi_state)
        ∨ (c.fi_state = .CONN_SLAVE_ST_CHECK_REQUEST
            ∧ c'.fi_state = .CONN_SLAVE_ST_IDLE
            ∧ ∃ head, c'.tx_log = c.tx_log ++ [head])) := by
  by_cases hstate : c.fi_state = .CONN_SLAVE_ST_CHECK_REQUEST
  · by_cases hop : prim.oph.operation = .PRIM_OP_RESPONSE
    · cases hq : c.msg_queue ++ [prim] with
      | nil => simp at hq
      | cons head rest =>
        rw [submit_prim_slave_check_request ops c prim head rest hrole hstate hop hq] at h
        cases htx : ops.tx_prim c.proto head with
        | none => rw [htx] at h; simp at h
        | some r =>
          rw [htx] at h
          simp only [Option.map_some', Option.some.injEq, Prod.mk.injEq] at h
          obtain ⟨_, rfl⟩ := h
          exact ⟨rfl, rfl, Or.inr ⟨hstate, rfl, head, rfl⟩⟩
    · have hrej : osmo_modbus_conn_submit_prim ops c prim = some (-EINVAL, c) := by
        unfold osmo_modbus_conn_submit_prim
        rw [if_pos (Or.inr ⟨hrole, hop⟩)]
      rw [hrej] at h
      simp only [Option.some.injEq, Prod.mk.injEq] at h
      obtain ⟨_, rfl⟩ := h
      exact ⟨rfl, rfl, Or.inl ⟨rfl, rfl⟩⟩
  · rw [submit_prim_slave_not_check_request ops c prim hrole hstate] at h
    split at h
    · simp only [Option.some.injEq, Prod.mk.injEq] at h
      obtain ⟨_, rfl⟩ := h
      exact ⟨rfl, rfl, Or.inl ⟨rfl, rfl⟩⟩
    · simp only [Option.some.injEq, Prod.mk.injEq] at h
      obtain ⟨_, rfl⟩ := h
      exact ⟨rfl, rfl, Or.inl ⟨rfl, rfl⟩⟩

theorem slave_tx_inv_submit_prim (ops : osmo_modbus_proto_ops)
    (c c' : osmo_modbus_conn) (prim : osmo_modbus_prim) (rc : Int)
    (hinv : slave_tx_inv c)
    (h : osmo_modbus_conn_submit_prim ops c prim = some (rc, c')) : slave_tx_inv c' := by
  obtain ⟨hrole, hle⟩ := hinv
  obtain ⟨hr, hcb, hstep⟩ := submit_prim_slave_step ops c c' prim rc hrole h
  refine ⟨hr.trans hrole, ?_⟩
  rcases hstep with ⟨htx, hst⟩ | ⟨hst, hst', head, htx⟩
  · rw [htx, hst, hcb]; exact hle
  · rw [htx, hst', hcb]
    rw [if_pos hst] at hle
    rw [if_neg (by decide)]
    simpa using hle

theorem slave_tx_inv_app_submits (ops : osmo_modbus_proto_ops)
    (app : List osmo_modbus_prim) (c c' : osmo_modbus_conn)
    (hinv : slave_tx_inv c)
    (h : conn_app_submits ops c app = some c') : slave_tx_inv c' := by
  induction app generalizing c with
  | nil =>
    simp only [conn_app_submits, Option.some.injEq] at h
    exact h ▸ hinv
  | cons p rest ih =>
    unfold conn_app_submits at h
    cases hs : osmo_modbus_conn_submit_prim ops c p with
    | none => rw [hs] at h; simp at h
    | some r =>
      rw [hs] at h
      exact ih r.2 (slave_tx_inv_submit_prim ops c r.2 p r.1 hinv hs) h

theorem rx_prim_slave_cases (ops : osmo_modbus_proto_ops)
    (c c' : osmo_modbus_conn) (prim : osmo_modbus_prim) (app : List osmo_modbus_prim)
    (hrole : c.role = .OSMO_MODBUS_ROLE_SLAVE)
    (h : osmo_modbus_conn_rx_prim ops c prim app = some c') :
    c' = c
      ∨ (c.fi_state = .CONN_SLAVE_ST_IDLE
        ∧ ∃ c1, c1.role = .OSMO_MODBUS_ROLE_SLAVE ∧ c1.tx_log = c.tx_log
          ∧ c1.cb_log = c.cb_log ++ [prim]
          ∧ conn_app_submits ops c1 app = some c') := by
  by_cases hstate : c.fi_state = .CONN_SLAVE_ST_IDLE
  · by_cases hnot : c.prim_cb = false ∨ c.address ≠ prim.address
    · by_cases hm : c.prim_cb = true ∧ c.slave_monitor = true
      · refine Or.inr ⟨hstate, { c with cb_log := c.cb_log ++ [prim] }, hrole, rfl, rfl, ?_⟩
        rw [rx_prim_slave_idle_not_addressed ops c prim app hrole hstate hnot, if_pos hm] at h
        rw [conn_app_submits_slave_not_check_request ops app
          { c with cb_log := c.cb_log ++ [prim] } hrole (by rw [hstate]; decide)]
        exact h
      · rw [rx_prim_slave_idle_not_addressed ops c prim app hrole hstate hnot, if_neg hm] at h
        simp only [Option.some.injEq] at h
        exact Or.inl h.symm
    · have hcb : c.prim_cb = true := by
        cases hc : c.prim_cb with
        | true => rfl
        | false => exact absurd (Or.inl hc) hnot
      have haddr : prim.address = c.address := by
        by_contra hne
        exact hnot (Or.inr (fun heq => hne heq.symm))
      rw [rx_prim_slave_idle_addressed ops c prim app hrole hstate hcb haddr] at h
      exact Or.inr ⟨hstate,
        { c with fi_state := .CONN_SLAVE_ST_CHECK_REQUEST
                 fi_timer := none
                 cb_log := c.cb_log ++ [prim] }, hrole, rfl, rfl, h⟩
  · left
    obtain ⟨role, address, prim_cb, msg_queue, master_req_for_addr, slave_monitor,
      T_turnaround, T_noresponse, fi_state, fi_timer, proto, tx_log, cb_log, submit_log⟩ := c
    simp only at hrole hstate
    subst hrole
    cases fi_state <;>
      simp_all [osmo_modbus_conn_rx_prim, conn_slave_fsm_dispatch_recv_prim,
        conn_slave_states_in_event_mask]

theorem slave_tx_inv_rx_prim (ops : osmo_modbus_proto_ops)
    (c c' : osmo_modbus_conn) (prim : osmo_modbus_prim) (app : List osmo_modbus_prim)
    (hinv : slave_tx_inv c)
    (h : osmo_modbus_conn_rx_prim ops c prim app = some c') : slave_tx_inv c' := by
  rcases rx_prim_slave_cases ops c c' prim app hinv.1 h with rfl | ⟨hstate, c1, hr, htx, hcb, hsub⟩
  · exact hinv
  · refine slave_tx_inv_app_submits ops app c1 c' ⟨hr, ?_⟩ hsub
    have hle := hinv.2
    rw [hstate, if_neg (by decide)] at hle
    rw [htx, hcb, List.length_append, List.length_singleton]
    split <;> omega

theorem connect_slave_step (ops : osmo_modbus_proto_ops)
    (c c' : osmo_modbus_conn) (rc : Int)
    (hrole : c.role = .OSMO_MODBUS_ROLE_SLAVE)
    (h : osmo_modbus_conn_connect ops c = some (rc, c')) :
    c'.role = c.role ∧ c'.tx_log = c.tx_log ∧ c'.cb_log = c.cb_log
      ∧ (c'.fi_state = .CONN_SLAVE_ST_CHECK_REQUEST
          → c.fi_state = .CONN_SLAVE_ST_CHECK_REQUEST) := by
  obtain ⟨role, address, prim_cb, msg_queue, master_req_for_addr, slave_monitor,
    T_turnaround, T_noresponse, fi_state, fi_timer, proto, tx_log, cb_log, submit_log⟩ := c
  simp only at hrole
  subst hrole
  unfold osmo_modbus_conn_connect at h
  rw [if_neg (by simp)] at h
  cases fi_state <;>
    simp only [conn_slave_states_in_event_mask, Bool.false_eq_true, if_true, if_false,
      Bool.true_eq_false, Option.some.injEq, Prod.mk.injEq, reduceCtorEq] at h
  all_goals first
    | (obtain ⟨_, rfl⟩ := h; exact ⟨rfl, rfl, rfl, fun h => h⟩)
    | (split at h
       · simp only [Option.some.injEq, Prod.mk.injEq] at h
         obtain ⟨_, rfl⟩ := h
         simp [conn_slave_fsm_state_chg, conn_slave_states_out_state_mask]
       · simp only [Option.some.injEq, Prod.mk.injEq] at h
         obtain ⟨_, rfl⟩ := h
         simp)

theorem slave_tx_inv_reachable (ops : osmo_modbus_proto_ops) (c : osmo_modbus_conn)
    (h : slave_reachable ops c) : slave_tx_inv c := by
  induction h with
  | alloc => exact ⟨rfl, by decide⟩
  | connect c c' rc _ hstep ih =>
    obtain ⟨hr, htx, hcb, hst⟩ := connect_slave_step ops c c' rc ih.1 hstep
    refine ⟨hr.trans ih.1, ?_⟩
    have hle := ih.2
    rw [htx, hcb]
    by_cases h1 : c'.fi_state = .CONN_SLAVE_ST_CHECK_REQUEST
    · rw [if_pos h1]; rw [if_pos (hst h1)] at hle; exact hle
    · rw [if_neg h1]; split at hle <;> omega
  | submit c c' prim rc _ hstep ih => exact slave_tx_inv_submit_prim ops c c' prim rc ih hstep
  | receive c c' prim app _ hstep ih => exact slave_tx_inv_rx_prim ops c c' prim app ih hstep
  | set_address c address _ ih => exact ih
  | set_prim_cb c prim_cb _ ih => exact ih
  | set_monitor_mode c enable _ ih =>
    unfold osmo_modbus_conn_set_monitor_mode
    split
    · exact ih
    · exact ih
  | endpoint c proto _ ih => exact ih

/-- C24: on a slave, `osmo_modbus_conn_submit_prim` hands a primitive to the transmitter
only when it is called in CHECK_REQUEST, and then exactly one; connect hands nothing;
receive hands nothing but what the submissions made by the application inside the
callback hand; and in every state reached by connect, receive and submit events the
number of primitives handed to the transmitter, plus one while the slave is in
CHECK_REQUEST, is at most the number of invocations of the callback. -/
theorem slave_transmits_only_in_check_request (ops : osmo_modbus_proto_ops) :
    (∀ (c c' : osmo_modbus_conn) (prim : osmo_modbus_prim) (rc : Int),
        c.role = .OSMO_MODBUS_ROLE_SLAVE →
        osmo_modbus_conn_submit_prim ops c prim = some (rc, c') →
        c'.tx_log = c.tx_log
          ∨ (c.fi_state = .CONN_SLAVE_ST_CHECK_REQUEST
              ∧ ∃ head, c'.tx_log = c.tx_log ++ [head]))
    ∧ (∀ (c c' : osmo_modbus_conn) (rc : Int),
        c.role = .OSMO_MODBUS_ROLE_SLAVE →
        osmo_modbus_conn_connect ops c = some (rc, c') → c'.tx_log = c.tx_log)
    ∧ (∀ (c c' : osmo_modbus_conn) (prim : osmo_modbus_prim) (app : List osmo_modbus_prim),
        c.role = .OSMO_MODBUS_ROLE_SLAVE →
        osmo_modbus_conn_rx_prim ops c prim app = some c' →
        c' = c ∨ ∃ c1, c1.tx_log = c.tx_log ∧ conn_app_submits ops c1 app = some c')
    ∧ (∀ c : osmo_modbus_conn, slave_reachable ops c →
        c.tx_log.length + (if c.fi_state = .CONN_SLAVE_ST_CHECK_REQUEST then 1 else 0)
          ≤ c.cb_log.length) := by
  refine ⟨?_, ?_, ?_, ?_⟩
  · intro c c' prim rc hrole h
    obtain ⟨_, _, hstep⟩ := submit_prim_slave_step ops c c' prim rc hrole h
    rcases hstep with ⟨htx, _⟩ | ⟨hst, _, head, htx⟩
    · exact Or.inl htx
    · exact Or.inr ⟨hst, head, htx⟩
  · intro c c' rc hrole h
    exact (connect_slave_step ops c c' rc hrole h).2.1
  · intro c c' prim app hrole h
    rcases rx_prim_slave_cases ops c c' prim app hrole h with heq | ⟨_, c1, _, htx, _, hsub⟩
    · exact Or.inl heq
    · exact Or.inr ⟨c1, htx, hsub⟩
  · intro c h
    exact (slave_tx_inv_reachable ops c h).2

theorem slave_transmits_only_in_check_request_witness :
    ({ osmo_modbus_conn_alloc .OSMO_MODBUS_ROLE_SLAVE with
        fi_state := .CONN_SLAVE_ST_IDLE
        prim_cb := true
        cb_log := [osmo_modbus_makeprim_mult_hold_reg_req 1 0x000C 1]
        submit_log := [osmo_modbus_makeprim_mult_hold_reg_resp 1 1 (fun _ => 0x007B)]
        tx_log := [osmo_modbus_makeprim_mult_hold_reg_resp 1 1 (fun _ => 0x007B)]
      } : osmo_modbus_conn).tx_log.length + 0 ≤ 1 :=
  (slave_transmits_only_in_check_request
      ⟨fun r => (0, r), fun _ => true, fun r _ => some (0, r)⟩).2.2.2 _
    (slave_reachable.receive
      { osmo_modbus_conn_alloc .OSMO_MODBUS_ROLE_SLAVE with
        fi_state := .CONN_SLAVE_ST_IDLE, prim_cb := true }
      _ (osmo_modbus_makeprim_mult_hold_reg_req 1 0x000C 1)
      [osmo_modbus_makeprim_mult_hold_reg_resp 1 1 (fun _ => 0x007B)]
      (slave_reachable.connect
        { osmo_modbus_conn_alloc .OSMO_MODBUS_ROLE_SLAVE with prim_cb := true } _ 0
        (slave_reachable.set_prim_cb _ true slave_reachable.alloc)
        (by decide))
      (by decide))

/-! ## Submitting before connect, and the local address -/

theorem conn_master_connected_drains (ops : osmo_modbus_proto_ops) (c : osmo_modbus_conn)
    (hstate : c.fi_state = .CONN_MASTER_ST_DISCONNECTED) :
    conn_master_fsm_state_chg ops c .CONN_MASTER_ST_IDLE =
      match c.msg_queue with
      | [] => some { c with fi_state := .CONN_MASTER_ST_IDLE, fi_timer := none }
      | next :: rest =>
        (ops.tx_prim c.proto next).map (fun r =>
          { c with msg_queue := rest
                   master_req_for_addr := next.address % 65536
                   tx_log := c.tx_log ++ [next]
                   proto := r.2
                   fi_state := .CONN_MASTER_ST_WAIT_REPLY
                   fi_timer := conn_master_noresponse_timer c }) := by
  simp only [conn_master_fsm_state_chg, hstate, conn_master_states_out_state_mask,
    Bool.true_eq_false, if_false, conn_master_fsm_set_state_idle,
    conn_master_fsm_st_idle_onenter]
  cases hq : c.msg_queue with
  | nil => simp
  | cons next rest =>
    simp only [ne_eq, reduceCtorEq, not_false_eq_true, if_true,
      conn_master_fsm_state_chg_wait_reply, conn_master_states_out_state_mask,
      Bool.true_eq_false, if_false, conn_master_fsm_set_state_wait_reply,
      conn_master_fsm_st_wait_reply_onenter, hq]
    rfl

/-- C26: for a master in DISCONNECTED, `osmo_modbus_conn_submit_prim` with a REQUEST
primitive returns 0 and only appends the primitive to the outbound queue: the state
stays DISCONNECTED and nothing is handed to the transmitter. When `connect` of the
endpoint then succeeds, `osmo_modbus_conn_connect` dequeues the head of the queue, sets
`req_for_addr` to its address, hands it to `tx_prim` and, unless the transmitter
aborts, returns 0 with the master in WAIT_REPLY. -/
theorem submit_before_connect (ops : osmo_modbus_proto_ops)
    (c : osmo_modbus_conn) (prim : osmo_modbus_prim)
    (hrole : c.role = .OSMO_MODBUS_ROLE_MASTER)
    (hstate : c.fi_state = .CONN_MASTER_ST_DISCONNECTED)
    (hop : prim.oph.operation = .PRIM_OP_REQUEST) :
    osmo_modbus_conn_submit_prim ops c prim =
        some (0, { c with msg_queue := c.msg_queue ++ [prim]
                          submit_log := c.submit_log ++ [prim] })
      ∧ ((ops.connect c.proto).1 = 0 →
          ∃ head rest, c.msg_queue ++ [prim] = head :: rest
            ∧ osmo_modbus_conn_connect ops
                { c with msg_queue := c.msg_queue ++ [prim]
                         submit_log := c.submit_log ++ [prim] } =
              (ops.tx_prim (ops.connect c.proto).2 head).map (fun r =>
                (0, { c with msg_queue := rest
                             submit_log := c.submit_log ++ [prim]
                             master_req_for_addr := head.address % 65536
                             tx_log := c.tx_log ++ [head]
                             proto := r.2
                             fi_state := .CONN_MASTER_ST_WAIT_REPLY
                             fi_timer := conn_master_noresponse_timer c }))) := by
  constructor
  · simp [osmo_modbus_conn_submit_prim, conn_master_fsm_dispatch_submit_prim,
      conn_master_states_in_event_mask, hrole, hstate, hop]
  · intro hrc
    cases hq : c.msg_queue ++ [prim] with
    | nil => simp at hq
    | cons head rest =>
      refine ⟨head, rest, rfl, ?_⟩
      have hdrain := conn_master_connected_drains ops
        { c with msg_queue := c.msg_queue ++ [prim]
                 submit_log := c.submit_log ++ [prim]
                 proto := (ops.connect c.proto).2 } hstate
      obtain ⟨role, address, prim_cb, msg_queue, master_req_for_addr, slave_monitor,
        T_turnaround, T_noresponse, fi_state, fi_timer, proto, tx_log, cb_log,
        submit_log⟩ := c
      simp only at hrole hstate hq hrc hdrain
      subst hrole hstate
      unfold osmo_modbus_conn_connect
      simp only [conn_master_states_in_event_mask, if_true, Bool.true_eq_false, if_false, hrc]
      simp only [hq] at hdrain
      rw [hdrain]
      simp [Option.map_map, Function.comp_def, conn_master_noresponse_timer]

theorem submit_before_connect_witness :
    osmo_modbus_conn_connect ⟨fun r => (0, r), fun _ => true, fun r _ => some (0, r)⟩
        { osmo_modbus_conn_alloc .OSMO_MODBUS_ROLE_MASTER with
          msg_queue := [osmo_modbus_makeprim_mult_hold_reg_req 1 0x000C 1]
          submit_log := [osmo_modbus_makeprim_mult_hold_reg_req 1 0x000C 1] }
      = some (0, { osmo_modbus_conn_alloc .OSMO_MODBUS_ROLE_MASTER with
          submit_log := [osmo_modbus_makeprim_mult_hold_reg_req 1 0x000C 1]
          tx_log := [osmo_modbus_makeprim_mult_hold_reg_req 1 0x000C 1]
          master_req_for_addr := 1
          fi_state := .CONN_MASTER_ST_WAIT_REPLY
          fi_timer := some (OSMO_MODBUS_TO_NORESPONSE, 1) }) := by
  obtain ⟨head, rest, hq, h⟩ :=
    (submit_before_connect ⟨fun r => (0, r), fun _ => true, fun r _ => some (0, r)⟩
      (osmo_modbus_conn_alloc .OSMO_MODBUS_ROLE_MASTER)
      (osmo_modbus_makeprim_mult_hold_reg_req 1 0x000C 1) rfl rfl rfl).2 rfl
  exact h.trans (by
    simp only [osmo_modbus_conn_alloc, List.nil_append, List.cons.injEq] at hq
    obtain ⟨rfl, rfl⟩ := hq
    decide)

/-- C27, as stated, fails: `osmo_modbus_conn_set_address` stores whatever it is given, so
a slave can be given the address 300 and a master the address 5, both calls returning
0. -/
theorem set_address_out_of_range :
    (osmo_modbus_conn_set_address (osmo_modbus_conn_alloc .OSMO_MODBUS_ROLE_SLAVE) 300)
        = (0, { osmo_modbus_conn_alloc .OSMO_MODBUS_ROLE_SLAVE with address := 300 })
      ∧ ¬ (osmo_modbus_conn_set_address
            (osmo_modbus_conn_alloc .OSMO_MODBUS_ROLE_SLAVE) 300).2.address ≤ 247
      ∧ (osmo_modbus_conn_set_address (osmo_modbus_conn_alloc .OSMO_MODBUS_ROLE_MASTER) 5)
        = (0, { osmo_modbus_conn_alloc .OSMO_MODBUS_ROLE_MASTER with address := 5 })
      ∧ (osmo_modbus_conn_set_address
            (osmo_modbus_conn_alloc .OSMO_MODBUS_ROLE_MASTER) 5).2.address ≠ 0 := by
  decide

/-- C27, amended: `osmo_modbus_conn_alloc` gives a master the local address 0 and a slave
the local address 1; every call of `osmo_modbus_conn_set_address` returns 0, whatever the
role and the address, and after a sequence of calls the local address is the 16-bit
value of the last call. -/
theorem set_address_stores_any_address (role : osmo_modbus_conn_role) (addrs : List Nat) :
    (osmo_modbus_conn_alloc role).address
        = (if role = .OSMO_MODBUS_ROLE_MASTER then 0 else 1)
      ∧ (∀ (c : osmo_modbus_conn) (a : Nat), (osmo_modbus_conn_set_address c a).1 = 0)
      ∧ (addrs.foldl (fun c a => (osmo_modbus_conn_set_address c a).2)
            (osmo_modbus_conn_alloc role)).address
          = match addrs.getLast? with
            | none => (if role = .OSMO_MODBUS_ROLE_MASTER then 0 else 1)
            | some a => a % 65536 := by
  refine ⟨rfl, fun _ _ => rfl, ?_⟩
  have key : ∀ (l : List Nat) (c : osmo_modbus_conn),
      (l.foldl (fun c a => (osmo_modbus_conn_set_address c a).2) c).address
        = match l.getLast? with
          | none => c.address
          | some a => a % 65536 := by
    intro l
    induction l with
    | nil => intro c; rfl
    | cons a rest ih =>
      intro c
      rw [List.foldl_cons, ih]
      cases rest with
      | nil => rfl
      | cons b rest2 =>
        rw [List.getLast?_cons_cons]
        cases hl : (b :: rest2).getLast? with
        | none => simp at hl
        | some x => rfl
  rw [key]
  rfl

/-! ## The RTU transmission FSM -/

theorem rtu_transmit_fsm_set_state_idle (rtu : osmo_modbus_conn_rtu) :
    rtu_transmit_fsm_set_state rtu .RTU_TRANSMIT_ST_IDLE
      = { rtu with fi_state := .RTU_TRANSMIT_ST_IDLE, fi_timer := none } := by
  simp [rtu_transmit_fsm_set_state, rtu_transmit_fsm_timeouts]

theorem rtu_transmit_fsm_set_state_fi_state (rtu : osmo_modbus_conn_rtu)
    (state : rtu_transmit_state) :
    (rtu_transmit_fsm_set_state rtu state).fi_state = state := rfl

/-- C29: the dispatch of an event to the RTU transmission FSM follows the next-state
table: for each of the ten pairs of the table it returns 0 with the FSM in the state the
table gives, and for every other pair it returns -1, the event being outside the
`in_event_mask` of the state, and changes nothing. The baud rate is not zero, and a
demand of emission comes with a frame to emit, as `osmo_modbus_conn_rtu_tx_prim`
guarantees. -/
theorem rtu_next_state_table (e : host_endian) (rtu : osmo_modbus_conn_rtu)
    (event : rtu_transmit_event)
    (hbaud : rtu.baudrate ≠ 0)
    (htx : event = .RTU_TRANSMIT_EV_DEMAND_OF_EMISSION → rtu.tx_msg ≠ none) :
    match rtu_next_state_spec rtu.fi_state event with
    | some state =>
      rtu_transmit_states_in_event_mask rtu.fi_state event = true
        ∧ ∃ r fwd, rtu_transmit_fsm_dispatch e rtu event = some (0, r, fwd)
          ∧ r.fi_state = state
    | none =>
      rtu_transmit_states_in_event_mask rtu.fi_state event = false
        ∧ rtu_transmit_fsm_dispatch e rtu event = some (-1, rtu, none) := by
  obtain ⟨dev_path, baudrate, ofd_fd, ofd_when_write, rx_msg, rx_msg_ok, tx_msg, T15, T35,
    fi_state, fi_timer⟩ := rtu
  simp only at hbaud htx
  cases fi_state <;> cases event <;>
    simp only [rtu_next_state_spec, rtu_transmit_states_in_event_mask,
      rtu_transmit_fsm_dispatch, Bool.true_eq_false, Bool.false_eq_true, if_true, if_false,
      true_and, and_self, rearm_timer, rearm_timer_with_factor, Option.some.injEq,
      Prod.mk.injEq, exists_and_left, exists_eq_left', true_and]
  all_goals first
    | exact ⟨_, _, ⟨rfl, rfl⟩, rfl⟩
    | (simp only [rtu_transmit_fsm_state_chg, rtu_transmit_states_out_state_mask,
        rtu_transmit_fsm_st_ctrlwait_t35, rtu_transmit_fsm_st_ctrlwait_onenter,
        rtu_transmit_fsm_st_emission_onenter, rtu_transmit_fsm_set_state,
        rearm_timer_with_factor, Bool.true_eq_false, if_false, if_neg hbaud, Option.map_some']
       first
         | exact ⟨_, _, rfl, rfl⟩
         | (split <;> exact ⟨_, _, rfl, rfl⟩)
         | (cases tx_msg with
            | none => exact absurd rfl (htx rfl)
            | some msg => exact ⟨_, _, rfl, rfl⟩))

theorem rtu_next_state_table_witness :
    ∃ r fwd,
      rtu_transmit_fsm_dispatch .little
          { osmo_modbus_conn_rtu_alloc with
            fi_state := .RTU_TRANSMIT_ST_IDLE
            tx_msg := some [0x01, 0x03, 0x00, 0x0C, 0x00, 0x01, 0x44, 0x09] }
          .RTU_TRANSMIT_EV_DEMAND_OF_EMISSION = some (0, r, fwd)
        ∧ r.fi_state = .RTU_TRANSMIT_ST_EMISSION :=
  (rtu_next_state_table .little
    { osmo_modbus_conn_rtu_alloc with
      fi_state := .RTU_TRANSMIT_ST_IDLE
      tx_msg := some [0x01, 0x03, 0x00, 0x0C, 0x00, 0x01, 0x44, 0x09] }
    .RTU_TRANSMIT_EV_DEMAND_OF_EMISSION (by decide) (fun _ => by decide)).2

/-! ## Frames in CTRL_WAIT -/

theorem rtu_dispatch_t15_reception (e : host_endian) (rtu : osmo_modbus_conn_rtu)
    (hstate : rtu.fi_state = .RTU_TRANSMIT_ST_RECEPTION) (hbaud : rtu.baudrate ≠ 0) :
    rtu_transmit_fsm_dispatch e rtu .RTU_TRANSMIT_EV_T15_TIMEOUT =
      some (0, { rtu with
          fi_state := .RTU_TRANSMIT_ST_CTRL_WAIT
          fi_timer := some (35, ((((rtu.T35 : Nat) : Int)
            + -1 * ((rtu_chars2bits 1500000 / rtu.baudrate : Nat) : Int))
              % (2 ^ 64 : Int)).toNat)
          rx_msg_ok := decide (2 ≤ rtu.rx_msg.length)
            && rtu_crc_matches rtu.rx_msg (rtu.rx_msg.length - 2) }, none) := by
  obtain ⟨dev_path, baudrate, ofd_fd, ofd_when_write, rx_msg, rx_msg_ok, tx_msg, T15, T35,
    fi_state, fi_timer⟩ := rtu
  simp only at hstate hbaud
  subst hstate
  simp only [rtu_transmit_fsm_dispatch, rtu_transmit_states_in_event_mask,
    rtu_transmit_fsm_state_chg, rtu_transmit_states_out_state_mask,
    rtu_transmit_fsm_st_ctrlwait_onenter, rtu_transmit_fsm_set_state,
    rearm_timer_with_factor, osmo_modbus_conn_rtu.T_defs,
    Bool.true_eq_false, if_false, if_neg hbaud]
  by_cases hlen : rx_msg.length < 2
  · simp [hlen, Nat.not_le.2 hlen]
  · simp [hlen, Nat.not_lt.1 hlen]

theorem rtu_dispatch_t35_ctrl_wait (e : host_endian) (rtu : osmo_modbus_conn_rtu)
    (hstate : rtu.fi_state = .RTU_TRANSMIT_ST_CTRL_WAIT) :
    rtu_transmit_fsm_dispatch e rtu .RTU_TRANSMIT_EV_T35_TIMEOUT =
      some (0, { rtu with
          fi_state := .RTU_TRANSMIT_ST_IDLE
          fi_timer := none
          rx_msg := []
          rx_msg_ok := rtu.rx_msg_ok && decide (0 ≤ (rtu2prim e rtu.rx_msg).1) },
        if rtu.rx_msg_ok = true ∧ 0 ≤ (rtu2prim e rtu.rx_msg).1
          then (rtu2prim e rtu.rx_msg).2 else none) := by
  obtain ⟨dev_path, baudrate, ofd_fd, ofd_when_write, rx_msg, rx_msg_ok, tx_msg, T15, T35,
    fi_state, fi_timer⟩ := rtu
  simp only at hstate
  subst hstate
  simp only [rtu_transmit_fsm_dispatch, rtu_transmit_states_in_event_mask,
    rtu_transmit_fsm_st_ctrlwait_t35, rtu_transmit_fsm_state_chg,
    rtu_transmit_states_out_state_mask, rtu_transmit_fsm_set_state_idle,
    Bool.true_eq_false, if_false, Option.map_some']
  cases rx_msg_ok <;> simp

theorem rtu_read_ctrl_wait (e : host_endian) (rtu : osmo_modbus_conn_rtu)
    (bytes : List Nat) (hstate : rtu.fi_state = .RTU_TRANSMIT_ST_CTRL_WAIT) :
    rtu_read e rtu bytes =
      some (if bytes.take (MODBUS_MSGB_SIZE - rtu.rx_msg.length) = [] then rtu
        else { rtu with
          rx_msg := rtu.rx_msg ++ bytes.take (MODBUS_MSGB_SIZE - rtu.rx_msg.length)
          rx_msg_ok := false }) := by
  obtain ⟨dev_path, baudrate, ofd_fd, ofd_when_write, rx_msg, rx_msg_ok, tx_msg, T15, T35,
    fi_state, fi_timer⟩ := rtu
  simp only at hstate
  subst hstate
  unfold rtu_read
  simp only []
  split
  · rfl
  · simp [rtu_transmit_fsm_dispatch, rtu_transmit_states_in_event_mask]

/-- The value `rtu2prim` returns is not negative exactly when it stores a primitive. -/
theorem rtu2prim_nonneg_iff (e : host_endian) (data : List Nat) :
    0 ≤ (rtu2prim e data).1 ↔ (rtu2prim e data).2.isSome = true := by
  by_cases h2 : data.length < 2
  · rw [rtu2prim_short e data h2]
    simp [ENODATA]
  by_cases hcode : data.getD 1 0 = 0x03
  · by_cases h6 : data.length < 6
    · rw [rtu2prim_short_read e data hcode h6]
      simp [ENODATA]
    · have hlen : 6 ≤ data.length := by omega
      by_cases hresp : rtu_resp_check data = true
      · rw [rtu2prim_of_resp_check e data hlen hcode hresp]
        simp
        omega
      · have hresp' : rtu_resp_check data = false := by simpa using hresp
        by_cases hreq : rtu_req_check data = true
        · rw [rtu2prim_of_req_check e data hlen hcode hresp' hreq]
          simp
        · have hreq' : rtu_req_check data = false := by simpa using hreq
          rw [rtu2prim_of_no_check e data hlen hcode hresp' hreq']
          simp [ENODATA]
  · rw [rtu2prim_of_other_code e data (by omega) hcode]
    simp [EINVAL]

theorem rtu_reads_ctrl_wait_not_ok (e : host_endian) (batches : List (List Nat))
    (rtu : osmo_modbus_conn_rtu)
    (hstate : rtu.fi_state = .RTU_TRANSMIT_ST_CTRL_WAIT) (hok : rtu.rx_msg_ok = false) :
    ∃ r, rtu_reads e rtu batches = some r
      ∧ r.fi_state = .RTU_TRANSMIT_ST_CTRL_WAIT ∧ r.rx_msg_ok = false := by
  induction batches generalizing rtu with
  | nil => exact ⟨rtu, rfl, hstate, hok⟩
  | cons b rest ih =>
    unfold rtu_reads
    rw [rtu_read_ctrl_wait e rtu b hstate]
    by_cases hb : b.take (MODBUS_MSGB_SIZE - rtu.rx_msg.length) = []
    · rw [if_pos hb]
      exact ih rtu hstate hok
    · rw [if_neg hb]
      exact ih _ hstate rfl

theorem rtu_reads_ctrl_wait (e : host_endian) (batches : List (List Nat))
    (rtu : osmo_modbus_conn_rtu)
    (hstate : rtu.fi_state = .RTU_TRANSMIT_ST_CTRL_WAIT) :
    ∃ r, rtu_reads e rtu batches = some r
      ∧ r.fi_state = .RTU_TRANSMIT_ST_CTRL_WAIT
      ∧ ((∀ b ∈ batches, b.take (MODBUS_MSGB_SIZE - rtu.rx_msg.length) = []) → r = rtu)
      ∧ (¬ (∀ b ∈ batches, b.take (MODBUS_MSGB_SIZE - rtu.rx_msg.length) = [])
          → r.rx_msg_ok = false) := by
  induction batches with
  | nil => exact ⟨rtu, rfl, hstate, fun _ => rfl, fun h => absurd (by simp) h⟩
  | cons b rest ih =>
    unfold rtu_reads
    rw [rtu_read_ctrl_wait e rtu b hstate]
    by_cases hb : b.take (MODBUS_MSGB_SIZE - rtu.rx_msg.length) = []
    · rw [if_pos hb]
      obtain ⟨r, hr, hst, hall, hnot⟩ := ih
      refine ⟨r, hr, hst, ?_, ?_⟩
      · intro h
        exact hall (fun x hx => h x (List.mem_cons_of_mem _ hx))
      · intro h
        apply hnot
        intro hrest
        apply h
        intro x hx
        rcases List.mem_cons.1 hx with rfl | hx
        · exact hb
        · exact hrest x hx
    · rw [if_neg hb]
      obtain ⟨r, hr, hst, hok⟩ := rtu_reads_ctrl_wait_not_ok e rest
        { rtu with
          rx_msg := rtu.rx_msg ++ b.take (MODBUS_MSGB_SIZE - rtu.rx_msg.length)
          rx_msg_ok := false } hstate rfl
      refine ⟨r, hr, hst, ?_, fun _ => hok⟩
      intro h
      exact absurd (h b (List.mem_cons_self _ _)) hb

/-- C28: the RTU FSM leaves RECEPTION on the T1.5 timeout, the serial line becomes
readable any number of times while it is in CTRL_WAIT, and the T3.5 timeout arrives.
Every step returns, the receive buffer is then empty and the FSM in IDLE, and a
primitive is forwarded to the connection if and only if the buffer had at least two
bytes on entry to CTRL_WAIT, the last two being the CRC of the bytes before them, no
read stored a byte (a read that stores a byte is what dispatches CHAR_RECEIVED; it
stores none only when the 256 bytes of the buffer are used up), and `rtu2prim` returns
a value that is not negative on the buffer; the primitive forwarded is the one
`rtu2prim` decodes. The baud rate is not zero. -/
theorem ctrl_wait_frame_promotion (e : host_endian) (rtu0 : osmo_modbus_conn_rtu)
    (batches : List (List Nat))
    (hstate : rtu0.fi_state = .RTU_TRANSMIT_ST_RECEPTION)
    (hbaud : rtu0.baudrate ≠ 0) :
    ∃ rtu1 rtu2 rtu3 fwd,
      rtu_transmit_fsm_dispatch e rtu0 .RTU_TRANSMIT_EV_T15_TIMEOUT = some (0, rtu1, none)
      ∧ rtu1.fi_state = .RTU_TRANSMIT_ST_CTRL_WAIT
      ∧ rtu1.rx_msg = rtu0.rx_msg
      ∧ rtu_reads e rtu1 batches = some rtu2
      ∧ rtu2.fi_state = .RTU_TRANSMIT_ST_CTRL_WAIT
      ∧ rtu_transmit_fsm_dispatch e rtu2 .RTU_TRANSMIT_EV_T35_TIMEOUT = some (0, rtu3, fwd)
      ∧ rtu3.rx_msg = []
      ∧ rtu3.fi_state = .RTU_TRANSMIT_ST_IDLE
      ∧ (fwd.isSome = true ↔
          (2 ≤ rtu0.rx_msg.length
            ∧ rtu_crc_matches rtu0.rx_msg (rtu0.rx_msg.length - 2) = true)
          ∧ (∀ b ∈ batches, b.take (MODBUS_MSGB_SIZE - rtu0.rx_msg.length) = [])
          ∧ 0 ≤ (rtu2prim e rtu2.rx_msg).1)
      ∧ (fwd.isSome = true → fwd = (rtu2prim e rtu0.rx_msg).2) := by
  have h1 := rtu_dispatch_t15_reception e rtu0 hstate hbaud
  obtain ⟨rtu2, h2, hst2, hall, hnot⟩ := rtu_reads_ctrl_wait e batches
    { rtu0 with
      fi_state := .RTU_TRANSMIT_ST_CTRL_WAIT
      fi_timer := some (35, ((((rtu0.T35 : Nat) : Int)
        + -1 * ((rtu_chars2bits 1500000 / rtu0.baudrate : Nat) : Int))
          % (2 ^ 64 : Int)).toNat)
      rx_msg_ok := decide (2 ≤ rtu0.rx_msg.length)
        && rtu_crc_matches rtu0.rx_msg (rtu0.rx_msg.length - 2) } rfl
  have h3 := rtu_dispatch_t35_ctrl_wait e rtu2 hst2
  refine ⟨_, rtu2, _, _, h1, rfl, rfl, h2, hst2, h3, rfl, rfl, ?_, ?_⟩
  · by_cases hb : ∀ b ∈ batches, b.take (MODBUS_MSGB_SIZE - rtu0.rx_msg.length) = []
    · have heq := hall hb
      subst heq
      simp only [Bool.and_eq_true, decide_eq_true_eq]
      constructor
      · intro hf
        split at hf
        · rename_i hc
          exact ⟨hc.1, hb, hc.2⟩
        · simp at hf
      · rintro ⟨hc, _, hrc⟩
        rw [if_pos ⟨hc, hrc⟩]
        exact (rtu2prim_nonneg_iff e _).1 hrc
    · have hok := hnot hb
      constructor
      · intro hf
        rw [hok] at hf
        simp at hf
      · rintro ⟨_, hb', _⟩
        exact absurd hb' hb
  · intro hf
    by_cases hb : ∀ b ∈ batches, b.take (MODBUS_MSGB_SIZE - rtu0.rx_msg.length) = []
    · have heq := hall hb
      subst heq
      split at hf
      · rename_i hc
        rw [if_pos hc]
      · simp at hf
    · have hok := hnot hb
      rw [hok] at hf
      simp at hf

theorem ctrl_wait_frame_promotion_witness :
    ∃ rtu1 rtu2 rtu3 fwd,
      rtu_transmit_fsm_dispatch .big
          { osmo_modbus_conn_rtu_alloc with
            fi_state := .RTU_TRANSMIT_ST_RECEPTION
            rx_msg := [0x01, 0x03, 0x02, 0x00, 0x7B, 0xF8, 0x67] }
          .RTU_TRANSMIT_EV_T15_TIMEOUT = some (0, rtu1, none)
      ∧ rtu_reads .big rtu1 [[0x00]] = some rtu2
      ∧ rtu_transmit_fsm_dispatch .big rtu2 .RTU_TRANSMIT_EV_T35_TIMEOUT
          = some (0, rtu3, fwd)
      ∧ rtu3.rx_msg = []
      ∧ rtu3.fi_state = .RTU_TRANSMIT_ST_IDLE
      ∧ fwd = none := by
  obtain ⟨rtu1, rtu2, rtu3, fwd, h1, _, _, h2, _, h3, hrx, hst, hiff, _⟩ :=
    ctrl_wait_frame_promotion .big
      { osmo_modbus_conn_rtu_alloc with
        fi_state := .RTU_TRANSMIT_ST_RECEPTION
        rx_msg := [0x01, 0x03, 0x02, 0x00, 0x7B, 0xF8, 0x67] }
      [[0x00]] rfl (by decide)
  refine ⟨rtu1, rtu2, rtu3, fwd, h1, h2, h3, hrx, hst, ?_⟩
  cases hf : fwd with
  | none => rfl
  | some p =>
    have hs : fwd.isSome = true := by rw [hf]; rfl
    have hall := (hiff.1 hs).2.1 [0x00] (List.mem_singleton.2 rfl)
    exact absurd hall (by decide)

/-! ## A frame from the serial line to the application -/

theorem rtu_read_idle_empty (e : host_endian) (rtu : osmo_modbus_conn_rtu)
    (bytes : List Nat) (hstate : rtu.fi_state = .RTU_TRANSMIT_ST_IDLE)
    (hrx : rtu.rx_msg = []) (hne : bytes ≠ []) (hlen : bytes.length ≤ MODBUS_MSGB_SIZE) :
    rtu_read e rtu bytes =
      some (rtu_transmit_fsm_set_state { rtu with rx_msg := bytes }
        .RTU_TRANSMIT_ST_RECEPTION) := by
  obtain ⟨dev_path, baudrate, ofd_fd, ofd_when_write, rx_msg, rx_msg_ok, tx_msg, T15, T35,
    fi_state, fi_timer⟩ := rtu
  simp only at hstate hrx
  subst hstate hrx
  unfold rtu_read
  simp only [List.length_nil, Nat.sub_zero, List.take_of_length_le hlen, List.nil_append,
    if_neg hne]
  simp [rtu_transmit_fsm_dispatch, rtu_transmit_states_in_event_mask,
    rtu_transmit_fsm_state_chg, rtu_transmit_states_out_state_mask]

theorem rtu_timer_expired_t15 (e : host_endian) (rtu : osmo_modbus_conn_rtu) (t : Nat)
    (htimer : rtu.fi_timer = some (15, t))
    (hstate : rtu.fi_state = .RTU_TRANSMIT_ST_RECEPTION) (hbaud : rtu.baudrate ≠ 0) :
    rtu_timer_expired e rtu =
      some ({ rtu with
          fi_state := .RTU_TRANSMIT_ST_CTRL_WAIT
          fi_timer := some (35, ((((rtu.T35 : Nat) : Int)
            + -1 * ((rtu_chars2bits 1500000 / rtu.baudrate : Nat) : Int))
              % (2 ^ 64 : Int)).toNat)
          rx_msg_ok := decide (2 ≤ rtu.rx_msg.length)
            && rtu_crc_matches rtu.rx_msg (rtu.rx_msg.length - 2) }, none) := by
  unfold rtu_timer_expired
  rw [htimer]
  simp only [rtu_transmit_fsm_timer_cb, if_true]
  rw [rtu_dispatch_t15_reception e { rtu with fi_timer := none } hstate hbaud]
  rfl

theorem rtu_timer_expired_t35 (e : host_endian) (rtu : osmo_modbus_conn_rtu) (t : Nat)
    (htimer : rtu.fi_timer = some (35, t))
    (hstate : rtu.fi_state = .RTU_TRANSMIT_ST_CTRL_WAIT) :
    rtu_timer_expired e rtu =
      some ({ rtu with
          fi_state := .RTU_TRANSMIT_ST_IDLE
          fi_timer := none
          rx_msg := []
          rx_msg_ok := rtu.rx_msg_ok && decide (0 ≤ (rtu2prim e rtu.rx_msg).1) },
        if rtu.rx_msg_ok = true ∧ 0 ≤ (rtu2prim e rtu.rx_msg).1
          then (rtu2prim e rtu.rx_msg).2 else none) := by
  unfold rtu_timer_expired
  rw [htimer]
  simp only [rtu_transmit_fsm_timer_cb, Nat.reduceEqDiff, if_false, if_true]
  rw [rtu_dispatch_t35_ctrl_wait e { rtu with fi_timer := none } hstate]
  rfl

theorem rx_prim_master_wait_reply (ops : osmo_modbus_proto_ops)
    (c : osmo_modbus_conn) (p : osmo_modbus_prim) (app : List osmo_modbus_prim)
    (hrole : c.role = .OSMO_MODBUS_ROLE_MASTER)
    (hstate : c.fi_state = .CONN_MASTER_ST_WAIT_REPLY) (hcb : c.prim_cb = true) :
    osmo_modbus_conn_rx_prim ops c p app =
      match c.msg_queue ++ conn_requests app with
      | [] => some { c with cb_log := c.cb_log ++ [p]
                            submit_log := c.submit_log ++ conn_requests app
                            msg_queue := []
                            fi_state := .CONN_MASTER_ST_IDLE
                            fi_timer := none }
      | next :: rest =>
        (ops.tx_prim c.proto next).map (fun r =>
          { c with cb_log := c.cb_log ++ [p]
                   submit_log := c.submit_log ++ conn_requests app
                   msg_queue := rest
                   master_req_for_addr := next.address % 65536
                   tx_log := c.tx_log ++ [next]
                   proto := r.2
                   fi_state := .CONN_MASTER_ST_WAIT_REPLY
                   fi_timer := conn_master_noresponse_timer c }) := by
  rw [← conn_master_deliver_and_leave ops c p app hrole hstate hcb]
  simp only [osmo_modbus_conn_rx_prim, hrole, if_true, conn_master_fsm_dispatch_recv_prim,
    hstate, conn_master_states_in_event_mask, Bool.true_eq_false, if_false]
  cases conn_master_deliver ops c p app with
  | none => rfl
  | some c1 =>
    simp only [Option.map_map]
    cases conn_master_fsm_state_chg ops c1 .CONN_MASTER_ST_IDLE <;> rfl

theorem rtu2prim_response_7b (e : host_endian) :
    rtu2prim e [0x01, 0x03, 0x02, 0x00, 0x7B, 0xF8, 0x67] =
      (7, some (osmo_modbus_makeprim_mult_hold_reg_resp 1 1
        (fun _ => host_load16 e 0x00 0x7B))) := by
  cases e <;> decide!

/-- C25, as stated, fails: the bytes 01 03 02 00 7B 78 51 do not end in their CRC (which
is F8 67), so the frame is dropped in CTRL_WAIT: after the read, the T1.5 timeout and
the T3.5 timeout the callback of the master has not been invoked and the master still
waits for the reply. -/
theorem master_inbound_spec_bytes_dropped :
    rtu_crc_matches [0x01, 0x03, 0x02, 0x00, 0x7B, 0x78, 0x51] 5 = false
      ∧ ((conn_rtu_read .big
            { osmo_modbus_conn_alloc .OSMO_MODBUS_ROLE_MASTER with
              fi_state := .CONN_MASTER_ST_WAIT_REPLY
              prim_cb := true
              master_req_for_addr := 1
              proto := { osmo_modbus_conn_rtu_alloc with
                fi_state := .RTU_TRANSMIT_ST_IDLE, ofd_fd := 3 } }
            [0x01, 0x03, 0x02, 0x00, 0x7B, 0x78, 0x51]).bind (fun c1 =>
          (conn_rtu_timer_expired .big (rtu_proto_ops .big ⟨fun _ => true, 3, 0⟩) c1 []).bind
            (fun c2 =>
              conn_rtu_timer_expired .big (rtu_proto_ops .big ⟨fun _ => true, 3, 0⟩)
                c2 []))).map
          (fun c3 => (c3.cb_log, c3.fi_state, c3.proto.fi_state, c3.proto.rx_msg))
        = some ([], .CONN_MASTER_ST_WAIT_REPLY, .RTU_TRANSMIT_ST_IDLE, []) := by
  constructor
  · decide!
  · decide!

/-- C25, amended: with a master in WAIT_REPLY that has a callback and an empty outbound
queue, and the RTU FSM in IDLE with an empty receive buffer, reading the seven bytes
01 03 02 00 7B F8 67 starts the T1.5 timer; its expiry starts the T3.5 timer; and the
expiry of that one invokes the callback once with a response primitive of address 1 and
num_reg 1 whose register is the two data bytes in the byte order of the host: 0x007B on
a big-endian host, 0x7B00 on a little-endian one. The master and the RTU FSM end in
IDLE. -/
theorem master_inbound_response (e : host_endian) (ops : osmo_modbus_proto_ops)
    (c : osmo_modbus_conn)
    (hrole : c.role = .OSMO_MODBUS_ROLE_MASTER)
    (hstate : c.fi_state = .CONN_MASTER_ST_WAIT_REPLY)
    (hcb : c.prim_cb = true)
    (hq : c.msg_queue = [])
    (hrtu : c.proto.fi_state = .RTU_TRANSMIT_ST_IDLE)
    (hrx : c.proto.rx_msg = [])
    (hT15 : 0 < c.proto.T15)
    (hbaud : c.proto.baudrate ≠ 0) :
    ∃ c1 c2 c3 t15 t35,
      conn_rtu_read e c [0x01, 0x03, 0x02, 0x00, 0x7B, 0xF8, 0x67] = some c1
      ∧ c1.proto.fi_timer = some (15, t15)
      ∧ conn_rtu_timer_expired e ops c1 [] = some c2
      ∧ c2.proto.fi_timer = some (35, t35)
      ∧ conn_rtu_timer_expired e ops c2 [] = some c3
      ∧ c3.cb_log = c.cb_log ++ [osmo_modbus_makeprim_mult_hold_reg_resp 1 1
          (fun _ => host_load16 e 0x00 0x7B)]
      ∧ host_load16 .big 0x00 0x7B = 0x007B
      ∧ host_load16 .little 0x00 0x7B = 0x7B00
      ∧ c3.fi_state = .CONN_MASTER_ST_IDLE
      ∧ c3.proto.fi_state = .RTU_TRANSMIT_ST_IDLE
      ∧ c3.proto.rx_msg = []
      ∧ c3.tx_log = c.tx_log := by
  have hs : osmo_tdef_get_us_as_s c.proto.T15 ≠ 0 := by
    unfold osmo_tdef_get_us_as_s
    have : 1 ≤ (c.proto.T15 + 999999) / 1000000 :=
      (Nat.le_div_iff_mul_le (by decide)).2 (by omega)
    omega
  obtain ⟨r1, hread, ht1, hst1, hb1, hrx1⟩ : ∃ r1,
      rtu_read e c.proto [0x01, 0x03, 0x02, 0x00, 0x7B, 0xF8, 0x67] = some r1
        ∧ r1.fi_timer = some (15, osmo_tdef_get_us_as_s c.proto.T15 * 1000000)
        ∧ r1.fi_state = .RTU_TRANSMIT_ST_RECEPTION
        ∧ r1.baudrate ≠ 0
        ∧ r1.rx_msg = [0x01, 0x03, 0x02, 0x00, 0x7B, 0xF8, 0x67] :=
    ⟨_, rtu_read_idle_empty e c.proto _ hrtu hrx (by decide) (by decide),
      by simp [rtu_transmit_fsm_set_state, rtu_transmit_fsm_timeouts,
        osmo_modbus_conn_rtu.T_defs, hs],
      rfl, hbaud, rfl⟩
  obtain ⟨r2, t35, hexp1, ht2, hst2, hrx2, hok2⟩ : ∃ r2 t35,
      rtu_timer_expired e r1 = some (r2, none)
        ∧ r2.fi_timer = some (35, t35)
        ∧ r2.fi_state = .RTU_TRANSMIT_ST_CTRL_WAIT
        ∧ r2.rx_msg = [0x01, 0x03, 0x02, 0x00, 0x7B, 0xF8, 0x67]
        ∧ r2.rx_msg_ok = true := by
    refine ⟨_, _, rtu_timer_expired_t15 e r1 _ ht1 hst1 hb1, rfl, rfl, hrx1, ?_⟩
    simp only [hrx1]
    decide!
  have hprim := rtu2prim_response_7b e
  have key : ∀ (r3 : osmo_modbus_conn_rtu) (p : osmo_modbus_prim),
      osmo_modbus_conn_rx_prim ops { c with proto := r3 } p [] =
        some { c with proto := r3
                      cb_log := c.cb_log ++ [p]
                      msg_queue := []
                      fi_state := .CONN_MASTER_ST_IDLE
                      fi_timer := none } := by
    intro r3 p
    rw [rx_prim_master_wait_reply ops { c with proto := r3 } p [] hrole hstate hcb]
    simp only [hq, conn_requests, List.filter_nil, List.append_nil]
  obtain ⟨c3, h3, hcb3, hst3, hp3, hrx3, htx3⟩ : ∃ c3,
      conn_rtu_timer_expired e ops { c with proto := r2 } [] = some c3
        ∧ c3.cb_log = c.cb_log ++ [osmo_modbus_makeprim_mult_hold_reg_resp 1 1
            (fun _ => host_load16 e 0x00 0x7B)]
        ∧ c3.fi_state = .CONN_MASTER_ST_IDLE
        ∧ c3.proto.fi_state = .RTU_TRANSMIT_ST_IDLE
        ∧ c3.proto.rx_msg = []
        ∧ c3.tx_log = c.tx_log := by
    unfold conn_rtu_timer_expired
    simp only []
    rw [rtu_timer_expired_t35 e r2 t35 ht2 hst2]
    simp only [hrx2, hok2, hprim, Bool.true_and, decide_True, Int.reduceLE, and_self,
      if_true]
    rw [key]
    exact ⟨_, rfl, rfl, rfl, rfl, rfl, rfl⟩
  refine ⟨{ c with proto := r1 }, { c with proto := r2 }, c3, _, t35, ?_, ht1, ?_, ht2, h3,
    hcb3, rfl, rfl, hst3, hp3, hrx3, htx3⟩
  · unfold conn_rtu_read
    rw [hread]
    rfl
  · unfold conn_rtu_timer_expired
    simp only []
    rw [hexp1]

theorem master_inbound_response_witness :
    ∃ c1 c2 c3,
      conn_rtu_read .little
          { osmo_modbus_conn_alloc .OSMO_MODBUS_ROLE_MASTER with
            fi_state := .CONN_MASTER_ST_WAIT_REPLY
            prim_cb := true
            master_req_for_addr := 1
            proto := { osmo_modbus_conn_rtu_alloc with
              fi_state := .RTU_TRANSMIT_ST_IDLE, ofd_fd := 3 } }
          [0x01, 0x03, 0x02, 0x00, 0x7B, 0xF8, 0x67] = some c1
      ∧ conn_rtu_timer_expired .little (rtu_proto_ops .little ⟨fun _ => true, 3, 0⟩) c1 []
          = some c2
      ∧ conn_rtu_timer_expired .little (rtu_proto_ops .little ⟨fun _ => true, 3, 0⟩) c2 []
          = some c3
      ∧ c3.cb_log = [osmo_modbus_makeprim_mult_hold_reg_resp 1 1 (fun _ => 0x7B00)] := by
  obtain ⟨c1, c2, c3, _, _, h1, _, h2, _, h3, hcb, _⟩ :=
    master_inbound_response .little (rtu_proto_ops .little ⟨fun _ => true, 3, 0⟩)
      { osmo_modbus_conn_alloc .OSMO_MODBUS_ROLE_MASTER with
        fi_state := .CONN_MASTER_ST_WAIT_REPLY
        prim_cb := true
        master_req_for_addr := 1
        proto := { osmo_modbus_conn_rtu_alloc with
          fi_state := .RTU_TRANSMIT_ST_IDLE, ofd_fd := 3 } }
      rfl rfl rfl rfl rfl rfl (by decide) (by decide)
  exact ⟨c1, c2, c3, h1, h2, h3, hcb⟩

/-! ## The transmit buffer of the endpoint -/

/-- C30: the assertion `OSMO_ASSERT(!rtu->tx_msg)` of `osmo_modbus_conn_rtu_tx_prim` can
fail. A master connects (the RTU FSM is in INITIAL) and a request is submitted at once:
the frame is stored in `tx_msg`, the demand of emission is rejected with -1, a value the
connection ignores, and the write flag is never set, so nothing takes the frame out
again. The T3.5 timer of the RTU FSM expires (IDLE), the no-response timer of the
master expires (the application is told of the timeout, the master is in IDLE), and
the next request submitted reaches `osmo_modbus_conn_rtu_tx_prim` with `tx_msg` still
set: the program aborts. -/
theorem tx_prim_assertion_fails :
    (osmo_modbus_conn_connect (rtu_proto_ops .little ⟨fun _ => true, 3, 0⟩)
        { osmo_modbus_conn_alloc .OSMO_MODBUS_ROLE_MASTER with
          prim_cb := true
          proto := { osmo_modbus_conn_rtu_alloc with dev_path := some "/dev/ttyUSB0" } }).map
        (fun r1 => (r1.1, r1.2.fi_state, r1.2.proto.fi_state))
      = some (0, .CONN_MASTER_ST_IDLE, .RTU_TRANSMIT_ST_INITIAL)
    ∧ ((osmo_modbus_conn_connect (rtu_proto_ops .little ⟨fun _ => true, 3, 0⟩)
        { osmo_modbus_conn_alloc .OSMO_MODBUS_ROLE_MASTER with
          prim_cb := true
          proto := { osmo_modbus_conn_rtu_alloc with dev_path := some "/dev/ttyUSB0" } }).bind
      (fun r1 =>
        osmo_modbus_conn_submit_prim (rtu_proto_ops .little ⟨fun _ => true, 3, 0⟩) r1.2
          (osmo_modbus_makeprim_mult_hold_reg_req 1 0x000C 1))).map
        (fun r2 => (r2.1, r2.2.fi_state, r2.2.proto.fi_state, r2.2.proto.ofd_when_write))
      = some (0, .CONN_MASTER_ST_WAIT_REPLY, .RTU_TRANSMIT_ST_INITIAL, false)
    ∧ ((osmo_modbus_conn_connect (rtu_proto_ops .little ⟨fun _ => true, 3, 0⟩)
        { osmo_modbus_conn_alloc .OSMO_MODBUS_ROLE_MASTER with
          prim_cb := true
          proto := { osmo_modbus_conn_rtu_alloc with dev_path := some "/dev/ttyUSB0" } }).bind
      (fun r1 =>
        (osmo_modbus_conn_submit_prim (rtu_proto_ops .little ⟨fun _ => true, 3, 0⟩) r1.2
          (osmo_modbus_makeprim_mult_hold_reg_req 1 0x000C 1)).bind
        (fun r2 =>
          (conn_rtu_timer_expired .little (rtu_proto_ops .little ⟨fun _ => true, 3, 0⟩)
            r2.2 []).bind
          (fun c3 =>
            conn_master_timer_expired (rtu_proto_ops .little ⟨fun _ => true, 3, 0⟩)
              c3 [])))).map
        (fun c4 =>
          (c4.fi_state, c4.proto.fi_state, c4.proto.tx_msg,
            (osmo_modbus_conn_submit_prim (rtu_proto_ops .little ⟨fun _ => true, 3, 0⟩) c4
              (osmo_modbus_makeprim_mult_hold_reg_req 1 0x000C 1)).isNone))
      = some (.CONN_MASTER_ST_IDLE, .RTU_TRANSMIT_ST_IDLE,
          some [0x01, 0x03, 0x00, 0x0C, 0x00, 0x01, 0x44, 0x09], true) := by
  refine ⟨?_, ?_, ?_⟩
  · decide!
  · decide!
  · decide!

/-! ## The timers armed by the `onenter` functions -/

theorem rearm_timer_with_factor_add (rtu : osmo_modbus_conn_rtu) (T f : Nat)
    (h : rtu.T_defs T + f < 2 ^ 64) :
    rearm_timer_with_factor rtu T ((f : Nat) : Int)
      = { rtu with fi_timer := some (T, rtu.T_defs T + f) } := by
  unfold rearm_timer_with_factor
  have h1 : (((rtu.T_defs T : Nat) : Int) + ((f : Nat) : Int)) % (2 ^ 64 : Int)
      = ((rtu.T_defs T + f : Nat) : Int) := by
    rw [← Int.ofNat_add]
    apply Int.emod_eq_of_lt (Int.ofNat_nonneg _)
    exact_mod_cast h
  simp only [h1, Int.toNat_ofNat]

theorem rearm_timer_with_factor_sub (rtu : osmo_modbus_conn_rtu) (T f : Nat)
    (hf : f ≤ rtu.T_defs T) (h : rtu.T_defs T < 2 ^ 64) :
    rearm_timer_with_factor rtu T (-1 * ((f : Nat) : Int))
      = { rtu with fi_timer := some (T, rtu.T_defs T - f) } := by
  unfold rearm_timer_with_factor
  have h1 : (((rtu.T_defs T : Nat) : Int) + -1 * ((f : Nat) : Int)) % (2 ^ 64 : Int)
      = ((rtu.T_defs T - f : Nat) : Int) := by
    have h2 : ((rtu.T_defs T : Nat) : Int) + -1 * ((f : Nat) : Int)
        = ((rtu.T_defs T - f : Nat) : Int) := by
      rw [Int.ofNat_sub hf]
      ring
    rw [h2]
    apply Int.emod_eq_of_lt (Int.ofNat_nonneg _)
    have : rtu.T_defs T - f < 2 ^ 64 := by omega
    exact_mod_cast this
  simp only [h1, Int.toNat_ofNat]

theorem rtu_dispatch_demand_idle (e : host_endian) (rtu : osmo_modbus_conn_rtu)
    (msg : List Nat)
    (hstate : rtu.fi_state = .RTU_TRANSMIT_ST_IDLE) (htx : rtu.tx_msg = some msg)
    (hb : rtu.baudrate ≠ 0)
    (hsum : rtu.T35 + msg.length * 11 * 1000000 / rtu.baudrate < 2 ^ 64) :
    rtu_transmit_fsm_dispatch e rtu .RTU_TRANSMIT_EV_DEMAND_OF_EMISSION =
      some (0, { rtu with
          fi_state := .RTU_TRANSMIT_ST_EMISSION
          ofd_when_write := true
          fi_timer := some (35, rtu.T35 + msg.length * 11 * 1000000 / rtu.baudrate) },
        none) := by
  obtain ⟨dev_path, baudrate, ofd_fd, ofd_when_write, rx_msg, rx_msg_ok, tx_msg, T15, T35,
    fi_state, fi_timer⟩ := rtu
  simp only at hstate htx hb hsum
  subst hstate htx
  simp only [rtu_transmit_fsm_dispatch, rtu_transmit_states_in_event_mask,
    rtu_transmit_fsm_state_chg, rtu_transmit_states_out_state_mask,
    rtu_transmit_fsm_st_emission_onenter, rtu_transmit_fsm_set_state,
    rtu_transmit_fsm_timeouts, rtu_chars2bits, Bool.true_eq_false, if_false, if_neg hb,
    if_true, Option.map_some']
  rw [rearm_timer_with_factor_add _ 35 _ (by simpa [osmo_modbus_conn_rtu.T_defs] using hsum)]
  simp [osmo_modbus_conn_rtu.T_defs]

theorem rtu_timer_expired_t35_dispatch (e : host_endian) (rtu : osmo_modbus_conn_rtu)
    (t : Nat) (htimer : rtu.fi_timer = some (35, t)) :
    rtu_timer_expired e rtu =
      (rtu_transmit_fsm_dispatch e { rtu with fi_timer := none }
        .RTU_TRANSMIT_EV_T35_TIMEOUT).map (fun r => r.2) := by
  unfold rtu_timer_expired
  rw [htimer]
  simp only [rtu_transmit_fsm_timer_cb, Nat.reduceEqDiff, if_false, if_true]

theorem rtu_dispatch_t35_emission (e : host_endian) (rtu : osmo_modbus_conn_rtu)
    (hstate : rtu.fi_state = .RTU_TRANSMIT_ST_EMISSION) :
    rtu_transmit_fsm_dispatch e rtu .RTU_TRANSMIT_EV_T35_TIMEOUT =
      some (0, { rtu with fi_state := .RTU_TRANSMIT_ST_IDLE, fi_timer := none }, none) := by
  obtain ⟨dev_path, baudrate, ofd_fd, ofd_when_write, rx_msg, rx_msg_ok, tx_msg, T15, T35,
    fi_state, fi_timer⟩ := rtu
  simp only at hstate
  subst hstate
  simp only [rtu_transmit_fsm_dispatch, rtu_transmit_states_in_event_mask,
    rtu_transmit_fsm_state_chg, rtu_transmit_states_out_state_mask,
    rtu_transmit_fsm_set_state_idle, Bool.true_eq_false, if_false, Option.map_some']

/-- C35: a demand of emission in IDLE with a pending frame of L bytes at a baud rate b of
at least 1 enters EMISSION, sets the write flag and arms the timer with `fi->T` = 35 for
T3.5 + floor(L * 11 * 1000000 / b) microseconds (the sum fits an `unsigned long`); the
expiry of that timer is the dispatch of `RTU_TRANSMIT_EV_T35_TIMEOUT`, which leaves
EMISSION for IDLE. -/
theorem emission_timeout (e : host_endian) (rtu : osmo_modbus_conn_rtu) (msg : List Nat)
    (hstate : rtu.fi_state = .RTU_TRANSMIT_ST_IDLE) (htx : rtu.tx_msg = some msg)
    (hb : 1 ≤ rtu.baudrate)
    (hsum : rtu.T35 + msg.length * 11 * 1000000 / rtu.baudrate < 2 ^ 64) :
    ∃ r r',
      rtu_transmit_fsm_dispatch e rtu .RTU_TRANSMIT_EV_DEMAND_OF_EMISSION = some (0, r, none)
      ∧ r.fi_state = .RTU_TRANSMIT_ST_EMISSION
      ∧ r.ofd_when_write = true
      ∧ r.fi_timer = some (35, rtu.T35 + msg.length * 11 * 1000000 / rtu.baudrate)
      ∧ rtu_timer_expired e r =
          (rtu_transmit_fsm_dispatch e { r with fi_timer := none }
            .RTU_TRANSMIT_EV_T35_TIMEOUT).map (fun x => x.2)
      ∧ rtu_timer_expired e r = some (r', none)
      ∧ r'.fi_state = .RTU_TRANSMIT_ST_IDLE := by
  have h1 := rtu_dispatch_demand_idle e rtu msg hstate htx (by omega) hsum
  have h2 := rtu_timer_expired_t35_dispatch e
    { rtu with
      fi_state := .RTU_TRANSMIT_ST_EMISSION
      ofd_when_write := true
      fi_timer := some (35, rtu.T35 + msg.length * 11 * 1000000 / rtu.baudrate) } _ rfl
  refine ⟨_, { rtu with
      fi_state := .RTU_TRANSMIT_ST_IDLE
      ofd_when_write := true
      fi_timer := none }, h1, rfl, rfl, rfl, h2, ?_, rfl⟩
  rw [h2, rtu_dispatch_t35_emission e _ rfl]
  rfl

theorem emission_timeout_witness :
    ∃ r r',
      rtu_transmit_fsm_dispatch .little
          { osmo_modbus_conn_rtu_alloc with
            fi_state := .RTU_TRANSMIT_ST_IDLE
            tx_msg := some [0x01, 0x03, 0x00, 0x0C, 0x00, 0x01, 0x44, 0x09] }
          .RTU_TRANSMIT_EV_DEMAND_OF_EMISSION = some (0, r, none)
      ∧ r.fi_timer = some (35, 13176)
      ∧ rtu_timer_expired .little r = some (r', none)
      ∧ r'.fi_state = .RTU_TRANSMIT_ST_IDLE := by
  obtain ⟨r, r', h1, _, _, ht, _, h3, h4⟩ :=
    emission_timeout .little
      { osmo_modbus_conn_rtu_alloc with
        fi_state := .RTU_TRANSMIT_ST_IDLE
        tx_msg := some [0x01, 0x03, 0x00, 0x0C, 0x00, 0x01, 0x44, 0x09] }
      [0x01, 0x03, 0x00, 0x0C, 0x00, 0x01, 0x44, 0x09] rfl rfl (by decide) (by decide)
  exact ⟨r, r', h1, ht, h3, h4⟩

theorem ctrlwait_onenter_timer (rtu : osmo_modbus_conn_rtu) (hb : rtu.baudrate ≠ 0)
    (hq : 16500000 / rtu.baudrate ≤ rtu.T35) (hT : rtu.T35 < 2 ^ 64) :
    ∃ r, rtu_transmit_fsm_st_ctrlwait_onenter rtu = some r
      ∧ r.fi_timer = some (35, rtu.T35 - 16500000 / rtu.baudrate) := by
  unfold rtu_transmit_fsm_st_ctrlwait_onenter
  rw [if_neg hb]
  have hc : rtu_chars2bits 1500000 = 16500000 := rfl
  simp only [hc]
  rw [rearm_timer_with_factor_sub rtu 35 (16500000 / rtu.baudrate)
    (by simpa [osmo_modbus_conn_rtu.T_defs] using hq)
    (by simpa [osmo_modbus_conn_rtu.T_defs] using hT)]
  split
  · exact ⟨_, rfl, by simp [osmo_modbus_conn_rtu.T_defs]⟩
  · exact ⟨_, rfl, by simp [osmo_modbus_conn_rtu.T_defs]⟩

theorem recalc_baudrate_timers_bounds (rtu : osmo_modbus_conn_rtu) (hb : 1 ≤ rtu.baudrate) :
    16500000 / rtu.baudrate < (recalc_baudrate_timers rtu).T35
      ∧ (recalc_baudrate_timers rtu).T35 ≤ 38500000 := by
  obtain ⟨_, hlow, hhigh⟩ := recalc_baudrate_timers_values rtu
  by_cases h : rtu.baudrate ≤ 19200
  · obtain ⟨h1, h2⟩ := hlow h
    have hlt := recalc_baudrate_timers_lt rtu hb
    rw [h1] at hlt
    refine ⟨hlt, ?_⟩
    rw [h2]
    exact Nat.div_le_self _ _
  · obtain ⟨_, h2⟩ := hhigh (by omega)
    rw [h2]
    refine ⟨?_, by norm_num⟩
    apply (Nat.div_lt_iff_lt_mul (by omega)).2
    omega

/-- C40: for every baud rate b of at least 1, with T3.5 as `recalc_baudrate_timers`
computes it for b, the amount floor(16500000 / b) that
`rtu_transmit_fsm_st_ctrlwait_onenter` subtracts is strictly smaller than T3.5; the
function returns with the timer `fi->T` = 35 armed for T3.5 - floor(16500000 / b)
microseconds, a value that is at least 1 and at most T3.5: the `unsigned long` does not
wrap. -/
theorem ctrl_wait_timer_no_wrap (rtu : osmo_modbus_conn_rtu) (hb : 1 ≤ rtu.baudrate) :
    16500000 / rtu.baudrate < (recalc_baudrate_timers rtu).T35
      ∧ ∃ r, rtu_transmit_fsm_st_ctrlwait_onenter (recalc_baudrate_timers rtu) = some r
        ∧ r.fi_timer
          = some (35, (recalc_baudrate_timers rtu).T35 - 16500000 / rtu.baudrate)
        ∧ 1 ≤ (recalc_baudrate_timers rtu).T35 - 16500000 / rtu.baudrate
        ∧ (recalc_baudrate_timers rtu).T35 - 16500000 / rtu.baudrate
          ≤ (recalc_baudrate_timers rtu).T35 := by
  obtain ⟨hlt, hmax⟩ := recalc_baudrate_timers_bounds rtu hb
  have hbaud : (recalc_baudrate_timers rtu).baudrate = rtu.baudrate :=
    (recalc_baudrate_timers_values rtu).1
  obtain ⟨r, hr, ht⟩ := ctrlwait_onenter_timer (recalc_baudrate_timers rtu)
    (by rw [hbaud]; omega) (by rw [hbaud]; exact Nat.le_of_lt hlt)
    (Nat.lt_of_le_of_lt hmax (by norm_num))
  rw [hbaud] at ht
  refine ⟨hlt, r, hr, ht, ?_, Nat.sub_le _ _⟩
  exact Nat.sub_pos_of_lt hlt

theorem ctrl_wait_timer_no_wrap_witness :
    16500000 / 9600 < osmo_modbus_conn_rtu_alloc.T35
      ∧ ∃ r, rtu_transmit_fsm_st_ctrlwait_onenter osmo_modbus_conn_rtu_alloc = some r
        ∧ r.fi_timer = some (35, 2292)
        ∧ 1 ≤ 2292
        ∧ 2292 ≤ 4010 :=
  ctrl_wait_timer_no_wrap
    { dev_path := none
      baudrate := 9600
      ofd_fd := -1
      ofd_when_write := false
      rx_msg := []
      rx_msg_ok := false
      tx_msg := none
      T15 := g_rtu_tdefs_default_val
      T35 := g_rtu_tdefs_default_val
      fi_state := .RTU_TRANSMIT_ST_INITIAL
      fi_timer := none } (by decide)

/-- C36: the timeout armed on entering CTRL_WAIT is T3.5 minus floor(16500000 / b), one
and a half character times at the baud rate, and not T3.5 minus the configured T1.5.
The two agree up to 19200 baud; at 38400 baud, where `recalc_baudrate_timers` sets the
fixed values T1.5 = 750 and T3.5 = 1750, the timer is armed for 1321 microseconds and
not for the 1000 that remain until T3.5. -/
theorem ctrl_wait_timer_above_19200 :
    (recalc_baudrate_timers { osmo_modbus_conn_rtu_alloc with baudrate := 38400 }).T15 = 750
      ∧ (recalc_baudrate_timers
          { osmo_modbus_conn_rtu_alloc with baudrate := 38400 }).T35 = 1750
      ∧ (rtu_transmit_fsm_st_ctrlwait_onenter
          (recalc_baudrate_timers
            { osmo_modbus_conn_rtu_alloc with baudrate := 38400 })).map
          (fun r => r.fi_timer) = some (some (35, 1321))
      ∧ (rtu_transmit_fsm_st_ctrlwait_onenter
          (recalc_baudrate_timers
            { osmo_modbus_conn_rtu_alloc with baudrate := 19200 })).map
          (fun r => r.fi_timer) = some (some (35, 2005 - 859)) := by
  refine ⟨by decide, by decide, ?_, ?_⟩
  · decide!
  · decide!

/-! ## The decoder stays inside the buffer -/

theorem rtu2prim_attempt_reads_lt (data : List Nat) (n i : Nat)
    (hi : i ∈ rtu2prim_attempt_reads data n) : i < data.length := by
  unfold rtu2prim_attempt_reads at hi
  split at hi
  · rename_i hlen
    simp only [RTU_CRC_LEN, ge_iff_le] at hlen
    simp only [List.mem_append, List.mem_range, List.mem_cons, List.mem_singleton,
      List.not_mem_nil, or_false] at hi
    omega
  · simp at hi

/-- C38: for every buffer of at most 256 bytes, every index that `rtu2prim` reads (the
header, the byte count, the bytes given to `crc16`, the two CRC bytes compared, the
register bytes copied into a response primitive and the fields of a request) is smaller
than the length of the buffer; for the byte counts 253 to 255, where the 8-bit expected
length wraps around, the CRC comparison fails and no register is copied. -/
theorem rtu2prim_reads_in_bounds (data : List Nat) (hlen : data.length ≤ 256)
    (hbytes : ∀ x ∈ data, x < 256) :
    (∀ i ∈ rtu2prim_reads data, i < data.length)
      ∧ (253 ≤ data.getD 2 0 → 4 ≤ data.length → data.getD 1 0 = 0x03 →
          rtu_resp_check data = false) := by
  refine ⟨?_, fun hbc h4 hcode => rtu_resp_check_wrap data hbytes h4 hcode hbc⟩
  intro i hi
  unfold rtu2prim_reads at hi
  simp only [RTU_HDR_LEN, OSMO_MODBUS_FUNC_READ_MULT_HOLD_REG] at hi
  split at hi
  · simp at hi
  · rename_i h2
    split at hi
    · rename_i hcode
      split at hi
      · simp only [List.mem_cons, List.mem_singleton, List.not_mem_nil, or_false] at hi
        omega
      · rename_i h6
        split at hi
        · rename_i hresp
          obtain ⟨_, _, h5⟩ := rtu_resp_check_byte_count data hlen hbytes (by omega) hcode
            hresp
          simp only [List.mem_append, List.mem_cons, List.mem_singleton, List.not_mem_nil,
            or_false, List.mem_map, List.mem_range] at hi
          rcases hi with ((hi | hi) | hi) | ⟨k, hk, rfl⟩
          · omega
          · omega
          · exact rtu2prim_attempt_reads_lt data _ i hi
          · have : data.getD 2 0 / 2 * 2 ≤ data.getD 2 0 := Nat.div_mul_le_self _ _
            omega
        · split at hi
          · rename_i hreq
            have h8 : 8 ≤ data.length := by
              simp only [rtu_req_check, RTU_HDR_LEN, RTU_CRC_LEN, Bool.and_eq_true,
                decide_eq_true_eq] at hreq
              omega
            simp only [List.mem_append, List.mem_cons, List.mem_singleton, List.not_mem_nil,
              or_false] at hi
            rcases hi with (((hi | hi) | hi) | hi) | hi
            · omega
            · omega
            · exact rtu2prim_attempt_reads_lt data _ i hi
            · exact rtu2prim_attempt_reads_lt data _ i hi
            · omega
          · simp only [List.mem_append, List.mem_cons, List.mem_singleton, List.not_mem_nil,
              or_false] at hi
            rcases hi with ((hi | hi) | hi) | hi
            · omega
            · omega
            · exact rtu2prim_attempt_reads_lt data _ i hi
            · exact rtu2prim_attempt_reads_lt data _ i hi
    · simp only [List.mem_cons, List.mem_singleton, List.not_mem_nil, or_false] at hi
      omega

theorem rtu2prim_reads_in_bounds_witness :
    (∀ i ∈ rtu2prim_reads [0x01, 0x03, 0xFF, 0x00, 0x00, 0x00], i < 6)
      ∧ (253 ≤ 0xFF → 4 ≤ 6 → 0x03 = 0x03 →
          rtu_resp_check [0x01, 0x03, 0xFF, 0x00, 0x00, 0x00] = false) :=
  rtu2prim_reads_in_bounds [0x01, 0x03, 0xFF, 0x00, 0x00, 0x00] (by decide) (by decide)

/-! ## What the end of CTRL_WAIT accepts -/

/-- The length `rtu2prim` reports when it returns a primitive: the frame it decoded is a
prefix of the buffer that ends in its own CRC. -/
theorem rtu2prim_consumed (e : host_endian) (data : List Nat) (rc : Int)
    (p : osmo_modbus_prim) (h : rtu2prim e data = (rc, some p)) :
    ∃ n : Nat, rc = (n : Int) ∧ 2 ≤ n ∧ n ≤ data.length
      ∧ rtu_crc_matches data (n - 2) = true := by
  obtain ⟨hlen, hcode, hcase⟩ := rtu2prim_some e data rc p h
  rcases hcase with ⟨hresp, _⟩ | ⟨hresp, hreq, _⟩
  · rw [rtu2prim_of_resp_check e data hlen hcode hresp] at h
    simp only [Prod.mk.injEq] at h
    refine ⟨rtu_resp_exp_len data + 2, h.1.symm, by omega, ?_, ?_⟩
    · simp only [rtu_resp_check, RTU_CRC_LEN, Bool.and_eq_true, decide_eq_true_eq] at hresp
      exact hresp.1
    · simp only [rtu_resp_check, Bool.and_eq_true] at hresp
      simpa using hresp.2
  · rw [rtu2prim_of_req_check e data hlen hcode hresp hreq] at h
    simp only [Prod.mk.injEq] at h
    refine ⟨8, h.1.symm, by omega, ?_, ?_⟩
    · simp only [rtu_req_check, RTU_HDR_LEN, RTU_CRC_LEN, Bool.and_eq_true,
        decide_eq_true_eq] at hreq
      omega
    · simp only [rtu_req_check, RTU_HDR_LEN, Bool.and_eq_true] at hreq
      exact hreq.2

/-- C32, as stated, fails: the valid frame 01 03 02 00 7B F8 67 followed by two zero
bytes passes the CRC check on entry to CTRL_WAIT (the CRC of a frame with its own CRC
appended is zero), `rtu2prim` decodes the first seven of the nine bytes, and the T3.5
timeout forwards the response primitive. -/
theorem trailing_zero_bytes_delivered :
    rtu2prim .big [0x01, 0x03, 0x02, 0x00, 0x7B, 0xF8, 0x67, 0x00, 0x00]
        = (7, some (osmo_modbus_makeprim_mult_hold_reg_resp 1 1 (fun _ => 0x007B)))
      ∧ ((rtu_transmit_fsm_dispatch .big
            { osmo_modbus_conn_rtu_alloc with
              fi_state := .RTU_TRANSMIT_ST_RECEPTION
              rx_msg := [0x01, 0x03, 0x02, 0x00, 0x7B, 0xF8, 0x67, 0x00, 0x00] }
            .RTU_TRANSMIT_EV_T15_TIMEOUT).bind
          (fun r1 =>
            rtu_transmit_fsm_dispatch .big r1.2.1 .RTU_TRANSMIT_EV_T35_TIMEOUT)).map
          (fun r2 => r2.2.2)
        = some (some (osmo_modbus_makeprim_mult_hold_reg_resp 1 1 (fun _ => 0x007B))) := by
  constructor
  · decide!
  · decide!

/-- C32, amended: when the T3.5 timeout in CTRL_WAIT forwards a primitive, the buffer was
marked valid (it ends in the CRC of all its bytes before, and nothing was read since) and
the primitive is what `rtu2prim` decodes from a prefix of the buffer: the length consumed
is at most the length of the buffer, not necessarily equal to it, and the prefix ends in
its own CRC. -/
theorem forwarded_frame_is_a_prefix (e : host_endian) (rtu : osmo_modbus_conn_rtu)
    (hstate : rtu.fi_state = .RTU_TRANSMIT_ST_CTRL_WAIT) :
    ∃ r fwd,
      rtu_transmit_fsm_dispatch e rtu .RTU_TRANSMIT_EV_T35_TIMEOUT = some (0, r, fwd)
      ∧ ∀ p, fwd = some p →
          rtu.rx_msg_ok = true
          ∧ (rtu2prim e rtu.rx_msg).2 = some p
          ∧ ∃ n : Nat, (rtu2prim e rtu.rx_msg).1 = (n : Int) ∧ 2 ≤ n
              ∧ n ≤ rtu.rx_msg.length
              ∧ rtu_crc_matches rtu.rx_msg (n - 2) = true := by
  refine ⟨_, _, rtu_dispatch_t35_ctrl_wait e rtu hstate, ?_⟩
  intro p hp
  split at hp
  · rename_i hc
    exact ⟨hc.1, hp, rtu2prim_consumed e rtu.rx_msg _ p (Prod.ext rfl hp)⟩
  · simp at hp

theorem forwarded_frame_is_a_prefix_witness :
    ∃ r fwd,
      rtu_transmit_fsm_dispatch .big
          { osmo_modbus_conn_rtu_alloc with
            fi_state := .RTU_TRANSMIT_ST_CTRL_WAIT
            rx_msg_ok := true
            rx_msg := [0x01, 0x03, 0x02, 0x00, 0x7B, 0xF8, 0x67, 0x00, 0x00] }
          .RTU_TRANSMIT_EV_T35_TIMEOUT = some (0, r, fwd)
      ∧ ∀ p, fwd = some p →
          true = true
          ∧ (rtu2prim .big [0x01, 0x03, 0x02, 0x00, 0x7B, 0xF8, 0x67, 0x00, 0x00]).2 = some p
          ∧ ∃ n : Nat,
              (rtu2prim .big [0x01, 0x03, 0x02, 0x00, 0x7B, 0xF8, 0x67, 0x00, 0x00]).1
                = (n : Int)
              ∧ 2 ≤ n ∧ n ≤ 9
              ∧ rtu_crc_matches [0x01, 0x03, 0x02, 0x00, 0x7B, 0xF8, 0x67, 0x00, 0x00]
                (n - 2) = true :=
  forwarded_frame_is_a_prefix .big
    { osmo_modbus_conn_rtu_alloc with
      fi_state := .RTU_TRANSMIT_ST_CTRL_WAIT
      rx_msg_ok := true
      rx_msg := [0x01, 0x03, 0x02, 0x00, 0x7B, 0xF8, 0x67, 0x00, 0x00] } rfl

/-! ## Bytes left in the receive buffer -/

/-- C33: the receive buffer can be non-empty in IDLE. After START a byte AA is read while
the RTU FSM is in INITIAL: `rtu_read` stores it and the FSM only re-arms T3.5; the T3.5
timeout then enters IDLE with the byte still in the buffer. The valid frame
01 03 02 00 7B F8 67 read next is stored behind that byte, the CRC check on entry to
CTRL_WAIT fails and the frame is dropped, whereas the same frame read into an empty
buffer is forwarded. -/
theorem idle_with_stale_bytes :
    ((rtu_transmit_fsm_dispatch .big { osmo_modbus_conn_rtu_alloc with ofd_fd := 3 }
          .RTU_TRANSMIT_EV_START).bind
        (fun x1 =>
          (rtu_read .big x1.2.1 [0xAA]).bind (fun r2 => rtu_timer_expired .big r2))).map
        (fun x3 => (x3.1.fi_state, x3.1.rx_msg, x3.2))
      = some (.RTU_TRANSMIT_ST_IDLE, [0xAA], none)
    ∧ ((rtu_read .big
          { osmo_modbus_conn_rtu_alloc with
            ofd_fd := 3, fi_state := .RTU_TRANSMIT_ST_IDLE, rx_msg := [0xAA] }
          [0x01, 0x03, 0x02, 0x00, 0x7B, 0xF8, 0x67]).bind
        (fun r4 =>
          (rtu_timer_expired .big r4).bind (fun x5 => rtu_timer_expired .big x5.1))).map
        (fun x6 => (x6.1.fi_state, x6.1.rx_msg, x6.2))
      = some (.RTU_TRANSMIT_ST_IDLE, [], none)
    ∧ ((rtu_read .big
          { osmo_modbus_conn_rtu_alloc with
            ofd_fd := 3, fi_state := .RTU_TRANSMIT_ST_IDLE, rx_msg := [] }
          [0x01, 0x03, 0x02, 0x00, 0x7B, 0xF8, 0x67]).bind
        (fun r4 =>
          (rtu_timer_expired .big r4).bind (fun x5 => rtu_timer_expired .big x5.1))).map
        (fun x6 => (x6.1.fi_state, x6.1.rx_msg, x6.2))
      = some (.RTU_TRANSMIT_ST_IDLE, [],
          some (osmo_modbus_makeprim_mult_hold_reg_resp 1 1 (fun _ => 0x007B))) := by
  refine ⟨?_, ?_, ?_⟩
  · decide!
  · decide!
  · decide!

/-! ## What a slave transmits -/

/-- C31: a slave can transmit a response other than the one just submitted. A RESPONSE
submitted while the slave is in IDLE is put in the outbound queue before the FSM rejects
the event, `osmo_modbus_conn_submit_prim` returns -1 and the primitive stays queued.
When a request then arrives and the application submits its response from inside the
callback, the head of the queue, the stale primitive, goes to the transmitter and the
response just submitted stays in the queue. -/
theorem slave_transmits_stale_response :
    (osmo_modbus_conn_submit_prim ⟨fun r => (0, r), fun _ => true, fun r _ => some (0, r)⟩
        { osmo_modbus_conn_alloc .OSMO_MODBUS_ROLE_SLAVE with
          fi_state := .CONN_SLAVE_ST_IDLE, prim_cb := true }
        (osmo_modbus_makeprim_mult_hold_reg_resp 1 1 (fun _ => 0x1111))).map
        (fun r1 => (r1.1, r1.2.fi_state, r1.2.msg_queue, r1.2.tx_log))
      = some (-1, .CONN_SLAVE_ST_IDLE,
          [osmo_modbus_makeprim_mult_hold_reg_resp 1 1 (fun _ => 0x1111)], [])
    ∧ ((osmo_modbus_conn_submit_prim
          ⟨fun r => (0, r), fun _ => true, fun r _ => some (0, r)⟩
          { osmo_modbus_conn_alloc .OSMO_MODBUS_ROLE_SLAVE with
            fi_state := .CONN_SLAVE_ST_IDLE, prim_cb := true }
          (osmo_modbus_makeprim_mult_hold_reg_resp 1 1 (fun _ => 0x1111))).bind
        (fun r1 =>
          osmo_modbus_conn_rx_prim ⟨fun r => (0, r), fun _ => true, fun r _ => some (0, r)⟩
            r1.2 (osmo_modbus_makeprim_mult_hold_reg_req 1 0x000C 1)
            [osmo_modbus_makeprim_mult_hold_reg_resp 1 1 (fun _ => 0x2222)])).map
        (fun c2 => (c2.fi_state, c2.tx_log, c2.msg_queue))
      = some (.CONN_SLAVE_ST_IDLE,
          [osmo_modbus_makeprim_mult_hold_reg_resp 1 1 (fun _ => 0x1111)],
          [osmo_modbus_makeprim_mult_hold_reg_resp 1 1 (fun _ => 0x2222)]) := by
  refine ⟨?_, ?_⟩
  · decide
  · decide

/-! ## The state and the timer of a master -/

theorem master_state_inv_set_state_idle (c : osmo_modbus_conn) (h : master_state_inv c) :
    master_state_inv (conn_master_fsm_set_state c .CONN_MASTER_ST_IDLE) := by
  rw [conn_master_fsm_set_state_idle]
  refine ⟨h.1, Or.inr (Or.inl rfl), ?_⟩
  intro T v ht
  simp at ht

theorem master_state_inv_set_state_wait_reply (c : osmo_modbus_conn)
    (h : master_state_inv c) :
    master_state_inv (conn_master_fsm_set_state c .CONN_MASTER_ST_WAIT_REPLY) := by
  rw [conn_master_fsm_set_state_wait_reply]
  refine ⟨h.1, Or.inr (Or.inr rfl), ?_⟩
  intro T v ht
  simp only [conn_master_noresponse_timer] at ht
  split at ht
  · simp at ht
  · simp only [Option.some.injEq, Prod.mk.injEq] at ht
    exact ⟨ht.1.symm, rfl⟩

theorem master_state_inv_wait_reply_onenter (ops : osmo_modbus_proto_ops)
    (c c' : osmo_modbus_conn) (hinv : master_state_inv c)
    (h : conn_master_fsm_st_wait_reply_onenter ops c = some c') : master_state_inv c' := by
  unfold conn_master_fsm_st_wait_reply_onenter at h
  cases hq : c.msg_queue with
  | nil => simp [hq] at h
  | cons prim rest =>
    simp only [hq] at h
    cases htx : ops.tx_prim c.proto prim with
    | none => simp [htx] at h
    | some r =>
      simp only [htx, Option.map_some', Option.some.injEq] at h
      subst h
      exact hinv

theorem master_state_inv_state_chg_wait_reply (ops : osmo_modbus_proto_ops)
    (c c' : osmo_modbus_conn) (hinv : master_state_inv c)
    (h : conn_master_fsm_state_chg_wait_reply ops c = some c') : master_state_inv c' := by
  unfold conn_master_fsm_state_chg_wait_reply at h
  split at h
  · simp only [Option.some.injEq] at h
    subst h
    exact hinv
  · exact master_state_inv_wait_reply_onenter ops _ c'
      (master_state_inv_set_state_wait_reply c hinv) h

theorem master_state_inv_idle_onenter (ops : osmo_modbus_proto_ops)
    (c c' : osmo_modbus_conn) (hinv : master_state_inv c)
    (h : conn_master_fsm_st_idle_onenter ops c = some c') : master_state_inv c' := by
  unfold conn_master_fsm_st_idle_onenter at h
  split at h
  · exact master_state_inv_state_chg_wait_reply ops c c' hinv h
  · simp only [Option.some.injEq] at h
    subst h
    exact hinv

theorem master_state_inv_state_chg (ops : osmo_modbus_proto_ops)
    (c c' : osmo_modbus_conn) (state : conn_fi_state) (hinv : master_state_inv c)
    (hst : state = .CONN_MASTER_ST_IDLE ∨ state = .CONN_MASTER_ST_WAIT_REPLY)
    (h : conn_master_fsm_state_chg ops c state = some c') : master_state_inv c' := by
  unfold conn_master_fsm_state_chg at h
  split at h
  · simp only [Option.some.injEq] at h
    subst h
    exact hinv
  · rcases hst with rfl | rfl
    · exact master_state_inv_idle_onenter ops _ c'
        (master_state_inv_set_state_idle c hinv) h
    · exact master_state_inv_wait_reply_onenter ops _ c'
        (master_state_inv_set_state_wait_reply c hinv) h

theorem master_state_inv_dispatch_submit_prim (ops : osmo_modbus_proto_ops)
    (c c' : osmo_modbus_conn) (rc : Int) (hinv : master_state_inv c)
    (h : conn_master_fsm_dispatch_submit_prim ops c = some (rc, c')) :
    master_state_inv c' := by
  unfold conn_master_fsm_dispatch_submit_prim at h
  split at h
  · simp only [Option.some.injEq, Prod.mk.injEq] at h
    rw [← h.2]
    exact hinv
  · split at h
    · simp only [Option.some.injEq, Prod.mk.injEq] at h
      rw [← h.2]
      exact hinv
    · cases hs : conn_master_fsm_state_chg ops c .CONN_MASTER_ST_WAIT_REPLY with
      | none => simp [hs] at h
      | some c1 =>
        simp only [hs, Option.map_some', Option.some.injEq, Prod.mk.injEq] at h
        rw [← h.2]
        exact master_state_inv_state_chg ops _ c1 _ hinv (Or.inr rfl) hs
    · simp only [Option.some.injEq, Prod.mk.injEq] at h
      rw [← h.2]
      exact hinv
    · simp only [Option.some.injEq, Prod.mk.injEq] at h
      rw [← h.2]
      exact hinv
    · simp at h

theorem master_state_inv_submit_prim (ops : osmo_modbus_proto_ops)
    (c c' : osmo_modbus_conn) (prim : osmo_modbus_prim) (rc : Int)
    (hinv : master_state_inv c)
    (h : osmo_modbus_conn_submit_prim ops c prim = some (rc, c')) :
    master_state_inv c' := by
  unfold osmo_modbus_conn_submit_prim at h
  split at h
  · simp only [Option.some.injEq, Prod.mk.injEq] at h
    rw [← h.2]
    exact hinv
  · have hinv1 : master_state_inv
        { c with msg_queue := c.msg_queue ++ [prim], submit_log := c.submit_log ++ [prim] } :=
      hinv
    have h' : conn_master_fsm_dispatch_submit_prim ops
        { c with msg_queue := c.msg_queue ++ [prim], submit_log := c.submit_log ++ [prim] }
        = some (rc, c') := by
      have hr1 : ({ c with msg_queue := c.msg_queue ++ [prim]
                           submit_log := c.submit_log ++ [prim] } : osmo_modbus_conn).role
          = .OSMO_MODBUS_ROLE_MASTER := hinv.1
      simp only [] at h
      rw [if_pos hr1] at h
      exact h
    exact master_state_inv_dispatch_submit_prim ops _ c' rc hinv1 h'

theorem master_state_inv_app_submits (ops : osmo_modbus_proto_ops)
    (app : List osmo_modbus_prim) :
    ∀ c c' : osmo_modbus_conn, master_state_inv c → conn_app_submits ops c app = some c' →
      master_state_inv c' := by
  induction app with
  | nil =>
    intro c c' hinv h
    simp only [conn_app_submits, Option.some.injEq] at h
    subst h
    exact hinv
  | cons p rest ih =>
    intro c c' hinv h
    unfold conn_app_submits at h
    cases hs : osmo_modbus_conn_submit_prim ops c p with
    | none => simp [hs] at h
    | some r =>
      simp only [hs] at h
      exact ih r.2 c' (master_state_inv_submit_prim ops c r.2 p r.1 hinv hs) h

theorem master_state_inv_deliver (ops : osmo_modbus_proto_ops)
    (c c' : osmo_modbus_conn) (prim : osmo_modbus_prim) (app : List osmo_modbus_prim)
    (hinv : master_state_inv c) (h : conn_master_deliver ops c prim app = some c') :
    master_state_inv c' := by
  unfold conn_master_deliver at h
  split at h
  · have hinv1 : master_state_inv { c with cb_log := c.cb_log ++ [prim] } := hinv
    exact master_state_inv_app_submits ops app _ c' hinv1 h
  · simp only [Option.some.injEq] at h
    subst h
    exact hinv

theorem master_state_inv_rx_prim (ops : osmo_modbus_proto_ops)
    (c c' : osmo_modbus_conn) (prim : osmo_modbus_prim) (app : List osmo_modbus_prim)
    (hinv : master_state_inv c) (h : osmo_modbus_conn_rx_prim ops c prim app = some c') :
    master_state_inv c' := by
  unfold osmo_modbus_conn_rx_prim at h
  rw [if_pos hinv.1] at h
  unfold conn_master_fsm_dispatch_recv_prim at h
  split at h
  · simp only [Option.map_some', Option.some.injEq] at h
    subst h
    exact hinv
  · split at h
    · cases hd : conn_master_deliver ops c prim app with
      | none => simp [hd] at h
      | some c1 =>
        simp only [hd] at h
        cases hs : conn_master_fsm_state_chg ops c1 .CONN_MASTER_ST_IDLE with
        | none => simp [hs] at h
        | some c2 =>
          simp only [hs, Option.map_some', Option.some.injEq] at h
          subst h
          exact master_state_inv_state_chg ops c1 c2 _
            (master_state_inv_deliver ops c c1 prim app hinv hd) (Or.inl rfl) hs
    · simp at h

theorem master_state_inv_timer_expired (ops : osmo_modbus_proto_ops)
    (c c' : osmo_modbus_conn) (app : List osmo_modbus_prim)
    (hinv : master_state_inv c) (h : conn_master_timer_expired ops c app = some c') :
    master_state_inv c' := by
  unfold conn_master_timer_expired at h
  split at h
  · simp only [Option.some.injEq] at h
    subst h
    exact hinv
  · have hinv0 : master_state_inv { c with fi_timer := none } :=
      ⟨hinv.1, hinv.2.1, fun T v ht => by simp at ht⟩
    unfold conn_master_fsm_timer_cb at h
    split at h
    · exact master_state_inv_state_chg ops _ c' _ hinv0 (Or.inl rfl) h
    · split at h
      · cases hd : conn_master_deliver ops { c with fi_timer := none }
            (osmo_modbus_makeprim_timeout_resp c.master_req_for_addr) app with
        | none => simp [hd] at h
        | some c1 =>
          simp only [hd] at h
          exact master_state_inv_state_chg ops c1 c' _
            (master_state_inv_deliver ops _ c1 _ app hinv0 hd) (Or.inl rfl) h
      · simp only [Option.some.injEq] at h
        subst h
        exact hinv0

theorem master_state_inv_connect (ops : osmo_modbus_proto_ops)
    (c c' : osmo_modbus_conn) (rc : Int)
    (hinv : master_state_inv c) (h : osmo_modbus_conn_connect ops c = some (rc, c')) :
    master_state_inv c' := by
  unfold osmo_modbus_conn_connect at h
  rw [if_pos hinv.1] at h
  have hinv0 : master_state_inv { c with proto := (ops.connect c.proto).2 } := hinv
  split at h
  · simp only [Option.some.injEq, Prod.mk.injEq] at h
    rw [← h.2]
    exact hinv
  · split at h
    · split at h
      · cases hs : conn_master_fsm_state_chg ops { c with proto := (ops.connect c.proto).2 }
            .CONN_MASTER_ST_IDLE with
        | none => simp [hs] at h
        | some c1 =>
          simp only [hs, Option.map_some', Option.some.injEq, Prod.mk.injEq] at h
          rw [← h.2]
          exact master_state_inv_state_chg ops _ c1 _ hinv0 (Or.inl rfl) hs
      · simp only [Option.some.injEq, Prod.mk.injEq] at h
        rw [← h.2]
        exact hinv0
    · simp at h

theorem master_state_inv_reachable (ops : osmo_modbus_proto_ops) (c : osmo_modbus_conn)
    (h : master_reachable ops c) : master_state_inv c := by
  induction h with
  | alloc => exact ⟨rfl, Or.inl rfl, fun T v ht => by simp [osmo_modbus_conn_alloc] at ht⟩
  | connect c c' rc _ hstep ih => exact master_state_inv_connect ops c c' rc ih hstep
  | submit c c' prim rc _ hstep ih =>
    exact master_state_inv_submit_prim ops c c' prim rc ih hstep
  | receive c c' prim app _ hstep ih =>
    exact master_state_inv_rx_prim ops c c' prim app ih hstep
  | timeout c c' app _ hstep ih => exact master_state_inv_timer_expired ops c c' app ih hstep
  | set_address c address _ ih => exact ih
  | set_prim_cb c prim_cb _ ih => exact ih
  | set_timeout c turnaround noresponse _ ih => exact ih
  | endpoint c proto _ ih => exact ih

theorem master_reachable_of_cb (ops : osmo_modbus_proto_ops) (c : osmo_modbus_conn)
    (h : master_reachable_cb ops c) : master_reachable ops c := by
  induction h with
  | alloc => exact master_reachable.set_prim_cb _ true master_reachable.alloc
  | connect c c' rc _ hstep ih => exact master_reachable.connect c c' rc ih hstep
  | submit c c' prim rc _ hstep ih => exact master_reachable.submit c c' prim rc ih hstep
  | receive c c' prim app _ hstep ih =>
    exact master_reachable.receive c c' prim app ih hstep
  | timeout c c' app _ hstep ih => exact master_reachable.timeout c c' app ih hstep
  | set_address c address _ ih => exact master_reachable.set_address c address ih
  | set_timeout c turnaround noresponse _ ih =>
    exact master_reachable.set_timeout c turnaround noresponse ih
  | endpoint c proto _ ih => exact master_reachable.endpoint c proto ih

/-! ## The events of a master, state by state -/

theorem submit_prim_master_disconnected (ops : osmo_modbus_proto_ops)
    (c : osmo_modbus_conn) (prim : osmo_modbus_prim)
    (hrole : c.role = .OSMO_MODBUS_ROLE_MASTER)
    (hstate : c.fi_state = .CONN_MASTER_ST_DISCONNECTED)
    (hop : prim.oph.operation = .PRIM_OP_REQUEST) :
    osmo_modbus_conn_submit_prim ops c prim =
      some (0, { c with msg_queue := c.msg_queue ++ [prim]
                        submit_log := c.submit_log ++ [prim] }) := by
  simp [osmo_modbus_conn_submit_prim, conn_master_fsm_dispatch_submit_prim,
    conn_master_states_in_event_mask, hrole, hstate, hop]

theorem submit_prim_master_idle (ops : osmo_modbus_proto_ops)
    (c : osmo_modbus_conn) (prim head : osmo_modbus_prim) (rest : List osmo_modbus_prim)
    (hrole : c.role = .OSMO_MODBUS_ROLE_MASTER)
    (hstate : c.fi_state = .CONN_MASTER_ST_IDLE)
    (hop : prim.oph.operation = .PRIM_OP_REQUEST)
    (hq : c.msg_queue ++ [prim] = head :: rest) :
    osmo_modbus_conn_submit_prim ops c prim =
      (ops.tx_prim c.proto head).map (fun r =>
        (0, { c with msg_queue := rest
                     submit_log := c.submit_log ++ [prim]
                     master_req_for_addr := head.address % 65536
                     tx_log := c.tx_log ++ [head]
                     proto := r.2
                     fi_state := .CONN_MASTER_ST_WAIT_REPLY
                     fi_timer := conn_master_noresponse_timer c })) := by
  have henter := conn_master_enter_wait_reply ops
    { c with msg_queue := c.msg_queue ++ [prim], submit_log := c.submit_log ++ [prim] }
    head rest hstate hq
  obtain ⟨role, address, prim_cb, msg_queue, master_req_for_addr, slave_monitor,
    T_turnaround, T_noresponse, fi_state, fi_timer, proto, tx_log, cb_log, submit_log⟩ := c
  simp only at hrole hstate hq henter
  subst hrole hstate
  unfold osmo_modbus_conn_submit_prim
  rw [if_neg (by simp [hop])]
  simp only [if_true, conn_master_fsm_dispatch_submit_prim, conn_master_states_in_event_mask,
    Bool.true_eq_false, if_false]
  rw [henter]
  simp [Option.map_map, Function.comp_def, conn_master_noresponse_timer]

theorem connect_master_disconnected (ops : osmo_modbus_proto_ops) (c : osmo_modbus_conn)
    (hrole : c.role = .OSMO_MODBUS_ROLE_MASTER)
    (hstate : c.fi_state = .CONN_MASTER_ST_DISCONNECTED) :
    osmo_modbus_conn_connect ops c =
      if (ops.connect c.proto).1 = 0 then
        match c.msg_queue with
        | [] => some ((0 : Int), { c with proto := (ops.connect c.proto).2
                                          fi_state := .CONN_MASTER_ST_IDLE
                                          fi_timer := none })
        | next :: rest =>
          (ops.tx_prim (ops.connect c.proto).2 next).map (fun r =>
            ((0 : Int), { c with msg_queue := rest
                                 master_req_for_addr := next.address % 65536
                                 tx_log := c.tx_log ++ [next]
                                 proto := r.2
                                 fi_state := .CONN_MASTER_ST_WAIT_REPLY
                                 fi_timer := conn_master_noresponse_timer c }))
      else some (-ENOTCONN, { c with proto := (ops.connect c.proto).2 }) := by
  have hdrain := conn_master_connected_drains ops
    { c with proto := (ops.connect c.proto).2 } hstate
  obtain ⟨role, address, prim_cb, msg_queue, master_req_for_addr, slave_monitor,
    T_turnaround, T_noresponse, fi_state, fi_timer, proto, tx_log, cb_log, submit_log⟩ := c
  simp only at hrole hstate hdrain
  subst hrole hstate
  unfold osmo_modbus_conn_connect
  simp only [conn_master_states_in_event_mask, if_true, Bool.true_eq_false, if_false]
  split
  · rw [hdrain]
    cases msg_queue with
    | nil => rfl
    | cons next rest =>
      simp [Option.map_map, Function.comp_def, conn_master_noresponse_timer]
  · rfl

theorem connect_master_not_disconnected (ops : osmo_modbus_proto_ops)
    (c : osmo_modbus_conn)
    (hrole : c.role = .OSMO_MODBUS_ROLE_MASTER)
    (hstate : c.fi_state = .CONN_MASTER_ST_IDLE
      ∨ c.fi_state = .CONN_MASTER_ST_WAIT_REPLY) :
    osmo_modbus_conn_connect ops c = some (-1, c) := by
  unfold osmo_modbus_conn_connect
  rw [if_pos hrole]
  rcases hstate with h | h <;> rw [h] <;> rfl

theorem rx_prim_master_not_wait_reply (ops : osmo_modbus_proto_ops)
    (c : osmo_modbus_conn) (prim : osmo_modbus_prim) (app : List osmo_modbus_prim)
    (hrole : c.role = .OSMO_MODBUS_ROLE_MASTER)
    (hstate : c.fi_state ≠ .CONN_MASTER_ST_WAIT_REPLY) :
    osmo_modbus_conn_rx_prim ops c prim app = some c := by
  unfold osmo_modbus_conn_rx_prim conn_master_fsm_dispatch_recv_prim
  rw [if_pos hrole]
  cases hs : c.fi_state <;> simp_all [conn_master_states_in_event_mask]

theorem rx_prim_slave_not_idle (ops : osmo_modbus_proto_ops)
    (c : osmo_modbus_conn) (prim : osmo_modbus_prim) (app : List osmo_modbus_prim)
    (hrole : c.role = .OSMO_MODBUS_ROLE_SLAVE)
    (hstate : c.fi_state ≠ .CONN_SLAVE_ST_IDLE) :
    osmo_modbus_conn_rx_prim ops c prim app = some c := by
  unfold osmo_modbus_conn_rx_prim conn_slave_fsm_dispatch_recv_prim
  rw [if_neg (by rw [hrole]; decide)]
  cases hs : c.fi_state <;> simp_all [conn_slave_states_in_event_mask]

theorem rx_prim_master_wait_reply_no_cb (ops : osmo_modbus_proto_ops)
    (c : osmo_modbus_conn) (p : osmo_modbus_prim) (app : List osmo_modbus_prim)
    (hrole : c.role = .OSMO_MODBUS_ROLE_MASTER)
    (hstate : c.fi_state = .CONN_MASTER_ST_WAIT_REPLY) (hcb : c.prim_cb = false) :
    osmo_modbus_conn_rx_prim ops c p app =
      conn_master_fsm_state_chg ops c .CONN_MASTER_ST_IDLE := by
  simp only [osmo_modbus_conn_rx_prim, hrole, if_true, conn_master_fsm_dispatch_recv_prim,
    hstate, conn_master_states_in_event_mask, Bool.true_eq_false, if_false,
    conn_master_deliver, hcb, Bool.false_eq_true]
  cases hs : conn_master_fsm_state_chg ops c .CONN_MASTER_ST_IDLE <;> simp [hs]

theorem timer_expired_master_no_timer (ops : osmo_modbus_proto_ops)
    (c : osmo_modbus_conn) (app : List osmo_modbus_prim) (ht : c.fi_timer = none) :
    conn_master_timer_expired ops c app = some c := by
  unfold conn_master_timer_expired
  rw [ht]

theorem timer_expired_master_noresponse (ops : osmo_modbus_proto_ops)
    (c : osmo_modbus_conn) (app : List osmo_modbus_prim) (v : Nat)
    (ht : c.fi_timer = some (OSMO_MODBUS_TO_NORESPONSE, v)) :
    conn_master_timer_expired ops c app =
      match conn_master_deliver ops { c with fi_timer := none }
          (osmo_modbus_makeprim_timeout_resp c.master_req_for_addr) app with
      | none => none
      | some c1 => conn_master_fsm_state_chg ops c1 .CONN_MASTER_ST_IDLE := by
  unfold conn_master_timer_expired
  rw [ht]
  simp [conn_master_fsm_timer_cb, OSMO_MODBUS_TO_NORESPONSE, OSMO_MODBUS_TO_TURNAROUND]

theorem submit_prim_master_step (ops : osmo_modbus_proto_ops)
    (c c' : osmo_modbus_conn) (prim : osmo_modbus_prim) (rc : Int)
    (hinv : master_state_inv c)
    (h : osmo_modbus_conn_submit_prim ops c prim = some (rc, c')) :
    c'.cb_log = c.cb_log ∧ c'.prim_cb = c.prim_cb
      ∧ ((c'.tx_log = c.tx_log ∧ c'.fi_state = c.fi_state)
        ∨ (c.fi_state = .CONN_MASTER_ST_IDLE ∧ c'.fi_state = .CONN_MASTER_ST_WAIT_REPLY
            ∧ ∃ head, c'.tx_log = c.tx_log ++ [head])) := by
  obtain ⟨hrole, hst, _⟩ := hinv
  by_cases hop : prim.oph.operation = .PRIM_OP_REQUEST
  · rcases hst with hs | hs | hs
    · rw [submit_prim_master_disconnected ops c prim hrole hs hop] at h
      simp only [Option.some.injEq, Prod.mk.injEq] at h
      obtain ⟨_, rfl⟩ := h
      exact ⟨rfl, rfl, Or.inl ⟨rfl, rfl⟩⟩
    · cases hq : c.msg_queue ++ [prim] with
      | nil => simp at hq
      | cons head rest =>
        rw [submit_prim_master_idle ops c prim head rest hrole hs hop hq] at h
        cases htx : ops.tx_prim c.proto head with
        | none => rw [htx] at h; simp at h
        | some r =>
          rw [htx] at h
          simp only [Option.map_some', Option.some.injEq, Prod.mk.injEq] at h
          obtain ⟨_, rfl⟩ := h
          exact ⟨rfl, rfl, Or.inr ⟨hs, rfl, head, rfl⟩⟩
    · rw [submit_prim_master_wait_reply ops c prim hrole hs hop] at h
      simp only [Option.some.injEq, Prod.mk.injEq] at h
      obtain ⟨_, rfl⟩ := h
      exact ⟨rfl, rfl, Or.inl ⟨rfl, rfl⟩⟩
  · rw [submit_prim_rejects_wrong_operation_aux ops c prim hrole hop] at h
    simp only [Option.some.injEq, Prod.mk.injEq] at h
    obtain ⟨_, rfl⟩ := h
    exact ⟨rfl, rfl, Or.inl ⟨rfl, rfl⟩⟩

theorem connect_master_step (ops : osmo_modbus_proto_ops)
    (c c' : osmo_modbus_conn) (rc : Int)
    (hinv : master_state_inv c)
    (h : osmo_modbus_conn_connect ops c = some (rc, c')) :
    c'.cb_log = c.cb_log ∧ c'.prim_cb = c.prim_cb
      ∧ ((c'.tx_log = c.tx_log ∧ c'.fi_state = c.fi_state)
        ∨ (c.fi_state = .CONN_MASTER_ST_DISCONNECTED
            ∧ c'.fi_state = .CONN_MASTER_ST_IDLE ∧ c'.tx_log = c.tx_log)
        ∨ (c.fi_state = .CONN_MASTER_ST_DISCONNECTED
            ∧ c'.fi_state = .CONN_MASTER_ST_WAIT_REPLY
            ∧ ∃ head, c'.tx_log = c.tx_log ++ [head])) := by
  obtain ⟨hrole, hst, _⟩ := hinv
  rcases hst with hs | hs | hs
  · rw [connect_master_disconnected ops c hrole hs] at h
    split at h
    · cases hq : c.msg_queue with
      | nil =>
        simp only [hq, Option.some.injEq, Prod.mk.injEq] at h
        obtain ⟨_, rfl⟩ := h
        exact ⟨rfl, rfl, Or.inr (Or.inl ⟨hs, rfl, rfl⟩)⟩
      | cons next rest =>
        simp only [hq] at h
        cases htx : ops.tx_prim (ops.connect c.proto).2 next with
        | none => rw [htx] at h; simp at h
        | some r =>
          rw [htx] at h
          simp only [Option.map_some', Option.some.injEq, Prod.mk.injEq] at h
          obtain ⟨_, rfl⟩ := h
          exact ⟨rfl, rfl, Or.inr (Or.inr ⟨hs, rfl, next, rfl⟩)⟩
    · simp only [Option.some.injEq, Prod.mk.injEq] at h
      obtain ⟨_, rfl⟩ := h
      exact ⟨rfl, rfl, Or.inl ⟨rfl, rfl⟩⟩
  · rw [connect_master_not_disconnected ops c hrole (Or.inl hs)] at h
    simp only [Option.some.injEq, Prod.mk.injEq] at h
    obtain ⟨_, rfl⟩ := h
    exact ⟨rfl, rfl, Or.inl ⟨rfl, rfl⟩⟩
  · rw [connect_master_not_disconnected ops c hrole (Or.inr hs)] at h
    simp only [Option.some.injEq, Prod.mk.injEq] at h
    obtain ⟨_, rfl⟩ := h
    exact ⟨rfl, rfl, Or.inl ⟨rfl, rfl⟩⟩

theorem deliver_and_leave_step (ops : osmo_modbus_proto_ops)
    (c c' : osmo_modbus_conn) (prim : osmo_modbus_prim) (app : List osmo_modbus_prim)
    (hrole : c.role = .OSMO_MODBUS_ROLE_MASTER)
    (hstate : c.fi_state = .CONN_MASTER_ST_WAIT_REPLY) (hcb : c.prim_cb = true)
    (h : (match conn_master_deliver ops c prim app with
      | none => none
      | some c1 => conn_master_fsm_state_chg ops c1 .CONN_MASTER_ST_IDLE) = some c') :
    c'.prim_cb = true ∧ c'.cb_log = c.cb_log ++ [prim]
      ∧ ((c'.fi_state = .CONN_MASTER_ST_IDLE ∧ c'.tx_log = c.tx_log)
        ∨ (c'.fi_state = .CONN_MASTER_ST_WAIT_REPLY
            ∧ ∃ next, c'.tx_log = c.tx_log ++ [next])) := by
  rw [conn_master_deliver_and_leave ops c prim app hrole hstate hcb] at h
  cases hq : c.msg_queue ++ conn_requests app with
  | nil =>
    simp only [hq, Option.some.injEq] at h
    subst h
    exact ⟨hcb, rfl, Or.inl ⟨rfl, rfl⟩⟩
  | cons next rest =>
    simp only [hq] at h
    cases htx : ops.tx_prim c.proto next with
    | none => rw [htx] at h; simp at h
    | some r =>
      rw [htx] at h
      simp only [Option.map_some', Option.some.injEq] at h
      subst h
      exact ⟨hcb, rfl, Or.inr ⟨rfl, next, rfl⟩⟩

/-- C37: a primitive passed to `osmo_modbus_conn_rx_prim` while a master is in a state
other than WAIT_REPLY, or a slave in a state other than IDLE, is discarded: the
connection is unchanged, so the callback is not invoked and state and outbound queue
stay as they are. On a master reached by connect, submit, receive and timeout events the
callback is therefore invoked only by a receive or a timer expiry that finds the master
in WAIT_REPLY; submit and connect never invoke it. -/
theorem rx_prim_discarded_outside_accepting_states (ops : osmo_modbus_proto_ops) :
    (∀ (c : osmo_modbus_conn) (prim : osmo_modbus_prim) (app : List osmo_modbus_prim),
        (c.role = .OSMO_MODBUS_ROLE_MASTER ∧ c.fi_state ≠ .CONN_MASTER_ST_WAIT_REPLY)
          ∨ (c.role = .OSMO_MODBUS_ROLE_SLAVE ∧ c.fi_state ≠ .CONN_SLAVE_ST_IDLE) →
        osmo_modbus_conn_rx_prim ops c prim app = some c)
    ∧ (∀ c : osmo_modbus_conn, master_reachable ops c →
        (∀ (prim : osmo_modbus_prim) (app : List osmo_modbus_prim) (c' : osmo_modbus_conn),
            osmo_modbus_conn_rx_prim ops c prim app = some c' → c'.cb_log ≠ c.cb_log →
            c.fi_state = .CONN_MASTER_ST_WAIT_REPLY)
        ∧ (∀ (app : List osmo_modbus_prim) (c' : osmo_modbus_conn),
            conn_master_timer_expired ops c app = some c' → c'.cb_log ≠ c.cb_log →
            c.fi_state = .CONN_MASTER_ST_WAIT_REPLY)
        ∧ (∀ (prim : osmo_modbus_prim) (rc : Int) (c' : osmo_modbus_conn),
            osmo_modbus_conn_submit_prim ops c prim = some (rc, c') →
            c'.cb_log = c.cb_log)
        ∧ (∀ (rc : Int) (c' : osmo_modbus_conn),
            osmo_modbus_conn_connect ops c = some (rc, c') → c'.cb_log = c.cb_log)) := by
  constructor
  · intro c prim app h
    rcases h with ⟨hrole, hstate⟩ | ⟨hrole, hstate⟩
    · exact rx_prim_master_not_wait_reply ops c prim app hrole hstate
    · exact rx_prim_slave_not_idle ops c prim app hrole hstate
  · intro c hreach
    have hinv := master_state_inv_reachable ops c hreach
    refine ⟨?_, ?_, ?_, ?_⟩
    · intro prim app c' h hne
      by_contra hstate
      rw [rx_prim_master_not_wait_reply ops c prim app hinv.1 hstate] at h
      simp only [Option.some.injEq] at h
      exact hne (by rw [h])
    · intro app c' h hne
      cases ht : c.fi_timer with
      | none =>
        rw [timer_expired_master_no_timer ops c app ht] at h
        simp only [Option.some.injEq] at h
        exact absurd (by rw [h]) hne
      | some tv => exact (hinv.2.2 tv.1 tv.2 ht).2
    · intro prim rc c' h
      exact (submit_prim_master_step ops c c' prim rc hinv h).1
    · intro rc c' h
      exact (connect_master_step ops c c' rc hinv h).1

theorem rx_prim_discarded_outside_accepting_states_witness :
    osmo_modbus_conn_rx_prim ⟨fun r => (0, r), fun _ => true, fun r _ => some (0, r)⟩
        { osmo_modbus_conn_alloc .OSMO_MODBUS_ROLE_MASTER with
          fi_state := .CONN_MASTER_ST_IDLE, prim_cb := true }
        (osmo_modbus_makeprim_mult_hold_reg_resp 1 1 (fun _ => 0x007B)) []
      = some { osmo_modbus_conn_alloc .OSMO_MODBUS_ROLE_MASTER with
          fi_state := .CONN_MASTER_ST_IDLE, prim_cb := true } :=
  (rx_prim_discarded_outside_accepting_states
      ⟨fun r => (0, r), fun _ => true, fun r _ => some (0, r)⟩).1
    { osmo_modbus_conn_alloc .OSMO_MODBUS_ROLE_MASTER with
      fi_state := .CONN_MASTER_ST_IDLE, prim_cb := true }
    (osmo_modbus_makeprim_mult_hold_reg_resp 1 1 (fun _ => 0x007B)) []
    (Or.inl ⟨rfl, by decide⟩)

/-! ## Queue accounting on a master -/

theorem master_account_inv_reachable (ops : osmo_modbus_proto_ops) (c : osmo_modbus_conn)
    (h : master_reachable_cb ops c) : master_account_inv c := by
  induction h with
  | alloc => exact ⟨rfl, by decide⟩
  | connect c c' rc hreach hstep ih =>
    have hinv := master_state_inv_reachable ops c (master_reachable_of_cb ops c hreach)
    obtain ⟨hcb, hp, hcase⟩ := connect_master_step ops c c' rc hinv hstep
    obtain ⟨ih1, ih2⟩ := ih
    refine ⟨hp.trans ih1, ?_⟩
    rcases hcase with ⟨htx, hst⟩ | ⟨hs, hs', htx⟩ | ⟨hs, hs', head, htx⟩
    · rw [hcb, htx, hst]; exact ih2
    · rw [hs, if_neg (by decide)] at ih2
      rw [hcb, htx, hs', if_neg (by decide)]; exact ih2
    · rw [hs, if_neg (by decide)] at ih2
      rw [hcb, htx, hs', if_pos rfl, List.length_append, List.length_singleton]
      omega
  | submit c c' prim rc hreach hstep ih =>
    have hinv := master_state_inv_reachable ops c (master_reachable_of_cb ops c hreach)
    obtain ⟨hcb, hp, hcase⟩ := submit_prim_master_step ops c c' prim rc hinv hstep
    obtain ⟨ih1, ih2⟩ := ih
    refine ⟨hp.trans ih1, ?_⟩
    rcases hcase with ⟨htx, hst⟩ | ⟨hs, hs', head, htx⟩
    · rw [hcb, htx, hst]; exact ih2
    · rw [hs, if_neg (by decide)] at ih2
      rw [hcb, htx, hs', if_pos rfl, List.length_append, List.length_singleton]
      omega
  | receive c c' prim app hreach hstep ih =>
    have hinv := master_state_inv_reachable ops c (master_reachable_of_cb ops c hreach)
    obtain ⟨ih1, ih2⟩ := ih
    by_cases hs : c.fi_state = .CONN_MASTER_ST_WAIT_REPLY
    · have hstep' : (match conn_master_deliver ops c prim app with
          | none => none
          | some c1 => conn_master_fsm_state_chg ops c1 .CONN_MASTER_ST_IDLE) = some c' := by
        rw [conn_master_deliver_and_leave ops c prim app hinv.1 hs ih1,
          ← rx_prim_master_wait_reply ops c prim app hinv.1 hs ih1]
        exact hstep
      obtain ⟨hp, hcb, hcase⟩ :=
        deliver_and_leave_step ops c c' prim app hinv.1 hs ih1 hstep'
      rw [hs, if_pos rfl] at ih2
      refine ⟨hp, ?_⟩
      rcases hcase with ⟨hs', htx⟩ | ⟨hs', next, htx⟩
      · rw [hcb, htx, hs', if_neg (by decide), List.length_append, List.length_singleton]
        omega
      · rw [hcb, htx, hs', if_pos rfl, List.length_append, List.length_singleton,
          List.length_append, List.length_singleton]
        omega
    · rw [rx_prim_master_not_wait_reply ops c prim app hinv.1 hs] at hstep
      simp only [Option.some.injEq] at hstep
      subst hstep
      exact ⟨ih1, ih2⟩
  | timeout c c' app hreach hstep ih =>
    have hinv := master_state_inv_reachable ops c (master_reachable_of_cb ops c hreach)
    obtain ⟨ih1, ih2⟩ := ih
    cases ht : c.fi_timer with
    | none =>
      rw [timer_expired_master_no_timer ops c app ht] at hstep
      simp only [Option.some.injEq] at hstep
      subst hstep
      exact ⟨ih1, ih2⟩
    | some tv =>
      obtain ⟨hT, hs⟩ := hinv.2.2 tv.1 tv.2 ht
      have ht' : c.fi_timer = some (OSMO_MODBUS_TO_NORESPONSE, tv.2) := by
        rw [ht, ← hT]
      rw [timer_expired_master_noresponse ops c app tv.2 ht'] at hstep
      obtain ⟨hp, hcb, hcase⟩ :=
        deliver_and_leave_step ops { c with fi_timer := none } c' _ app hinv.1 hs ih1 hstep
      rw [hs, if_pos rfl] at ih2
      refine ⟨hp, ?_⟩
      have hcb' : c'.cb_log
          = c.cb_log ++ [osmo_modbus_makeprim_timeout_resp c.master_req_for_addr] := hcb
      rcases hcase with ⟨hs', htx⟩ | ⟨hs', next, htx⟩
      · have htx' : c'.tx_log = c.tx_log := htx
        rw [hcb', htx', hs', if_neg (by decide), List.length_append, List.length_singleton]
        omega
      · have htx' : c'.tx_log = c.tx_log ++ [next] := htx
        rw [hcb', htx', hs', if_pos rfl, List.length_append, List.length_singleton,
          List.length_append, List.length_singleton]
        omega
  | set_address c address _ ih => exact ih
  | set_timeout c turnaround noresponse _ ih => exact ih
  | endpoint c proto _ ih => exact ih

/-- C34, as stated, fails on a master that has no callback, which is how
`osmo_modbus_conn_alloc` leaves it: after connect, one accepted request and the expiry of
the no-response timer the master is back in IDLE with an empty queue, one request was
accepted and nothing has been delivered to the application. -/
theorem queue_accounting_without_callback :
    ((osmo_modbus_conn_connect ⟨fun r => (0, r), fun _ => true, fun r _ => some (0, r)⟩
        (osmo_modbus_conn_alloc .OSMO_MODBUS_ROLE_MASTER)).bind
      (fun r1 =>
        (osmo_modbus_conn_submit_prim
          ⟨fun r => (0, r), fun _ => true, fun r _ => some (0, r)⟩ r1.2
          (osmo_modbus_makeprim_mult_hold_reg_req 1 0x000C 1)).bind
        (fun r2 =>
          conn_master_timer_expired
            ⟨fun r => (0, r), fun _ => true, fun r _ => some (0, r)⟩ r2.2 []))).map
        (fun c3 => (c3.fi_state, c3.msg_queue.length, c3.submit_log.length,
          c3.cb_log.length))
      = some (.CONN_MASTER_ST_IDLE, 0, 1, 0) := by
  decide

/-- C34, amended: on a master whose application registered its callback after
`osmo_modbus_conn_alloc` and keeps it, in every state reached by connect, submit,
receive and timeout events (and configuration calls and endpoint activity), the length
of the outbound queue, plus 1 in WAIT_REPLY, plus the number of callback invocations
(each one a reply or a Response-Timeout indication) is the number of accepted
submissions, all of which are requests. -/
theorem master_queue_accounting (ops : osmo_modbus_proto_ops) (c : osmo_modbus_conn)
    (h : master_reachable_cb ops c) :
    c.msg_queue.length + (if c.fi_state = .CONN_MASTER_ST_WAIT_REPLY then 1 else 0)
        + c.cb_log.length = c.submit_log.length
      ∧ ∀ p ∈ c.submit_log, p.oph.operation = .PRIM_OP_REQUEST := by
  obtain ⟨_, hfifo, hreq⟩ := master_fifo_inv_reachable ops c (master_reachable_of_cb ops c h)
  obtain ⟨_, hacc⟩ := master_account_inv_reachable ops c h
  refine ⟨?_, hreq⟩
  have hlen : c.tx_log.length + c.msg_queue.length = c.submit_log.length := by
    rw [← hfifo, List.length_append]
  omega

theorem master_queue_accounting_witness :
    (0 + 1 + 0 = 1)
      ∧ ∀ p ∈ [osmo_modbus_makeprim_mult_hold_reg_req 1 0x000C 1],
          p.oph.operation = .PRIM_OP_REQUEST :=
  master_queue_accounting ⟨fun r => (0, r), fun _ => true, fun r _ => some (0, r)⟩
    { osmo_modbus_conn_alloc .OSMO_MODBUS_ROLE_MASTER with
      prim_cb := true
      submit_log := [osmo_modbus_makeprim_mult_hold_reg_req 1 0x000C 1]
      tx_log := [osmo_modbus_makeprim_mult_hold_reg_req 1 0x000C 1]
      master_req_for_addr := 1
      fi_state := .CONN_MASTER_ST_WAIT_REPLY
      fi_timer := some (OSMO_MODBUS_TO_NORESPONSE, 1) }
    (master_reachable_cb.submit
      { osmo_modbus_conn_alloc .OSMO_MODBUS_ROLE_MASTER with
        prim_cb := true, fi_state := .CONN_MASTER_ST_IDLE }
      _ (osmo_modbus_makeprim_mult_hold_reg_req 1 0x000C 1) 0
      (master_reachable_cb.connect
        { osmo_modbus_conn_alloc .OSMO_MODBUS_ROLE_MASTER with prim_cb := true } _ 0
        master_reachable_cb.alloc (by decide))
      (by decide))

/-! ## No event aborts inside the connection FSMs -/

theorem submit_prim_master_total (ops : osmo_modbus_proto_ops)
    (htx : ∀ r p, ∃ x, ops.tx_prim r p = some x)
    (c : osmo_modbus_conn) (prim : osmo_modbus_prim) (hinv : master_state_inv c) :
    ∃ r, osmo_modbus_conn_submit_prim ops c prim = some r := by
  obtain ⟨hrole, hst, _⟩ := hinv
  by_cases hop : prim.oph.operation = .PRIM_OP_REQUEST
  · rcases hst with hs | hs | hs
    · exact ⟨_, submit_prim_master_disconnected ops c prim hrole hs hop⟩
    · cases hq : c.msg_queue ++ [prim] with
      | nil => simp at hq
      | cons head rest =>
        rw [submit_prim_master_idle ops c prim head rest hrole hs hop hq]
        obtain ⟨x, hx⟩ := htx c.proto head
        rw [hx]
        exact ⟨_, rfl⟩
    · exact ⟨_, submit_prim_master_wait_reply ops c prim hrole hs hop⟩
  · exact ⟨_, submit_prim_rejects_wrong_operation_aux ops c prim hrole hop⟩

theorem connect_master_total (ops : osmo_modbus_proto_ops)
    (htx : ∀ r p, ∃ x, ops.tx_prim r p = some x)
    (c : osmo_modbus_conn) (hinv : master_state_inv c) :
    ∃ r, osmo_modbus_conn_connect ops c = some r := by
  obtain ⟨hrole, hst, _⟩ := hinv
  rcases hst with hs | hs | hs
  · rw [connect_master_disconnected ops c hrole hs]
    split
    · cases hq : c.msg_queue with
      | nil => exact ⟨_, rfl⟩
      | cons next rest =>
        obtain ⟨x, hx⟩ := htx (ops.connect c.proto).2 next
        simp only [hx]
        exact ⟨_, rfl⟩
    · exact ⟨_, rfl⟩
  · exact ⟨_, connect_master_not_disconnected ops c hrole (Or.inl hs)⟩
  · exact ⟨_, connect_master_not_disconnected ops c hrole (Or.inr hs)⟩

theorem leave_wait_reply_total (ops : osmo_modbus_proto_ops)
    (htx : ∀ r p, ∃ x, ops.tx_prim r p = some x)
    (c : osmo_modbus_conn) (prim : osmo_modbus_prim) (app : List osmo_modbus_prim)
    (hrole : c.role = .OSMO_MODBUS_ROLE_MASTER)
    (hstate : c.fi_state = .CONN_MASTER_ST_WAIT_REPLY) :
    ∃ c', (match conn_master_deliver ops c prim app with
      | none => none
      | some c1 => conn_master_fsm_state_chg ops c1 .CONN_MASTER_ST_IDLE) = some c' := by
  cases hcb : c.prim_cb with
  | true =>
    rw [conn_master_deliver_and_leave ops c prim app hrole hstate hcb]
    cases hq : c.msg_queue ++ conn_requests app with
    | nil => exact ⟨_, rfl⟩
    | cons next rest =>
      obtain ⟨x, hx⟩ := htx c.proto next
      simp only [hx]
      exact ⟨_, rfl⟩
  | false =>
    have hd : conn_master_deliver ops c prim app = some c := by
      simp [conn_master_deliver, hcb]
    rw [hd]
    simp only []
    rw [conn_master_leave_wait_reply ops c hstate]
    cases hq : c.msg_queue with
    | nil => exact ⟨_, rfl⟩
    | cons next rest =>
      obtain ⟨x, hx⟩ := htx c.proto next
      simp only [hx]
      exact ⟨_, rfl⟩

theorem rx_prim_master_total (ops : osmo_modbus_proto_ops)
    (htx : ∀ r p, ∃ x, ops.tx_prim r p = some x)
    (c : osmo_modbus_conn) (prim : osmo_modbus_prim) (app : List osmo_modbus_prim)
    (hinv : master_state_inv c) :
    ∃ c', osmo_modbus_conn_rx_prim ops c prim app = some c' := by
  by_cases hs : c.fi_state = .CONN_MASTER_ST_WAIT_REPLY
  · obtain ⟨c', hc'⟩ := leave_wait_reply_total ops htx c prim app hinv.1 hs
    refine ⟨c', ?_⟩
    rw [← hc']
    simp only [osmo_modbus_conn_rx_prim, hinv.1, if_true, conn_master_fsm_dispatch_recv_prim,
      hs, conn_master_states_in_event_mask, Bool.true_eq_false, if_false]
    cases conn_master_deliver ops c prim app with
    | none => rfl
    | some c1 =>
      simp only [Option.map_map]
      cases conn_master_fsm_state_chg ops c1 .CONN_MASTER_ST_IDLE <;> rfl
  · exact ⟨c, rx_prim_master_not_wait_reply ops c prim app hinv.1 hs⟩

theorem timer_expired_master_total (ops : osmo_modbus_proto_ops)
    (htx : ∀ r p, ∃ x, ops.tx_prim r p = some x)
    (c : osmo_modbus_conn) (app : List osmo_modbus_prim) (hinv : master_state_inv c) :
    ∃ c', conn_master_timer_expired ops c app = some c' := by
  cases ht : c.fi_timer with
  | none => exact ⟨c, timer_expired_master_no_timer ops c app ht⟩
  | some tv =>
    obtain ⟨hT, hs⟩ := hinv.2.2 tv.1 tv.2 ht
    have ht' : c.fi_timer = some (OSMO_MODBUS_TO_NORESPONSE, tv.2) := by
      rw [ht, ← hT]
    rw [timer_expired_master_noresponse ops c app tv.2 ht']
    exact leave_wait_reply_total ops htx { c with fi_timer := none } _ app hinv.1 hs

theorem connect_slave_disconnected (ops : osmo_modbus_proto_ops) (c : osmo_modbus_conn)
    (hrole : c.role = .OSMO_MODBUS_ROLE_SLAVE)
    (hstate : c.fi_state = .CONN_SLAVE_ST_DISCONNECTED) :
    osmo_modbus_conn_connect ops c =
      if (ops.connect c.proto).1 = 0 then
        some ((0 : Int), { c with proto := (ops.connect c.proto).2
                                  fi_state := .CONN_SLAVE_ST_IDLE
                                  fi_timer := none })
      else some (-ENOTCONN, { c with proto := (ops.connect c.proto).2 }) := by
  obtain ⟨role, address, prim_cb, msg_queue, master_req_for_addr, slave_monitor,
    T_turnaround, T_noresponse, fi_state, fi_timer, proto, tx_log, cb_log, submit_log⟩ := c
  simp only at hrole hstate
  subst hrole hstate
  unfold osmo_modbus_conn_connect
  rw [if_neg (by simp)]
  simp only [conn_slave_states_in_event_mask, Bool.true_eq_false, if_false,
    conn_slave_fsm_state_chg, conn_slave_states_out_state_mask]

theorem connect_slave_not_disconnected (ops : osmo_modbus_proto_ops)
    (c : osmo_modbus_conn)
    (hrole : c.role = .OSMO_MODBUS_ROLE_SLAVE)
    (hstate : c.fi_state = .CONN_SLAVE_ST_IDLE
      ∨ c.fi_state = .CONN_SLAVE_ST_CHECK_REQUEST) :
    osmo_modbus_conn_connect ops c = some (-1, c) := by
  unfold osmo_modbus_conn_connect
  rw [if_neg (by rw [hrole]; decide)]
  rcases hstate with h | h <;> rw [h] <;> rfl

theorem slave_state_inv_submit_prim (ops : osmo_modbus_proto_ops)
    (c c' : osmo_modbus_conn) (prim : osmo_modbus_prim) (rc : Int)
    (hinv : slave_state_inv c)
    (h : osmo_modbus_conn_submit_prim ops c prim = some (rc, c')) : slave_state_inv c' := by
  obtain ⟨hr, _, hstep⟩ := submit_prim_slave_step ops c c' prim rc hinv.1 h
  refine ⟨hr.trans hinv.1, ?_⟩
  rcases hstep with ⟨_, hst⟩ | ⟨_, hst, _⟩
  · rw [hst]; exact hinv.2
  · exact Or.inr (Or.inl hst)

theorem slave_state_inv_app_submits (ops : osmo_modbus_proto_ops)
    (app : List osmo_modbus_prim) (c c' : osmo_modbus_conn)
    (hinv : slave_state_inv c)
    (h : conn_app_submits ops c app = some c') : slave_state_inv c' := by
  induction app generalizing c with
  | nil =>
    simp only [conn_app_submits, Option.some.injEq] at h
    exact h ▸ hinv
  | cons p rest ih =>
    unfold conn_app_submits at h
    cases hs : osmo_modbus_conn_submit_prim ops c p with
    | none => rw [hs] at h; simp at h
    | some r =>
      rw [hs] at h
      exact ih r.2 (slave_state_inv_submit_prim ops c r.2 p r.1 hinv hs) h

theorem slave_state_inv_rx_prim (ops : osmo_modbus_proto_ops)
    (c c' : osmo_modbus_conn) (prim : osmo_modbus_prim) (app : List osmo_modbus_prim)
    (hinv : slave_state_inv c)
    (h : osmo_modbus_conn_rx_prim ops c prim app = some c') : slave_state_inv c' := by
  obtain ⟨hrole, hst⟩ := hinv
  by_cases hstate : c.fi_state = .CONN_SLAVE_ST_IDLE
  · by_cases hnot : c.prim_cb = false ∨ c.address ≠ prim.address
    · rw [rx_prim_slave_idle_not_addressed ops c prim app hrole hstate hnot] at h
      simp only [Option.some.injEq] at h
      subst h
      split
      · exact ⟨hrole, hst⟩
      · exact ⟨hrole, hst⟩
    · have hcb : c.prim_cb = true := by
        cases hc : c.prim_cb with
        | true => rfl
        | false => exact absurd (Or.inl hc) hnot
      have haddr : prim.address = c.address := by
        by_contra hne
        exact hnot (Or.inr (fun heq => hne heq.symm))
      rw [rx_prim_slave_idle_addressed ops c prim app hrole hstate hcb haddr] at h
      exact slave_state_inv_app_submits ops app
        { c with fi_state := .CONN_SLAVE_ST_CHECK_REQUEST
                 fi_timer := none
                 cb_log := c.cb_log ++ [prim] } c' ⟨hrole, Or.inr (Or.inr rfl)⟩ h
  · rw [rx_prim_slave_not_idle ops c prim app hrole hstate] at h
    simp only [Option.some.injEq] at h
    subst h
    exact ⟨hrole, hst⟩

theorem slave_state_inv_connect (ops : osmo_modbus_proto_ops)
    (c c' : osmo_modbus_conn) (rc : Int)
    (hinv : slave_state_inv c)
    (h : osmo_modbus_conn_connect ops c = some (rc, c')) : slave_state_inv c' := by
  obtain ⟨hrole, hst⟩ := hinv
  rcases hst with hs | hs | hs
  · rw [connect_slave_disconnected ops c hrole hs] at h
    split at h
    · simp only [Option.some.injEq, Prod.mk.injEq] at h
      obtain ⟨_, rfl⟩ := h
      exact ⟨hrole, Or.inr (Or.inl rfl)⟩
    · simp only [Option.some.injEq, Prod.mk.injEq] at h
      obtain ⟨_, rfl⟩ := h
      exact ⟨hrole, Or.inl hs⟩
  · rw [connect_slave_not_disconnected ops c hrole (Or.inl hs)] at h
    simp only [Option.some.injEq, Prod.mk.injEq] at h
    obtain ⟨_, rfl⟩ := h
    exact ⟨hrole, Or.inr (Or.inl hs)⟩
  · rw [connect_slave_not_disconnected ops c hrole (Or.inr hs)] at h
    simp only [Option.some.injEq, Prod.mk.injEq] at h
    obtain ⟨_, rfl⟩ := h
    exact ⟨hrole, Or.inr (Or.inr hs)⟩

theorem slave_state_inv_reachable (ops : osmo_modbus_proto_ops) (c : osmo_modbus_conn)
    (h : slave_reachable ops c) : slave_state_inv c := by
  induction h with
  | alloc => exact ⟨rfl, Or.inl rfl⟩
  | connect c c' rc _ hstep ih => exact slave_state_inv_connect ops c c' rc ih hstep
  | submit c c' prim rc _ hstep ih =>
    exact slave_state_inv_submit_prim ops c c' prim rc ih hstep
  | receive c c' prim app _ hstep ih =>
    exact slave_state_inv_rx_prim ops c c' prim app ih hstep
  | set_address c address _ ih => exact ih
  | set_prim_cb c prim_cb _ ih => exact ih
  | set_monitor_mode c enable _ ih =>
    unfold osmo_modbus_conn_set_monitor_mode
    split
    · exact ih
    · exact ih
  | endpoint c proto _ ih => exact ih

theorem submit_prim_slave_total (ops : osmo_modbus_proto_ops)
    (htx : ∀ r p, ∃ x, ops.tx_prim r p = some x)
    (c : osmo_modbus_conn) (prim : osmo_modbus_prim) (hinv : slave_state_inv c) :
    ∃ r, osmo_modbus_conn_submit_prim ops c prim = some r := by
  by_cases hs : c.fi_state = .CONN_SLAVE_ST_CHECK_REQUEST
  · by_cases hop : prim.oph.operation = .PRIM_OP_RESPONSE
    · cases hq : c.msg_queue ++ [prim] with
      | nil => simp at hq
      | cons head rest =>
        rw [submit_prim_slave_check_request ops c prim head rest hinv.1 hs hop hq]
        obtain ⟨x, hx⟩ := htx c.proto head
        rw [hx]
        exact ⟨_, rfl⟩
    · refine ⟨(-EINVAL, c), ?_⟩
      unfold osmo_modbus_conn_submit_prim
      rw [if_pos (Or.inr ⟨hinv.1, hop⟩)]
  · rw [submit_prim_slave_not_check_request ops c prim hinv.1 hs]
    split
    · exact ⟨_, rfl⟩
    · exact ⟨_, rfl⟩

theorem conn_app_submits_slave_total (ops : osmo_modbus_proto_ops)
    (htx : ∀ r p, ∃ x, ops.tx_prim r p = some x)
    (app : List osmo_modbus_prim) (c : osmo_modbus_conn) (hinv : slave_state_inv c) :
    ∃ c', conn_app_submits ops c app = some c' := by
  induction app generalizing c with
  | nil => exact ⟨c, rfl⟩
  | cons p rest ih =>
    obtain ⟨r, hr⟩ := submit_prim_slave_total ops htx c p hinv
    unfold conn_app_submits
    rw [hr]
    exact ih r.2 (slave_state_inv_submit_prim ops c r.2 p r.1 hinv hr)

theorem rx_prim_slave_total (ops : osmo_modbus_proto_ops)
    (htx : ∀ r p, ∃ x, ops.tx_prim r p = some x)
    (c : osmo_modbus_conn) (prim : osmo_modbus_prim) (app : List osmo_modbus_prim)
    (hinv : slave_state_inv c) :
    ∃ c', osmo_modbus_conn_rx_prim ops c prim app = some c' := by
  obtain ⟨hrole, hst⟩ := hinv
  by_cases hstate : c.fi_state = .CONN_SLAVE_ST_IDLE
  · by_cases hnot : c.prim_cb = false ∨ c.address ≠ prim.address
    · exact ⟨_, rx_prim_slave_idle_not_addressed ops c prim app hrole hstate hnot⟩
    · have hcb : c.prim_cb = true := by
        cases hc : c.prim_cb with
        | true => rfl
        | false => exact absurd (Or.inl hc) hnot
      have haddr : prim.address = c.address := by
        by_contra hne
        exact hnot (Or.inr (fun heq => hne heq.symm))
      rw [rx_prim_slave_idle_addressed ops c prim app hrole hstate hcb haddr]
      exact conn_app_submits_slave_total ops htx app
        { c with fi_state := .CONN_SLAVE_ST_CHECK_REQUEST
                 fi_timer := none
                 cb_log := c.cb_log ++ [prim] } ⟨hrole, Or.inr (Or.inr rfl)⟩
  · exact ⟨c, rx_prim_slave_not_idle ops c prim app hrole hstate⟩

theorem connect_slave_total (ops : osmo_modbus_proto_ops)
    (c : osmo_modbus_conn) (hinv : slave_state_inv c) :
    ∃ r, osmo_modbus_conn_connect ops c = some r := by
  obtain ⟨hrole, hst⟩ := hinv
  rcases hst with hs | hs | hs
  · rw [connect_slave_disconnected ops c hrole hs]
    split
    · exact ⟨_, rfl⟩
    · exact ⟨_, rfl⟩
  · exact ⟨_, connect_slave_not_disconnected ops c hrole (Or.inl hs)⟩
  · exact ⟨_, connect_slave_not_disconnected ops c hrole (Or.inr hs)⟩

/-! ## No assertion of the state machines fails -/

theorem rtu_dispatch_table (e : host_endian) (rtu : osmo_modbus_conn_rtu)
    (event : rtu_transmit_event)
    (hbaud : rtu.baudrate ≠ 0)
    (htx : event = .RTU_TRANSMIT_EV_DEMAND_OF_EMISSION → rtu.tx_msg ≠ none) :
    match rtu_next_state_spec rtu.fi_state event with
    | some state =>
      rtu_transmit_states_in_event_mask rtu.fi_state event = true
        ∧ ∃ r fwd, rtu_transmit_fsm_dispatch e rtu event = some (0, r, fwd)
          ∧ r.fi_state = state
    | none =>
      rtu_transmit_states_in_event_mask rtu.fi_state event = false
        ∧ rtu_transmit_fsm_dispatch e rtu event = some (-1, rtu, none) := by
  obtain ⟨dev_path, baudrate, ofd_fd, ofd_when_write, rx_msg, rx_msg_ok, tx_msg, T15, T35,
    fi_state, fi_timer⟩ := rtu
  simp only at hbaud htx
  cases fi_state <;> cases event <;>
    simp only [rtu_next_state_spec, rtu_transmit_states_in_event_mask,
      rtu_transmit_fsm_dispatch, Bool.true_eq_false, Bool.false_eq_true, if_true, if_false,
      true_and, and_self, rearm_timer, rearm_timer_with_factor, Option.some.injEq,
      Prod.mk.injEq, exists_and_left, exists_eq_left', true_and]
  all_goals first
    | exact ⟨_, _, ⟨rfl, rfl⟩, rfl⟩
    | (simp only [rtu_transmit_fsm_state_chg, rtu_transmit_states_out_state_mask,
        rtu_transmit_fsm_st_ctrlwait_t35, rtu_transmit_fsm_st_ctrlwait_onenter,
        rtu_transmit_fsm_st_emission_onenter, rtu_transmit_fsm_set_state,
        rearm_timer_with_factor, Bool.true_eq_false, if_false, if_neg hbaud, Option.map_some']
       first
         | exact ⟨_, _, rfl, rfl⟩
         | (split <;> exact ⟨_, _, rfl, rfl⟩)
         | (cases tx_msg with
            | none => exact absurd rfl (htx rfl)
            | some msg => exact ⟨_, _, rfl, rfl⟩))

theorem rtu_next_state_spec_permitted (s t : rtu_transmit_state) (ev : rtu_transmit_event)
    (h : rtu_next_state_spec s ev = some t) :
    t = s ∨ rtu_transmit_states_out_state_mask s t = true := by
  cases s <;> cases ev <;> simp only [rtu_next_state_spec, Option.some.injEq,
    reduceCtorEq] at h <;> subst h <;> decide

theorem rtu_dispatch_in_mask (e : host_endian) (rtu : osmo_modbus_conn_rtu)
    (event : rtu_transmit_event)
    (hbaud : rtu.baudrate ≠ 0)
    (htx : event = .RTU_TRANSMIT_EV_DEMAND_OF_EMISSION → rtu.tx_msg ≠ none)
    (hmask : rtu_transmit_states_in_event_mask rtu.fi_state event = true) :
    ∃ state r fwd,
      rtu_next_state_spec rtu.fi_state event = some state
      ∧ rtu_transmit_fsm_dispatch e rtu event = some (0, r, fwd)
      ∧ r.fi_state = state
      ∧ (state = rtu.fi_state
          ∨ rtu_transmit_states_out_state_mask rtu.fi_state state = true) := by
  have h := rtu_dispatch_table e rtu event hbaud htx
  cases hspec : rtu_next_state_spec rtu.fi_state event with
  | none =>
    rw [hspec] at h
    rw [h.1] at hmask
    exact absurd hmask (by decide)
  | some state =>
    rw [hspec] at h
    obtain ⟨_, r, fwd, hd, hs⟩ := h
    exact ⟨state, r, fwd, rfl, hd, hs, rtu_next_state_spec_permitted _ _ _ hspec⟩

/-- C39: no assertion inside the three state machines fails. In the RTU FSM every event
in the `in_event_mask` of the state has a case in the action function: the dispatch
returns 0 (baud rate not zero, a demand of emission finding its frame) in the state of
the next-state table, which is the old state or one the `out_state_mask` permits. On a
master and on a slave, in every state reached by connect, submit, receive and timeout
events, every one of these events returns as long as `tx_prim` of the endpoint does: no
`default` branch is taken and the queue is not empty where the FSM dequeues (on entering
WAIT_REPLY, on SUBMIT_PRIM in CHECK_REQUEST). A timer is pending on a master only in
WAIT_REPLY, from where the state change of the timer callback is permitted, and the
state changes the action functions make are in the `out_state_mask` of their state. -/
theorem no_fsm_assertion_fails :
    (∀ (e : host_endian) (rtu : osmo_modbus_conn_rtu) (event : rtu_transmit_event),
        rtu.baudrate ≠ 0 →
        (event = .RTU_TRANSMIT_EV_DEMAND_OF_EMISSION → rtu.tx_msg ≠ none) →
        rtu_transmit_states_in_event_mask rtu.fi_state event = true →
        ∃ state r fwd,
          rtu_next_state_spec rtu.fi_state event = some state
          ∧ rtu_transmit_fsm_dispatch e rtu event = some (0, r, fwd)
          ∧ r.fi_state = state
          ∧ (state = rtu.fi_state
              ∨ rtu_transmit_states_out_state_mask rtu.fi_state state = true))
    ∧ (∀ ops : osmo_modbus_proto_ops, (∀ r p, ∃ x, ops.tx_prim r p = some x) →
        ∀ c : osmo_modbus_conn, master_reachable ops c →
          (∀ prim, ∃ r, osmo_modbus_conn_submit_prim ops c prim = some r)
          ∧ (∃ r, osmo_modbus_conn_connect ops c = some r)
          ∧ (∀ prim app, ∃ c', osmo_modbus_conn_rx_prim ops c prim app = some c')
          ∧ (∀ app, ∃ c', conn_master_timer_expired ops c app = some c')
          ∧ (∀ T v, c.fi_timer = some (T, v) →
              T = OSMO_MODBUS_TO_NORESPONSE
              ∧ conn_master_states_out_state_mask c.fi_state .CONN_MASTER_ST_IDLE = true))
    ∧ (∀ ops : osmo_modbus_proto_ops, (∀ r p, ∃ x, ops.tx_prim r p = some x) →
        ∀ c : osmo_modbus_conn, slave_reachable ops c →
          (∀ prim, ∃ r, osmo_modbus_conn_submit_prim ops c prim = some r)
          ∧ (∃ r, osmo_modbus_conn_connect ops c = some r)
          ∧ (∀ prim app, ∃ c', osmo_modbus_conn_rx_prim ops c prim app = some c'))
    ∧ (conn_master_states_out_state_mask .CONN_MASTER_ST_DISCONNECTED .CONN_MASTER_ST_IDLE
          = true
        ∧ conn_master_states_out_state_mask .CONN_MASTER_ST_IDLE .CONN_MASTER_ST_WAIT_REPLY
          = true
        ∧ conn_master_states_out_state_mask .CONN_MASTER_ST_WAIT_REPLY .CONN_MASTER_ST_IDLE
          = true
        ∧ conn_slave_states_out_state_mask .CONN_SLAVE_ST_DISCONNECTED .CONN_SLAVE_ST_IDLE
          = true
        ∧ conn_slave_states_out_state_mask .CONN_SLAVE_ST_IDLE .CONN_SLAVE_ST_CHECK_REQUEST
          = true
        ∧ conn_slave_states_out_state_mask .CONN_SLAVE_ST_CHECK_REQUEST .CONN_SLAVE_ST_IDLE
          = true) := by
  refine ⟨?_, ?_, ?_, ?_⟩
  · intro e rtu event hbaud htx hmask
    exact rtu_dispatch_in_mask e rtu event hbaud htx hmask
  · intro ops htx c hreach
    have hinv := master_state_inv_reachable ops c hreach
    refine ⟨fun prim => submit_prim_master_total ops htx c prim hinv,
      connect_master_total ops htx c hinv,
      fun prim app => rx_prim_master_total ops htx c prim app hinv,
      fun app => timer_expired_master_total ops htx c app hinv, ?_⟩
    intro T v ht
    obtain ⟨hT, hs⟩ := hinv.2.2 T v ht
    refine ⟨hT, ?_⟩
    rw [hs]
    rfl
  · intro ops htx c hreach
    have hinv := slave_state_inv_reachable ops c hreach
    exact ⟨fun prim => submit_prim_slave_total ops htx c prim hinv,
      connect_slave_total ops c hinv,
      fun prim app => rx_prim_slave_total ops htx c prim app hinv⟩
  · decide

theorem no_fsm_assertion_fails_witness :
    ∃ r, osmo_modbus_conn_submit_prim ⟨fun r => (0, r), fun _ => true, fun r _ => some (0, r)⟩
      (osmo_modbus_conn_alloc .OSMO_MODBUS_ROLE_MASTER)
      (osmo_modbus_makeprim_mult_hold_reg_req 1 0x000C 1) = some r :=
  (no_fsm_assertion_fails.2.1 ⟨fun r => (0, r), fun _ => true, fun r _ => some (0, r)⟩
    (fun r _ => ⟨(0, r), rfl⟩) _ master_reachable.alloc).1
    (osmo_modbus_makeprim_mult_hold_reg_req 1 0x000C 1)

end OsmoModbus
